import Mathlib

/-!
# DEF reader (definReader.cpp): shallow embedding and verified properties

The development embeds the callbacks of `odb::definReader` that translate the
events of the DEF parser into calls on the per-construct builders.

Conventions of the embedding.

* A value of the C++ type `int` is an `Int`; `INT_MAX` and `INT_MIN` are the
  32-bit limits and `IsInt32` says that a value is representable.  Signed
  overflow is undefined behaviour in C++: an arithmetic operation on values
  of type int is `intResult` of its exact value, which is `none` when the
  exact value is not representable.
* A finite value of the C++ type `double` is a rational number.  The
  conversion `(int) d` discards the fractional part; the theorems about it
  are stated for values whose integer part is an int.
* A nullable `const char*` is an `Option String`.
* A local variable that is declared without an initial value holds `none`
  until it is assigned; reading it while it is unassigned, and dereferencing a
  null pointer, are undefined behaviour: a function that can do so returns an
  `Option`, and `none` stands for undefined behaviour.
* A failed `assert` aborts the program: a function whose assertion can fail
  returns `none` there as well.
* The builders (definNet, definComponent, ...) and the design database are not
  part of definReader.cpp.  A callback is modelled by what it does to them:
  the list of the calls it makes, in the order in which it makes them.
* The output of `notice` is the list of the messages, in order.
-/

namespace odb

/-! ## Data model -/

/-- The return codes of a parser callback. -/
inductive ParseResult where
  | PARSE_OK
  | PARSE_ERROR
  deriving DecidableEq, Repr

/-- The largest value of the C++ type int. -/
def INT_MAX : Int := 2147483647

/-- The smallest value of the C++ type int. -/
def INT_MIN : Int := -2147483648

/-- A value that the C++ type int can hold. -/
def IsInt32 (v : Int) : Prop := INT_MIN ≤ v ∧ v ≤ INT_MAX

instance (v : Int) : Decidable (IsInt32 v) := by
  unfold IsInt32; exact inferInstance

/-- The result of an arithmetic operation on values of the C++ type int whose
exact value is `v`: the value `v` when the type int can hold it, and `none`
for signed overflow, which is undefined behaviour. -/
def intResult (v : Int) : Option Int :=
  if INT_MIN ≤ v ∧ v ≤ INT_MAX then some v else none

/-- A routing layer of the technology (`dbTechLayer`, declared outside
definReader.cpp), reduced to what the reader asks of it: `getWidth()`. -/
structure dbTechLayer where
  getWidth : Int
  deriving DecidableEq, Repr

/-- Modelled from the spec: the technology (`dbTech`) and the net builder
(`definNet`) are declared outside definReader.cpp.  The reader asks the
technology for `getDbUnitsPerMicron()`.  The spec says that every builder
holds the active technology so that it can resolve layer lookups:
`findLayer` is the lookup by which the net builder resolves the layer named
in a `path` call, and `netR->getLayer()` is its result, the null pointer when
there is no such layer. -/
structure dbTech where
  getDbUnitsPerMicron : Int
  findLayer : String → Option dbTechLayer

/-- One token of a `defiPath`, with the data that the accessor of its kind
(`getLayer`, `getPoint`, `getViaRect`, ...) returns.  The constructor is the
`DEFIPATH_` key that `defiPath::next` returns for the token. -/
inductive defiPathTok where
  | LAYER (layer : String)
  | VIA (via : String)
  | VIAROTATION (rotation : Int)
  | WIDTH (width : Int)
  | POINT (x y : Int)
  | FLUSHPOINT (x y ext : Int)
  | TAPER
  | SHAPE (shape : String)
  | STYLE (style : Int)
  | TAPERRULE (rule : String)
  | VIADATA (numX numY stepX stepY : Int)
  | RECT (deltaX1 deltaY1 deltaX2 deltaY2 : Int)
  | VIRTUALPOINT (x y : Int)
  | MASK (mask : Int)
  | VIAMASK (mask : Int)
  deriving DecidableEq, Repr

/-- A `defiPath`: the sequence of its tokens.  `initTraverse` puts the cursor
in front of the first token, `next` moves it forward by one token and returns
the key of the token it reaches (`DEFIPATH_DONE` past the last one), `prev`
moves it back by one. -/
abbrev defiPath := List defiPathTok

/-- The orientations of the database (`dbOrientType`). -/
inductive dbOrientType where
  | R0 | R90 | R180 | R270 | MY | MYR90 | MX | MXR90
  deriving DecidableEq, Repr

/-- Modelled from the spec: `translate_orientation` is declared outside
definReader.cpp.  The spec describes it as a fixed lookup from the external
8-value rotation/mirror code to the internal equivalent, total and
order-preserving. -/
def translate_orientation (orient : Int) : dbOrientType :=
  if orient = 1 then .R90
  else if orient = 2 then .R180
  else if orient = 3 then .R270
  else if orient = 4 then .MY
  else if orient = 5 then .MYR90
  else if orient = 6 then .MX
  else if orient = 7 then .MXR90
  else .R0

/-- A call of one of the three overloads of `property(name, value)` that
every builder with properties has: `double`, `int` and `const char*`. -/
inductive PropertyCall where
  | real (name : String) (value : ℚ)
  | int (name : String) (value : Int)
  | string (name value : String)
  deriving DecidableEq, Repr

/-- A call on the net builder (`definNet`), with its arguments.  The layer of
`path` is a `const char*` that `handleRectPath` may pass as a null pointer. -/
inductive NetCall where
  | begin (name : String)
  | use (use : String)
  | source (source : String)
  | fixedbump
  | weight (weight : Int)
  | nonDefaultRule (rule : String)
  | beginMustjoin (inst pin : String)
  | connection (inst pin : String)
  | wire (wireType : String)
  | path (layer : Option String)
  | pathTaper (layer : String)
  | pathTaperRule (layer rule : String)
  | pathVia (via : String)
  | pathViaOrient (via : String) (orient : dbOrientType)
  | pathPoint (x y : Int)
  | pathPointExt (x y ext : Int)
  | pathStyle (style : Int)
  | pathEnd
  | wireEnd
  | property (call : PropertyCall)
  | end_
  deriving DecidableEq, Repr

/-! ## handleRectPath -/

/-- The locals of `handleRectPath` that its loop assigns.  `point` holds
`x, y` and is `some` exactly when `hasPoint` is true; `rect` holds
`deltaX1, deltaY1, deltaX2, deltaY2` and is `some` exactly when `hasRect` is
true.  `layerName` starts as the null pointer. -/
structure RectPathLocals where
  layerName : Option String
  point : Option (Int × Int)
  rect : Option (Int × Int × Int × Int)
  deriving DecidableEq, Repr

/-- The locals of `handleRectPath` on entry to its loop. -/
def RectPathLocals.init : RectPathLocals :=
  { layerName := none, point := none, rect := none }

/-- The loop of `handleRectPath` over the tokens of the path.  The result is
`none` when the loop leaves the function with `return false` (a second point,
a second rect, or a token of another kind), and the locals at
`DEFIPATH_DONE` otherwise. -/
def handleRectPathLoop : defiPath → RectPathLocals → Option RectPathLocals
  | [], s => some s
  | .LAYER layer :: rest, s =>
      handleRectPathLoop rest { s with layerName := some layer }
  | .POINT x y :: rest, s =>
      if s.point.isSome then none
      else handleRectPathLoop rest { s with point := some (x, y) }
  | .RECT dx1 dy1 dx2 dy2 :: rest, s =>
      if s.rect.isSome then none
      else handleRectPathLoop rest { s with rect := some (dx1, dy1, dx2, dy2) }
  | _ :: _, _ => none

/-- The part of `handleRectPath` after its loop, from `netR->path(layerName)`
on.  The result is `none` for undefined behaviour: no layer to take the width
of, a read of `x, y` or of the deltas while they are unassigned, or signed
overflow in one of the subtractions, negations and additions.  Otherwise it
is the returned boolean with the calls made on the net builder. -/
def handleRectPathEmit (tech : dbTech) (s : RectPathLocals) :
    Option (Bool × List NetCall) :=
  match s.layerName.bind tech.findLayer with
  | none => none
  | some layer =>
    let minWidth := layer.getWidth
    let ext := Int.tdiv minWidth 2
    match s.rect with
    | none => none
    | some (deltaX1, deltaY1, deltaX2, deltaY2) =>
      (intResult (deltaX2 - deltaX1)).bind fun spanX =>
        if spanX = minWidth then
          (intResult (-deltaX1)).bind fun negX1 =>
            if negX1 ≠ deltaX2 then some (false, [.path s.layerName])
            else
              match s.point with
              | none => none
              | some (x, y) =>
                (intResult (y + deltaY1)).bind fun sum1 =>
                (intResult (sum1 + ext)).bind fun y1 =>
                (intResult (y + deltaY2)).bind fun sum2 =>
                (intResult (sum2 - ext)).bind fun y2 =>
                  some (true, [.path s.layerName, .pathPoint x y1,
                               .pathPoint x y2, .pathEnd])
        else
          (intResult (deltaY2 - deltaY1)).bind fun spanY =>
            if spanY = minWidth then
              (intResult (-deltaY1)).bind fun negY1 =>
                if negY1 ≠ deltaY2 then some (false, [.path s.layerName])
                else
                  match s.point with
                  | none => none
                  | some (x, y) =>
                    (intResult (x + deltaX1)).bind fun sum1 =>
                    (intResult (sum1 + ext)).bind fun x1 =>
                    (intResult (x + deltaX2)).bind fun sum2 =>
                    (intResult (sum2 - ext)).bind fun x2 =>
                      some (true, [.path s.layerName, .pathPoint x1 y,
                                   .pathPoint x2 y, .pathEnd])
            else some (false, [.path s.layerName])

/-- The function `handleRectPath(path, netR)`; `tech` is the technology in
which the net builder resolves layers.  The result is `none` for undefined
behaviour, and otherwise the returned boolean with the calls made on the net
builder, in order. -/
def handleRectPath (tech : dbTech) (path : defiPath) :
    Option (Bool × List NetCall) :=
  match handleRectPathLoop path RectPathLocals.init with
  | none => some (false, [])
  | some s => handleRectPathEmit tech s

/-! ## The reader and its builders -/

/-- Modelled from the spec: the class `definBase` is declared in definBase.h,
which is not among the sources.  Every builder and the reader itself derive
from it.  definReader.cpp uses its error counter `_errors`; the spec adds the
shared unit scale, a single conversion factor (database units per micron)
fixed once per file via the units event. -/
structure definBase where
  _errors : Int
  unitScale : ℚ
  deriving DecidableEq, Repr

/-- Modelled from the spec: `definBase::units(d)` is defined outside
definReader.cpp.  The spec says that a unit event updates the shared scale
of the builder. -/
def definBase.units (b : definBase) (d : ℚ) : definBase :=
  { b with unitScale := d }

/-- The reader.  It is a `definBase` itself.  `_interfaces` holds the base
part of the builders that the constructor registers, in the order of its
`push_back` calls: blockage, component, fill, gcell, net, pin, row, special
net, tracks, via, region, non-default rule, property definitions, pin
properties. -/
structure definReader extends definBase where
  _tech : dbTech
  _update : Bool
  _interfaces : List definBase

/-- A rectangle of the database, by its lower left and upper right corner. -/
structure Rect where
  xlo : Int
  ylo : Int
  xhi : Int
  yhi : Int
  deriving DecidableEq, Repr

/-- Modelled from the spec: the constructor `Rect(x1, y1, x2, y2)` is declared
outside definReader.cpp.  The spec says that two corners (x0,y0), (x1,y1) form
the rectangle with corners (min(x0,x1), min(y0,y1)) and
(max(x0,x1), max(y0,y1)). -/
def Rect.new (x1 y1 x2 y2 : Int) : Rect :=
  { xlo := min x1 x2, ylo := min y1 y2, xhi := max x1 x2, yhi := max y1 y2 }

/-- A point of the database. -/
structure Point where
  getX : Int
  getY : Int
  deriving DecidableEq, Repr

/-- A point of a `defiPoints` list of the parser. -/
structure defiPoint where
  x : Int
  y : Int
  deriving DecidableEq, Repr

/-- The point list that an event carries (`defiPoints`). -/
abbrev defiPoints := List defiPoint

/-- Modelled from the spec: `translate(points, P)` is defined outside
definReader.cpp.  The spec says that point-list normalization copies an
external point sequence into internal points 1:1 with no reordering. -/
def translate (points : defiPoints) : List Point :=
  points.map fun p => { getX := p.x, getY := p.y }

/-- A call on the block of the database (`reader->_block`). -/
inductive BlockCall where
  | setDieArea (r : Rect)
  | setDefUnits (d : ℚ)
  deriving DecidableEq, Repr

/-- A call on the component builder (`definComponent`), with its arguments.
The source of a component is passed on as the text that the event carries. -/
inductive ComponentCall where
  | begin (id name : String)
  | source (source : String)
  | weight (weight : Int)
  | region (region : String)
  | placement (status x y orient : Int)
  | property (call : PropertyCall)
  | end_
  deriving DecidableEq, Repr

/-- The kinds of a property definition (`defPropType`). -/
inductive defPropType where
  | DEF_INTEGER
  | DEF_REAL
  | DEF_STRING
  deriving DecidableEq, Repr

/-- A call on the builder of the property definitions (`definPropDefs`, whose
methods definPropDefs.h declares), with its arguments. -/
inductive PropDefsCall where
  | beginDefinitions
  | begin (objType name : String) (kind : defPropType)
  | valueString (value : String)
  | valueInt (value : Int)
  | valueReal (value : ℚ)
  | rangeInt (min max : Int)
  | rangeReal (min max : ℚ)
  | end_
  | endDefinitions
  deriving DecidableEq, Repr

/-- A call on the special-net builder (`definSNet`), with its arguments. -/
inductive SNetCall where
  | begin (name : String)
  | use (use : String)
  | source (source : String)
  | fixedbump
  | weight (weight : Int)
  | connection (inst pin : String) (synthesized : Bool)
  | wire (wireType shield : String)
  | rect (layer : String) (xl yl xh yh : Int)
  | wireEnd
  | pathVia (via : String)
  | path (layer : String) (width : Int)
  | pathPoint (x y : Int)
  | pathPointExt (x y ext : Int)
  | pathShape (shape : String)
  | pathStyle (style : Int)
  | pathEnd
  | property (call : PropertyCall)
  | end_
  deriving DecidableEq, Repr

/-- What a callback of the reader does: the code it returns, the reader
after the call, the messages passed to `notice` (a message is recorded by its
format string when it has numeric arguments), the calls on the block and the
calls on the net builder, on the component builder, on the builder of the
property definitions and on the special-net builder. -/
structure CallbackResult where
  result : ParseResult
  reader : definReader
  notices : List String := []
  blockCalls : List BlockCall := []
  netCalls : List NetCall := []
  componentCalls : List ComponentCall := []
  propDefsCalls : List PropDefsCall := []
  snetCalls : List SNetCall := []

/-- The method `definReader::error(msg)`: one message, and the error counter
of the reader goes up by one. -/
def definReader.error (reader : definReader) (msg : String) :
    definReader × List String :=
  ({ reader with _errors := reader._errors + 1 }, ["error: " ++ msg ++ "\n"])

/-- The pattern `reader->error(msg); return PARSE_ERROR;` after the calls
`netCalls` have been made on the net builder. -/
def definReader.reject (reader : definReader) (msg : String)
    (netCalls : List NetCall) : CallbackResult :=
  { result := .PARSE_ERROR
    reader := (reader.error msg).1
    notices := (reader.error msg).2
    netCalls := netCalls }

/-- The method `definReader::errors()`.  It is not declared `const`; the
result is the returned sum together with the reader after the call. -/
def definReader.errors (reader : definReader) : Int × definReader :=
  (reader._interfaces.foldl (fun e itr => e + itr._errors) reader._errors,
   reader)

/-! ## dieAreaCallback -/

/-- The event of a DIEAREA statement (`defiBox`): `getPoint()`. -/
structure defiBox where
  getPoint : defiPoints
  deriving DecidableEq, Repr

/-- The loop of `dieAreaCallback` over the points: one step updates
`(xmin, ymin, xmax, ymax)` with the point `p`. -/
def dieAreaStep (acc : Int × Int × Int × Int) (p : Point) :
    Int × Int × Int × Int :=
  let (xmin, ymin, xmax, ymax) := acc
  let x := p.getX
  let y := p.getY
  (if x < xmin then x else xmin,
   if y < ymin then y else ymin,
   if x > xmax then x else xmax,
   if y > ymax then y else ymax)

/-- The values of `(xmin, ymin, xmax, ymax)` after the loop of
`dieAreaCallback`, which starts from `(INT_MAX, INT_MAX, INT_MIN, INT_MIN)`. -/
def dieAreaBounds (P : List Point) : Int × Int × Int × Int :=
  P.foldl dieAreaStep (INT_MAX, INT_MAX, INT_MIN, INT_MIN)

/-- The message of `dieAreaCallback` for fewer than two points. -/
def dieAreaMissingPoints : String :=
  "error: Invalid DIEAREA statement, missing point(s)\n"

/-- The message of `dieAreaCallback` for more than two points. -/
def dieAreaPolygonWarning : String :=
  "warning: Polygon DIEAREA statement not supported.  The bounding " ++
  "box will be used instead\n"

/-- The callback `definReader::dieAreaCallback(type, box, data)`. -/
def dieAreaCallback (box : defiBox) (reader : definReader) : CallbackResult :=
  let points := box.getPoint
  if !reader._update then
    let P := translate points
    if P.length < 2 then
      { result := .PARSE_ERROR
        reader := { reader with _errors := reader._errors + 1 }
        notices := [dieAreaMissingPoints] }
    else
      match P with
      | [p0, p1] =>
        { result := .PARSE_OK
          reader := reader
          blockCalls := [.setDieArea
            (Rect.new p0.getX p0.getY p1.getX p1.getY)] }
      | _ =>
        let (xmin, ymin, xmax, ymax) := dieAreaBounds P
        { result := .PARSE_OK
          reader := reader
          notices := [dieAreaPolygonWarning]
          blockCalls := [.setDieArea (Rect.new xmin ymin xmax ymax)] }
  else
    { result := .PARSE_OK, reader := reader }

/-! ## unitsCallback -/

/-- The message of `unitsCallback` for a units value that is too large, by
its format string. -/
def unitsTooLarge : String :=
  "error: The DEF UNITS DISTANCE MICRONS convert factor (%d) is " ++
  "greater than the database units per micron (%d) value.\n"

/-- The callback `definReader::unitsCallback(type, d, data)`.  The units
value `d` is a double, and the comparison converts the int of the technology
to double.  The two numbers printed in the message are not modelled. -/
def unitsCallback (d : ℚ) (reader : definReader) : CallbackResult :=
  if d > (reader._tech.getDbUnitsPerMicron : ℚ) then
    { result := .PARSE_ERROR
      reader := { reader with _errors := reader._errors + 1 }
      notices := [unitsTooLarge] }
  else
    { result := .PARSE_OK
      reader :=
        { todefinBase := reader.todefinBase.units d
          _tech := reader._tech
          _update := reader._update
          _interfaces := reader._interfaces.map fun itr => itr.units d }
      blockCalls := if !reader._update then [.setDefUnits d] else [] }

/-! ## handle_props -/

/-- One property of an event of the parser: `propName(i)`, `propType(i)`,
`propNumber(i)` and `propValue(i)`. -/
structure defiProp where
  propName : String
  propType : Char
  propNumber : ℚ
  propValue : String
  deriving DecidableEq, Repr

/-- The conversion `(int) d` of a double to int: the fractional part is
discarded.  When the value without its fractional part is not an int, the
conversion is undefined behaviour in C++; the conversion instruction of the
x86-64 processors yields `INT_MIN` then, and so does the model. -/
def doubleToInt (d : ℚ) : Int :=
  if INT_MIN ≤ Int.tdiv d.num d.den ∧ Int.tdiv d.num d.den ≤ INT_MAX then
    Int.tdiv d.num d.den
  else INT_MIN

/-- The body of the loop of `handle_props` for one property: the call it
makes on the builder, if any. -/
def handle_prop (p : defiProp) : List PropertyCall :=
  if p.propType = 'R' then [.real p.propName p.propNumber]
  else if p.propType = 'I' then [.int p.propName (doubleToInt p.propNumber)]
  else if p.propType = 'S' ∨ p.propType = 'N' ∨ p.propType = 'Q' then
    [.string p.propName p.propValue]
  else []

/-- The template `handle_props(def_obj, callback)`: the `property` calls made
on the builder for the properties of the event, in index order. -/
def handle_props (props : List defiProp) : List PropertyCall :=
  props.flatMap handle_prop

/-! ## netCallback -/

/-- One connection of a net event: `instance(i)`, `pin(i)`,
`pinIsSynthesized(i)` and `pinIsMustJoin(i)`. -/
structure defiConnection where
  inst : String
  pin : String
  pinIsSynthesized : Bool
  pinIsMustJoin : Bool
  deriving DecidableEq, Repr

/-- One wire of a net event: `wireType()` and the paths. -/
structure defiWire where
  wireType : String
  paths : List defiPath
  deriving DecidableEq, Repr

/-- The event of a net (`defiNet`).  An optional field with its `has`
predicate is an `Option`. -/
structure defiNet where
  name : String
  numShieldNets : Int
  numVpins : Int
  hasSubnets : Bool
  hasXTalk : Bool
  hasFrequency : Bool
  hasOriginal : Bool
  hasPattern : Bool
  hasCap : Bool
  use : Option String
  source : Option String
  hasFixedbump : Bool
  weight : Option Int
  nonDefaultRule : Option String
  connections : List defiConnection
  wires : List defiWire
  props : List defiProp
  deriving DecidableEq, Repr

/-- The places where the interpretation of the tokens of a path in
`netCallback` returns `PARSE_ERROR`. -/
inductive PathAbort where
  | style
  | rect
  | virtualPoint
  | mask
  | unknown
  deriving DecidableEq, Repr

/-- The message that `netCallback` passes to `reader->error` before it
returns `PARSE_ERROR` from the interpretation of a path; there is none for
`DEFIPATH_STYLE` and for `DEFIPATH_RECT`. -/
def PathAbort.message : PathAbort → Option String
  | .style => none
  | .rect => none
  | .virtualPoint => some "VIRTUAL in net's routing is unsupported"
  | .mask => some "MASK in net's routing is unsupported"
  | .unknown => some "Unknown construct in net's routing is unsupported"

/-- The loop of `netCallback` over the tokens of one path, from the cursor
on.  The peek `path->next()` after a layer or a via, followed by
`path->prev()` when the peeked token is not the one looked for, leaves the
cursor in front of the peeked token.  The result is the place of the
`return PARSE_ERROR`, if any, and the calls made on the net builder. -/
def netPathLoop : defiPath → Option PathAbort × List NetCall
  | [] => (none, [])
  | .LAYER layer :: .TAPER :: rest =>
      ((netPathLoop rest).1, .pathTaper layer :: (netPathLoop rest).2)
  | .LAYER layer :: .TAPERRULE rule :: rest =>
      ((netPathLoop rest).1, .pathTaperRule layer rule :: (netPathLoop rest).2)
  | .LAYER layer :: rest =>
      ((netPathLoop rest).1, .path (some layer) :: (netPathLoop rest).2)
  | .VIA via :: .VIAROTATION rotation :: rest =>
      ((netPathLoop rest).1,
       .pathViaOrient via (translate_orientation rotation) ::
         (netPathLoop rest).2)
  | .VIA via :: rest =>
      ((netPathLoop rest).1, .pathVia via :: (netPathLoop rest).2)
  | .POINT x y :: rest =>
      ((netPathLoop rest).1, .pathPoint x y :: (netPathLoop rest).2)
  | .FLUSHPOINT x y ext :: rest =>
      ((netPathLoop rest).1, .pathPointExt x y ext :: (netPathLoop rest).2)
  | .STYLE style :: _ => (some .style, [.pathStyle style])
  | .RECT _ _ _ _ :: _ => (some .rect, [])
  | .VIRTUALPOINT _ _ :: _ => (some .virtualPoint, [])
  | .MASK _ :: _ => (some .mask, [])
  | .VIAMASK _ :: _ => (some .mask, [])
  | _ :: _ => (some .unknown, [])

/-- The loop of `netCallback` over the paths of one wire.  The result is
`none` for undefined behaviour in `handleRectPath`, and otherwise the place
of the `return PARSE_ERROR`, if any, and the calls made on the net builder. -/
def netPathsLoop (tech : dbTech) :
    List defiPath → Option (Option PathAbort × List NetCall)
  | [] => some (none, [])
  | path :: rest =>
    match handleRectPath tech path with
    | none => none
    | some (true, calls) =>
      (netPathsLoop tech rest).map fun r => (r.1, calls ++ r.2)
    | some (false, calls) =>
      match netPathLoop path with
      | (some abort, calls2) => some (some abort, calls ++ calls2)
      | (none, calls2) =>
        (netPathsLoop tech rest).map fun r =>
          (r.1, calls ++ calls2 ++ NetCall.pathEnd :: r.2)

/-- The loop of `netCallback` over the wires of the net. -/
def netWiresLoop (tech : dbTech) :
    List defiWire → Option (Option PathAbort × List NetCall)
  | [] => some (none, [])
  | wire :: rest =>
    match netPathsLoop tech wire.paths with
    | none => none
    | some (some abort, calls) =>
      some (some abort, NetCall.wire wire.wireType :: calls)
    | some (none, calls) =>
      (netWiresLoop tech rest).map fun r =>
        (r.1, NetCall.wire wire.wireType :: calls ++ NetCall.wireEnd :: r.2)

/-- The call that `netCallback` makes for a connection that is not
synthesized. -/
def netConnectionCall (c : defiConnection) : NetCall :=
  if c.pinIsMustJoin then .beginMustjoin c.inst c.pin
  else .connection c.inst c.pin

/-- The loop of `netCallback` over the connections of the net.  The boolean
is false when the loop returns `PARSE_ERROR` at a synthesized connection. -/
def netConnectionsLoop : List defiConnection → Bool × List NetCall
  | [] => (true, [])
  | c :: rest =>
    if c.pinIsSynthesized then (false, [])
    else
      ((netConnectionsLoop rest).1,
       netConnectionCall c :: (netConnectionsLoop rest).2)

/-- The calls of `netCallback` from `netR->begin` to the call for the
non-default rule. -/
def netHeaderCalls (net : defiNet) : List NetCall :=
  [.begin net.name]
    ++ (net.use.map NetCall.use).toList
    ++ (net.source.map NetCall.source).toList
    ++ (if net.hasFixedbump then [NetCall.fixedbump] else [])
    ++ (net.weight.map NetCall.weight).toList
    ++ (net.nonDefaultRule.map NetCall.nonDefaultRule).toList

/-- The checks at the head of `netCallback`, in their order: the message of
the first unsupported feature that the net event has, if any. -/
def netUnsupported (net : defiNet) : Option String :=
  if net.numShieldNets > 0 then some "SHIELDNET on net is unsupported"
  else if net.numVpins > 0 then some "VPIN on net is unsupported"
  else if net.hasSubnets then some "SUBNET on net is unsupported"
  else if net.hasXTalk then some "XTALK on net is unsupported"
  else if net.hasFrequency then some "FREQUENCY on net is unsupported"
  else if net.hasOriginal then some "ORIGINAL on net is unsupported"
  else if net.hasPattern then some "PATTERN on net is unsupported"
  else if net.hasCap then some "ESTCAP on net is unsupported"
  else none

/-- The callback `definReader::netCallback(type, net, data)`.  The result is
`none` for undefined behaviour in `handleRectPath`. -/
def netCallback (net : defiNet) (reader : definReader) :
    Option CallbackResult :=
  match netUnsupported net with
  | some msg => some (reader.reject msg [])
  | none =>
    match netConnectionsLoop net.connections with
    | (false, calls) =>
      some (reader.reject "SYNTHESIZED on net's connection is unsupported"
        (netHeaderCalls net ++ calls))
    | (true, calls) =>
      match netWiresLoop reader._tech net.wires with
      | none => none
      | some (some abort, calls2) =>
        match abort.message with
        | some msg =>
          some (reader.reject msg (netHeaderCalls net ++ calls ++ calls2))
        | none =>
          some { result := .PARSE_ERROR
                 reader := reader
                 netCalls := netHeaderCalls net ++ calls ++ calls2 }
      | some (none, calls2) =>
        some { result := .PARSE_OK
               reader := reader
               netCalls := netHeaderCalls net ++ calls ++ calls2
                 ++ (handle_props net.props).map NetCall.property
                 ++ [NetCall.end_] }

/-! ## Example inputs -/

/-- An example technology: layer M1 of width 140, 2000 database units per
micron. -/
def techM1 : dbTech :=
  { getDbUnitsPerMicron := 2000
    findLayer := fun n => if n = "M1" then some { getWidth := 140 } else none }


/-- An example reader: no error so far, unit scale 1, full-build mode, the
fourteen builders of the constructor. -/
def exampleReader : definReader :=
  { _errors := 0
    unitScale := 1
    _tech := techM1
    _update := false
    _interfaces := List.replicate 14 { _errors := 0, unitScale := 1 } }

/-- An example net event: net n1 with one routed wire whose single path is
LAYER M1, POINT (500,500), RECT (-70,-100,70,100). -/
def exampleRectNet : defiNet :=
  { name := "n1"
    numShieldNets := 0
    numVpins := 0
    hasSubnets := false
    hasXTalk := false
    hasFrequency := false
    hasOriginal := false
    hasPattern := false
    hasCap := false
    use := none
    source := none
    hasFixedbump := false
    weight := none
    nonDefaultRule := none
    connections := []
    wires := [{ wireType := "ROUTED"
                paths := [[.LAYER "M1", .POINT 500 500,
                           .RECT (-70) (-100) 70 100]] }]
    props := [] }

/-! ## componentsCallback -/

/-- The event of a component (`defiComponent`).  An optional field with its
`has` predicate is an `Option`; `hasHalo()` and `hasRouteHalo()` are the
integers that the callback compares with 0. -/
structure defiComponent where
  id : String
  name : String
  hasEEQ : Bool
  maskShiftSize : Int
  hasHalo : Int
  hasRouteHalo : Int
  source : Option String
  weight : Option Int
  regionName : Option String
  placementStatus : Int
  placementX : Int
  placementY : Int
  placementOrient : Int
  props : List defiProp
  deriving DecidableEq, Repr

/-- The checks at the head of `componentsCallback`, in their order: the
message of the first unsupported feature that the component has, if any. -/
def componentUnsupported (comp : defiComponent) : Option String :=
  if comp.hasEEQ then some "EEQMASTER on component is unsupported"
  else if comp.maskShiftSize > 0 then
    some "MASKSHIFT on component is unsupported"
  else if comp.hasHalo > 0 then some "HALO on component is unsupported"
  else if comp.hasRouteHalo > 0 then
    some "ROUTEHALO on component is unsupported"
  else none

/-- The callback `definReader::componentsCallback(type, comp, data)`. -/
def componentsCallback (comp : defiComponent) (reader : definReader) :
    CallbackResult :=
  match componentUnsupported comp with
  | some msg =>
    { result := .PARSE_ERROR
      reader := (reader.error msg).1
      notices := (reader.error msg).2 }
  | none =>
    { result := .PARSE_OK
      reader := reader
      componentCalls :=
        [.begin comp.id comp.name]
          ++ (comp.source.map ComponentCall.source).toList
          ++ (comp.weight.map ComponentCall.weight).toList
          ++ (comp.regionName.map ComponentCall.region).toList
          ++ [.placement comp.placementStatus comp.placementX
                comp.placementY comp.placementOrient]
          ++ (handle_props comp.props).map ComponentCall.property
          ++ [ComponentCall.end_] }

/-! ## propCallback -/

/-- The event of a property definition, which is the class `defiProp` of the
parser: the owner-type tag `propType()`, `propName()`, `dataType()`, the
range `hasRange()`, `left()`, `right()`, and the default `hasNumber()`,
`number()`, `hasString()`, `string()`. -/
structure defiPropDef where
  propType : String
  propName : String
  dataType : Char
  hasRange : Bool
  left : ℚ
  right : ℚ
  hasNumber : Bool
  number : ℚ
  hasString : Bool
  string : String
  deriving DecidableEq, Repr

/-- The function `toupper` of the C library, in the C locale: a lower-case
letter a to z becomes the upper-case letter, and every other character is
returned as it is. -/
def toupper (c : Char) : Char := c.toUpper

/-- The first `switch` of `propCallback`: the kind for the data type of the
event, and `none` in the default case. -/
def propDataType (dataType : Char) : Option defPropType :=
  if dataType = 'I' then some .DEF_INTEGER
  else if dataType = 'R' then some .DEF_REAL
  else if dataType = 'S' ∨ dataType = 'N' ∨ dataType = 'Q' then
    some .DEF_STRING
  else none

/-- The `range` call of `propCallback` for an event with a range.  It is
`none` when `assert(data_type == DEF_REAL)` fails. -/
def propRangeCall (prop : defiPropDef) (data_type : defPropType) :
    Option PropDefsCall :=
  match data_type with
  | .DEF_INTEGER =>
    some (.rangeInt (doubleToInt prop.left) (doubleToInt prop.right))
  | .DEF_REAL => some (.rangeReal prop.left prop.right)
  | .DEF_STRING => none

/-- The second `switch` of `propCallback`: the `value` call, if any. -/
def propValueCalls (prop : defiPropDef) (data_type : defPropType) :
    List PropDefsCall :=
  match data_type with
  | .DEF_INTEGER =>
    if prop.hasNumber then [.valueInt (doubleToInt prop.number)] else []
  | .DEF_REAL => if prop.hasNumber then [.valueReal prop.number] else []
  | .DEF_STRING => if prop.hasString then [.valueString prop.string] else []

/-- The callback `definReader::propCallback(type, prop, data)`.  The result
is `none` when an assertion fails: `assert(0)` for a data type that is none
of I, R, S, N, Q, and `assert(data_type == DEF_REAL)` for a range on a string
property. -/
def propCallback (prop : defiPropDef) (reader : definReader) :
    Option CallbackResult :=
  match propDataType prop.dataType with
  | none => none
  | some data_type =>
    let prop_type := prop.propType.map toupper
    let beginCall := PropDefsCall.begin prop_type prop.propName data_type
    let rest := propValueCalls prop data_type ++ [PropDefsCall.end_]
    if prop.hasRange then
      match propRangeCall prop data_type with
      | none => none
      | some rangeCall =>
        some { result := .PARSE_OK
               reader := reader
               propDefsCalls := beginCall :: rangeCall :: rest }
    else
      some { result := .PARSE_OK
             reader := reader
             propDefsCalls := beginCall :: rest }

/-- Follows the spec's words, for the comparison with the tag that
`propCallback` passes to `begin`: the text with every character upper-cased.
A letter a to z becomes the letter A to Z, which is 32 places ahead of it,
and every other character is kept. -/
def specUpperCased (s : String) : String :=
  ⟨s.data.map fun c =>
    if 'a' ≤ c ∧ c ≤ 'z' then Char.ofNat (c.toNat - 32) else c⟩

/-! ## getDefHeader -/

/-- The class `DefHeader`.  A `const char*` member is an `Option String`, and
the constructor sets the three delimiters to the character 0. -/
structure DefHeader where
  _version : Option String
  _hier_delimeter : Char
  _left_bus_delimeter : Char
  _right_bus_delimeter : Char
  _design : Option String
  deriving DecidableEq, Repr

/-- The header that the constructor `DefHeader()` builds. -/
def DefHeader.init : DefHeader :=
  { _version := none
    _hier_delimeter := Char.ofNat 0
    _left_bus_delimeter := Char.ofNat 0
    _right_bus_delimeter := Char.ofNat 0
    _design := none }

/-- The function `strtok` of the C library on the rest of a line, which is a
list of characters without the character 0.  It skips the leading
delimiters; there is no token when nothing is left; otherwise the token runs
up to the next delimiter, and the scan resumes behind that delimiter.  The
result is the token with the rest of the line. -/
def strtok (delims : List Char) (str : List Char) :
    Option (List Char × List Char) :=
  match str.dropWhile (fun c => delims.contains c) with
  | [] => none
  | c :: cs =>
    some ((c :: cs).takeWhile (fun c => !delims.contains c),
          ((c :: cs).dropWhile (fun c => !delims.contains c)).drop 1)

/-- What the body of the loop of `getDefHeader` does with one line. -/
inductive HeaderLine where
  | skip
  | version (version : String)
  | design (design : String)
  | dividerchar (divider : Char)
  | busbitchars (left right : Char)
  | fail
  deriving DecidableEq, Repr

/-- The body of the loop of `getDefHeader` on one line, which is a buffer
that `fgets` has filled: `skip` when the loop goes on to the next line with
the header as it is (no token, or a first token that is none of the
keywords), the value of a VERSION, DESIGN, DIVIDERCHAR or BUSBITCHARS
statement, and `fail` where the function returns the null pointer (a keyword
without a value, a bus delimiter token of one character, or the keyword
COMPONENTS). -/
def headerLine (line : List Char) : HeaderLine :=
  match strtok " \t\n".data line with
  | none => .skip
  | some (token, rest) =>
    if token = "VERSION".data ∨ token = "version".data then
      match strtok " \t\n".data rest with
      | none => .fail
      | some (version, _) => .version (String.mk version)
    else if token = "DESIGN".data ∨ token = "design".data then
      match strtok " \t\n".data rest with
      | none => .fail
      | some (design, _) => .design (String.mk design)
    else if token = "DIVIDERCHAR".data ∨ token = "dividerchar".data then
      match strtok " \t\"".data rest with
      | none => .fail
      | some ([], _) => .fail
      | some (c :: _, _) => .dividerchar c
    else if token = "BUSBITCHARS".data ∨ token = "busbitchars".data then
      match strtok " \t\"".data rest with
      | none => .fail
      | some (l :: r :: _, _) => .busbitchars l r
      | some (_, _) => .fail
    else if token = "COMPONENTS".data ∨ token = "components".data then .fail
    else .skip

/-- The loop of `getDefHeader` over the lines of the file.  The result is
`none` where the function returns the null pointer; a DESIGN statement ends
the loop (`break`). -/
def getDefHeaderLoop : List String → DefHeader → Option DefHeader
  | [], hdr => some hdr
  | line :: rest, hdr =>
    match headerLine line.data with
    | .skip => getDefHeaderLoop rest hdr
    | .version version =>
      getDefHeaderLoop rest { hdr with _version := some version }
    | .design design => some { hdr with _design := some design }
    | .dividerchar divider =>
      getDefHeaderLoop rest { hdr with _hier_delimeter := divider }
    | .busbitchars left right =>
      getDefHeaderLoop rest
        { hdr with _left_bus_delimeter := left
                   _right_bus_delimeter := right }
    | .fail => none

/-- The function `DefHeader::getDefHeader(file)`.  The file is `none` when
`fopen` fails, and otherwise the sequence of the buffers that the calls of
`fgets` fill, one per line.  The result is `none` for the null pointer. -/
def getDefHeader (file : Option (List String)) : Option DefHeader :=
  match file with
  | none => none
  | some lines => getDefHeaderLoop lines DefHeader.init

/-! ### The header statements as text -/

/-- The name under which `createChip` creates the block: `_block_name` when
the reader has one, and the design name of the header otherwise, which is
the null pointer (`none`) when the header has no design. -/
def createChipBlockName (_block_name : Option String) (hdr : DefHeader) :
    Option String :=
  match _block_name with
  | some name => some name
  | none => hdr._design

/-! ## renameBlock -/

/-- The loop of `renameBlock(parent, old_name)` from the counter `cnt` on,
for at most `fuel` rounds.  The parent block is the list of the names of its
children, which is what `parent->findChild` looks up.  The counter is an int
that counts up from 1 and is a natural number here; `snprintf` writes it in
decimal after an underscore, which takes at most 12 of the 14 characters
that it may write. -/
def renameBlockLoop (children : List String) (old_name : String) :
    Nat → Nat → Option String
  | 0, _ => none
  | fuel + 1, cnt =>
    if old_name ++ ("_" ++ toString cnt) ∈ children then
      renameBlockLoop children old_name fuel (cnt + 1)
    else some (old_name ++ ("_" ++ toString cnt))

/-- The function `renameBlock(parent, old_name)`, with as many rounds as the
parent has children, and one more. -/
def renameBlock (children : List String) (old_name : String) :
    Option String :=
  renameBlockLoop children old_name (children.length + 1) 1

/-- The name under which `createBlock(parent, libs, def_file)` creates the
block: `_block_name` or the design name of the header, renamed when the
parent has a child of that name.  It is `none` when the design name is needed
and is the null pointer. -/
def createBlockName (children : List String) (_block_name : Option String)
    (hdr : DefHeader) : Option String :=
  match createChipBlockName _block_name hdr with
  | none => none
  | some block_name =>
    if block_name ∈ children then renameBlock children block_name
    else some block_name

/-- An example DEF file with its statements in the usual order. -/
def exampleDefFile : List String :=
  ["VERSION 5.8 ;\n",
   "DIVIDERCHAR \"/\" ;\n",
   "BUSBITCHARS \"[]\" ;\n",
   "DESIGN top ;\n",
   "UNITS DISTANCE MICRONS 2000 ;\n",
   "COMPONENTS 1 ;\n"]

/-- An example DEF file without DESIGN statement and without COMPONENTS
section. -/
def exampleNoDesignFile : List String :=
  ["VERSION 5.8 ;\n",
   "DIVIDERCHAR \"/\" ;\n",
   "BUSBITCHARS \"[]\" ;\n"]

/-! ## specialNetCallback -/

/-- One rectangle of a special net event: `rectShapeType(i)`,
`rectRouteStatusShieldName(i)`, `rectName(i)` and the corners. -/
structure defiSNetRect where
  rectShapeType : String
  rectRouteStatusShieldName : String
  rectName : String
  xl : Int
  yl : Int
  xh : Int
  yh : Int
  deriving DecidableEq, Repr

/-- One wire of a special net event: `wireType()`, `wireShieldNetName()` and
the paths. -/
structure defiSNetWire where
  wireType : String
  wireShieldNetName : String
  paths : List defiPath
  deriving DecidableEq, Repr

/-- The event of a special net, which is a `defiNet` of the parser, with the
accessors that `specialNetCallback` uses. -/
structure defiSNet where
  name : String
  hasCap : Bool
  hasPattern : Bool
  hasOriginal : Bool
  numShieldNets : Int
  hasVoltage : Bool
  numPolygons : Int
  numViaSpecs : Int
  use : Option String
  source : Option String
  hasFixedbump : Bool
  weight : Option Int
  connections : List defiConnection
  rectangles : List defiSNetRect
  wires : List defiSNetWire
  props : List defiProp
  deriving DecidableEq, Repr

/-- The checks at the head of `specialNetCallback`, in their order: the
message of the first unsupported feature that the special net has, if any.
The message for polygons is passed to `notice` with the prefix and the
newline that `error` adds to the others. -/
def snetUnsupported (net : defiSNet) : Option String :=
  if net.hasCap then some "ESTCAP on special net is unsupported"
  else if net.hasPattern then some "PATTERN on special net is unsupported"
  else if net.hasOriginal then some "ORIGINAL on special net is unsupported"
  else if net.numShieldNets > 0 then
    some "SHIELDNET on special net is unsupported"
  else if net.hasVoltage then some "VOLTAGE on special net is unsupported"
  else if net.numPolygons > 0 then
    some "polygons in special nets are not supported"
  else if net.numViaSpecs > 0 then some "VIA in special net is unsupported"
  else none

/-- The places where the interpretation of the tokens of a path in
`specialNetCallback` returns `PARSE_ERROR`. -/
inductive SNetPathAbort where
  | rotatedVia
  | style
  | mask
  | unknown
  deriving DecidableEq, Repr

/-- The message that `specialNetCallback` passes to `reader->error` before it
returns `PARSE_ERROR` from the interpretation of a path; there is none for
`DEFIPATH_STYLE`. -/
def SNetPathAbort.message : SNetPathAbort → Option String
  | .rotatedVia => some "Rotated via in special net is unsupported"
  | .style => none
  | .mask => some "MASK in special net's routing is unsupported"
  | .unknown =>
    some "Unknown construct in special net's routing is unsupported"

/-- The loop of `specialNetCallback` over the tokens of one path, from the
cursor on, with the current value of `layerName`.  The result is `none` when
`assert(!layerName.empty())` fails, and otherwise the place of the
`return PARSE_ERROR`, if any, and the calls made on the special-net
builder. -/
def snetPathLoop : defiPath → String →
    Option (Option SNetPathAbort × List SNetCall)
  | [], _ => some (none, [])
  | .LAYER layer :: rest, _ => snetPathLoop rest layer
  | .VIA _ :: .VIAROTATION _ :: _, _ => some (some .rotatedVia, [])
  | .VIA via :: rest, layerName =>
      (snetPathLoop rest layerName).map fun r => (r.1, .pathVia via :: r.2)
  | .WIDTH width :: rest, layerName =>
      if layerName = "" then none
      else
        (snetPathLoop rest layerName).map fun r =>
          (r.1, .path layerName width :: r.2)
  | .POINT x y :: rest, layerName =>
      (snetPathLoop rest layerName).map fun r => (r.1, .pathPoint x y :: r.2)
  | .FLUSHPOINT x y ext :: rest, layerName =>
      (snetPathLoop rest layerName).map fun r =>
        (r.1, .pathPointExt x y ext :: r.2)
  | .SHAPE shape :: rest, layerName =>
      (snetPathLoop rest layerName).map fun r =>
        (r.1, .pathShape shape :: r.2)
  | .STYLE style :: _, _ => some (some .style, [.pathStyle style])
  | .MASK _ :: _, _ => some (some .mask, [])
  | .VIAMASK _ :: _, _ => some (some .mask, [])
  | _ :: _, _ => some (some .unknown, [])

/-- The loop of `specialNetCallback` over the paths of one wire; every path
starts with an empty `layerName`. -/
def snetPathsLoop : List defiPath →
    Option (Option SNetPathAbort × List SNetCall)
  | [] => some (none, [])
  | path :: rest =>
    match snetPathLoop path "" with
    | none => none
    | some (some abort, calls) => some (some abort, calls)
    | some (none, calls) =>
      (snetPathsLoop rest).map fun r =>
        (r.1, calls ++ SNetCall.pathEnd :: r.2)

/-- The loop of `specialNetCallback` over the wires of the special net. -/
def snetWiresLoop : List defiSNetWire →
    Option (Option SNetPathAbort × List SNetCall)
  | [] => some (none, [])
  | wire :: rest =>
    match snetPathsLoop wire.paths with
    | none => none
    | some (some abort, calls) =>
      some (some abort,
        SNetCall.wire wire.wireType wire.wireShieldNetName :: calls)
    | some (none, calls) =>
      (snetWiresLoop rest).map fun r =>
        (r.1, SNetCall.wire wire.wireType wire.wireShieldNetName
                :: calls ++ SNetCall.wireEnd :: r.2)

/-- The calls of `specialNetCallback` from `snetR->begin` to the end of the
loop over the rectangles. -/
def snetHeaderCalls (net : defiSNet) : List SNetCall :=
  [.begin net.name]
    ++ (net.use.map SNetCall.use).toList
    ++ (net.source.map SNetCall.source).toList
    ++ (if net.hasFixedbump then [SNetCall.fixedbump] else [])
    ++ (net.weight.map SNetCall.weight).toList
    ++ net.connections.map
        (fun c => SNetCall.connection c.inst c.pin c.pinIsSynthesized)
    ++ net.rectangles.flatMap
        (fun r =>
          [SNetCall.wire r.rectShapeType r.rectRouteStatusShieldName,
           SNetCall.rect r.rectName r.xl r.yl r.xh r.yh,
           SNetCall.wireEnd])

/-- The callback `definReader::specialNetCallback(type, net, data)`.  The
result is `none` when `assert(!layerName.empty())` fails. -/
def specialNetCallback (net : defiSNet) (reader : definReader) :
    Option CallbackResult :=
  match snetUnsupported net with
  | some msg =>
    some { result := .PARSE_ERROR
           reader := (reader.error msg).1
           notices := (reader.error msg).2 }
  | none =>
    match snetWiresLoop net.wires with
    | none => none
    | some (some abort, calls) =>
      match abort.message with
      | some msg =>
        some { result := .PARSE_ERROR
               reader := (reader.error msg).1
               notices := (reader.error msg).2
               snetCalls := snetHeaderCalls net ++ calls }
      | none =>
        some { result := .PARSE_ERROR
               reader := reader
               snetCalls := snetHeaderCalls net ++ calls }
    | some (none, calls) =>
      some { result := .PARSE_OK
             reader := reader
             snetCalls := snetHeaderCalls net ++ calls
               ++ (handle_props net.props).map SNetCall.property
               ++ [SNetCall.end_] }

/-! ## The callbacks that the reader registers -/

/-- The types of the callbacks that definReader.cpp registers with the
parser, named after the function `defrSet...Cbk` that registers them. -/
inductive defrCallbackType_e where
  | PropCbk
  | PropDefEndCbk
  | PropDefStartCbk
  | BlockageCbk
  | ComponentCbk
  | ComponentMaskShiftLayerCbk
  | DieAreaCbk
  | ExtensionCbk
  | FillStartCbk
  | FillCbk
  | GcellGridCbk
  | GroupCbk
  | GroupMemberCbk
  | GroupNameCbk
  | HistoryCbk
  | NetCbk
  | NonDefaultCbk
  | PinCbk
  | PinEndCbk
  | PinPropCbk
  | RegionCbk
  | RowCbk
  | ScanchainsStartCbk
  | SlotStartCbk
  | SNetCbk
  | StartPinsCbk
  | StylesStartCbk
  | TechnologyCbk
  | TrackCbk
  | UnitsCbk
  | ViaCbk
  deriving DecidableEq, Repr

/-- The callbacks that `createBlock(file)` registers, in the order of its
`defrSet...Cbk` calls. -/
def createBlockCallbacks : List defrCallbackType_e :=
  [.PropCbk, .PropDefEndCbk, .PropDefStartCbk, .BlockageCbk, .ComponentCbk,
   .ComponentMaskShiftLayerCbk, .DieAreaCbk, .ExtensionCbk, .FillStartCbk,
   .FillCbk, .GcellGridCbk, .GroupCbk, .GroupMemberCbk, .GroupNameCbk,
   .HistoryCbk, .NetCbk, .NonDefaultCbk, .PinCbk, .PinEndCbk, .PinPropCbk,
   .RegionCbk, .RowCbk, .ScanchainsStartCbk, .SlotStartCbk, .SNetCbk,
   .StartPinsCbk, .StylesStartCbk, .TechnologyCbk, .TrackCbk, .UnitsCbk,
   .ViaCbk]

/-- The callbacks that `replaceWires(file)` registers: `netCallback` and
`specialNetCallback`. -/
def replaceWiresCallbacks : List defrCallbackType_e :=
  [.NetCbk, .SNetCbk]

/-- An event of the parser: a construct of the file, with the data that the
parser passes to the callback of its type.  The data of an `other` event is
not modelled. -/
inductive defrEvent where
  | net (net : defiNet)
  | snet (net : defiSNet)
  | component (comp : defiComponent)
  | dieArea (box : defiBox)
  | units (d : ℚ)
  | prop (prop : defiPropDef)
  | other (type : defrCallbackType_e)
  deriving DecidableEq, Repr

/-- The type of the callback to which the parser delivers an event. -/
def defrEvent.type : defrEvent → defrCallbackType_e
  | .net _ => .NetCbk
  | .snet _ => .SNetCbk
  | .component _ => .ComponentCbk
  | .dieArea _ => .DieAreaCbk
  | .units _ => .UnitsCbk
  | .prop _ => .PropCbk
  | .other type => type

/-- The delivery of one event by the parser, which is outside
definReader.cpp: the parser calls the callback that is registered for the
type of the event, and does nothing for an event without registered
callback.  The result is `none` when the callback has no result in this
model: undefined behaviour, a failed assertion, or a callback whose event
data is not modelled. -/
def defrDeliver (registered : List defrCallbackType_e) (ev : defrEvent)
    (reader : definReader) : Option CallbackResult :=
  if ev.type ∈ registered then
    match ev with
    | .net net => netCallback net reader
    | .snet net => specialNetCallback net reader
    | .component comp => some (componentsCallback comp reader)
    | .dieArea box => some (dieAreaCallback box reader)
    | .units d => some (unitsCallback d reader)
    | .prop prop => propCallback prop reader
    | .other _ => none
  else some { result := .PARSE_OK, reader := reader }

/-- The effects of two steps in a row: the code and the reader of the second
step, with the messages and the calls of the first step ahead of those of the
second. -/
def CallbackResult.andThen (first second : CallbackResult) : CallbackResult :=
  { result := second.result
    reader := second.reader
    notices := first.notices ++ second.notices
    blockCalls := first.blockCalls ++ second.blockCalls
    netCalls := first.netCalls ++ second.netCalls
    componentCalls := first.componentCalls ++ second.componentCalls
    propDefsCalls := first.propDefsCalls ++ second.propDefsCalls
    snetCalls := first.snetCalls ++ second.snetCalls }

/-- The delivery of a sequence of events by the parser, in order; the parser
stops at the first callback that does not return `PARSE_OK`. -/
def defrReadEvents (registered : List defrCallbackType_e) :
    List defrEvent → definReader → Option CallbackResult
  | [], reader => some { result := .PARSE_OK, reader := reader }
  | ev :: rest, reader =>
    match defrDeliver registered ev reader with
    | none => none
    | some first =>
      if first.result = .PARSE_OK then
        (defrReadEvents registered rest first.reader).map first.andThen
      else some first

/-! ## createBlock, createChip and replaceWires -/

/-- What `defrRead` leaves behind: its return value and the reader after the
callbacks of the pass. -/
structure defrReadResult where
  res : Int
  reader : definReader

/-- The surroundings of a file-level function, which are outside
definReader.cpp: the file (`none` when `fopen` fails, and otherwise its
lines), the technology and the chip of the database, `definBase::init` of a
builder, and the pass of the parser over the file with the registered
callbacks. -/
structure FileEnv where
  file : Option (List String)
  dbTech : dbTech
  dbHasChip : Bool
  builderInit : definBase → definBase
  defrRead : List defrCallbackType_e → definReader → defrReadResult

/-- How a file-level function ends: it returns a value, or the process ends
with `exit(status)`. -/
inductive Outcome (α : Type) where
  | returned (value : α)
  | exited (status : Int)
  deriving DecidableEq, Repr

/-- A call on the database by a file-level function. -/
inductive DbCall where
  | createChip
  | createBlock (name : Option String) (hier_delimeter : Char)
  | setBusDelimeters (left right : Char)
  | destroyChip
  | destroyBlock
  deriving DecidableEq, Repr

/-- What a file-level function does: how it ends, the reader after it, and
its calls on the database.  Its messages are not modelled. -/
structure FileResult (α : Type) where
  outcome : Outcome α
  reader : definReader
  dbCalls : List DbCall := []

/-- The method `definReader::init()`. -/
def definReader.init (env : FileEnv) (reader : definReader) : definReader :=
  { reader with
    _interfaces := reader._interfaces.map env.builderInit
    _update := false }

/-- The method `definReader::createBlock(file)`. -/
def createBlock_file (env : FileEnv) (reader : definReader) :
    FileResult Bool :=
  match env.file with
  | none => { outcome := .returned false, reader := reader }
  | some _ =>
    let read := env.defrRead createBlockCallbacks reader
    if read.res ≠ 0 ∨ read.reader._errors ≠ 0 then
      { outcome := .exited 2, reader := read.reader }
    else { outcome := .returned true, reader := read.reader }

/-- The method `definReader::createChip(libs, file)`.  The returned value is
true for the chip and false for the null pointer.  The design name passed to
`dbBlock::create` is `none` when it is the null pointer. -/
def createChip (env : FileEnv) (_block_name : Option String)
    (reader : definReader) : FileResult Bool :=
  let reader1 := reader.init env
  match getDefHeader env.file with
  | none => { outcome := .returned false, reader := reader1 }
  | some hdr =>
    if env.dbHasChip then { outcome := .returned false, reader := reader1 }
    else
      let reader2 := { reader1 with _tech := env.dbTech }
      let created :=
        [DbCall.createChip,
         DbCall.createBlock (createChipBlockName _block_name hdr)
           hdr._hier_delimeter,
         DbCall.setBusDelimeters hdr._left_bus_delimeter
           hdr._right_bus_delimeter]
      let pass := createBlock_file env reader2
      match pass.outcome with
      | .exited status =>
        { outcome := .exited status, reader := pass.reader
          dbCalls := created }
      | .returned false =>
        { outcome := .returned false, reader := pass.reader
          dbCalls := created ++ [DbCall.destroyChip] }
      | .returned true =>
        { outcome := .returned true, reader := pass.reader
          dbCalls := created }

/-- The method `definReader::replaceWires(file)`.  Its call of
`replaceWires()` switches the net builder and the special-net builder to the
replacement of wires, which is not part of the reader. -/
def replaceWires_file (env : FileEnv) (reader : definReader) :
    FileResult Bool :=
  match env.file with
  | none => { outcome := .returned false, reader := reader }
  | some _ =>
    let read := env.defrRead replaceWiresCallbacks reader
    if read.res ≠ 0 then { outcome := .exited 2, reader := read.reader }
    else { outcome := .returned true, reader := read.reader }

/-- The method `definReader::replaceWires(block, def_file)`.  The call that
would destroy the block on failure is commented out in the source. -/
def replaceWires_block (env : FileEnv) (reader : definReader) :
    FileResult Bool :=
  let reader1 := { reader.init env with _tech := env.dbTech }
  let pass := replaceWires_file env reader1
  match pass.outcome with
  | .exited status => { outcome := .exited status, reader := pass.reader }
  | .returned false => { outcome := .returned false, reader := pass.reader }
  | .returned true =>
    { outcome := .returned (decide (pass.reader.errors.1 = 0))
      reader := pass.reader.errors.2 }

/-- An example component event: a placed component with a HALO and a route
halo, two unsupported features at once. -/
def exampleHaloComponent : defiComponent :=
  { id := "u1"
    name := "INV_X1"
    hasEEQ := false
    maskShiftSize := 0
    hasHalo := 1
    hasRouteHalo := 1
    source := none
    weight := none
    regionName := none
    placementStatus := 1
    placementX := 100
    placementY := 200
    placementOrient := 0
    props := [] }

/-- An example property-definition event: an integer property of components
with the range 0 to 10 and the default 3, its owner-type tag in lower
case. -/
def examplePropDef : defiPropDef :=
  { propType := "component"
    propName := "level"
    dataType := 'I'
    hasRange := true
    left := 0
    right := 10
    hasNumber := true
    number := 3
    hasString := false
    string := "" }

/-- An example of the surroundings of a file-level function: the file opens,
the database has no chip, and the pass of the parser returns 0 and leaves the
reader with no error of its own and with one error in the net builder, which
is the fifth builder of the reader. -/
def exampleBuilderErrorEnv : FileEnv :=
  { file := some exampleDefFile
    dbTech := techM1
    dbHasChip := false
    builderInit := fun b => { b with _errors := 0 }
    defrRead := fun _ reader =>
      { res := 0
        reader :=
          { reader with
            _interfaces :=
              reader._interfaces.set 4 { _errors := 1, unitScale := 2000 } } } }

/-- An example net event: net n1 with one routed wire whose single path is
LAYER M1, POINT (0,0), RECT (0,0,10,10), a rect that is not of the width 140
of M1. -/
def exampleRectErrorNet : defiNet :=
  { exampleRectNet with
    wires := [{ wireType := "ROUTED"
                paths := [[.LAYER "M1", .POINT 0 0, .RECT 0 0 10 10]] }] }

/-- An example special net event: the net VDD with one stripe on M1. -/
def exampleSNet : defiSNet :=
  { name := "VDD"
    hasCap := false
    hasPattern := false
    hasOriginal := false
    numShieldNets := 0
    hasVoltage := false
    numPolygons := 0
    numViaSpecs := 0
    use := some "POWER"
    source := none
    hasFixedbump := false
    weight := none
    connections := []
    rectangles := []
    wires := [{ wireType := "ROUTED"
                wireShieldNetName := ""
                paths := [[.LAYER "M1", .WIDTH 140, .SHAPE "STRIPE",
                           .POINT 0 0, .POINT 1000 0]] }]
    props := [] }

/-- An example event sequence: units, die area, a component, the net n1, a
row and the special net VDD. -/
def exampleEvents : List defrEvent :=
  [.units 2000,
   .dieArea { getPoint := [⟨0, 0⟩, ⟨1000, 1000⟩] },
   .component { exampleHaloComponent with hasHalo := 0, hasRouteHalo := 0 },
   .net exampleRectNet,
   .other .RowCbk,
   .snet exampleSNet]

/-! ## The callbacks of the other constructs -/

/-- What a callback does that calls one builder only: the code it returns,
the reader after the call, the messages passed to `notice`, and the calls on
its builder, in order. -/
structure BuilderResult (Call : Type) where
  result : ParseResult
  reader : definReader
  notices : List String := []
  calls : List Call := []

/-- The pattern `reader->error(msg); return PARSE_ERROR;` after the calls
`calls` have been made on the builder of the callback. -/
def BuilderResult.reject {Call : Type} (reader : definReader) (msg : String)
    (calls : List Call) : BuilderResult Call :=
  { result := .PARSE_ERROR
    reader := (reader.error msg).1
    notices := (reader.error msg).2
    calls := calls }

/-- One rectangle of an event: `xl(i)`, `yl(i)`, `xh(i)`, `yh(i)`. -/
structure defiRect where
  xl : Int
  yl : Int
  xh : Int
  yh : Int
  deriving DecidableEq, Repr

/-! ### blockageCallback -/

/-- A call on the blockage builder (`definBlockage`), with its arguments. -/
inductive BlockageCall where
  | blockageRoutingBegin (layer : String)
  | blockageRoutingSlots
  | blockageRoutingFills
  | blockageRoutingPushdown
  | blockageRoutingMinSpacing (spacing : Int)
  | blockageRoutingEffectiveWidth (width : Int)
  | blockageRoutingComponent (comp : String)
  | blockageRoutingRect (xl yl xh yh : Int)
  | blockageRoutingPolygon (points : List Point)
  | blockageRoutingEnd
  | blockagePlacementBegin
  | blockagePlacementComponent (comp : String)
  | blockagePlacementPushdown
  | blockagePlacementRect (xl yl xh yh : Int)
  | blockagePlacementEnd
  deriving DecidableEq, Repr

/-- The event of a blockage (`defiBlockage`).  An optional field with its
`has` predicate is an `Option`: `layerName` with `hasLayer()`, `minSpacing`
with `hasSpacing()`, `designRuleWidth` with `hasDesignRuleWidth()` and
`placementComponentName` with `hasComponent()`. -/
structure defiBlockage where
  hasExceptpgnet : Bool
  hasMask : Bool
  hasSoft : Bool
  hasPartial : Bool
  layerName : Option String
  hasSlots : Bool
  hasFills : Bool
  hasPushdown : Bool
  minSpacing : Option Int
  designRuleWidth : Option Int
  placementComponentName : Option String
  rectangles : List defiRect
  polygons : List defiPoints
  deriving DecidableEq, Repr

/-- The checks at the head of `blockageCallback`, in their order: the message
of the first unsupported feature that the blockage has, if any. -/
def blockageUnsupported (blockage : defiBlockage) : Option String :=
  if blockage.hasExceptpgnet then
    some "EXCEPTPGNET on blockage is unsupported"
  else if blockage.hasMask then some "MASK on blockage is unsupported"
  else if blockage.hasSoft then some "SOFT on blockage is unsupported"
  else if blockage.hasPartial then some "PARTIAL on blockage is unsupported"
  else none

/-- The calls of `blockageCallback` for a routing blockage, between
`blockageRoutingBegin` and `blockageRoutingEnd`. -/
def blockageRoutingCalls (blockage : defiBlockage) : List BlockageCall :=
  (if blockage.hasSlots then [BlockageCall.blockageRoutingSlots] else [])
    ++ (if blockage.hasFills then [BlockageCall.blockageRoutingFills] else [])
    ++ (if blockage.hasPushdown then [BlockageCall.blockageRoutingPushdown]
        else [])
    ++ (blockage.minSpacing.map BlockageCall.blockageRoutingMinSpacing).toList
    ++ (blockage.designRuleWidth.map
          BlockageCall.blockageRoutingEffectiveWidth).toList
    ++ (blockage.placementComponentName.map
          BlockageCall.blockageRoutingComponent).toList
    ++ blockage.rectangles.map
        (fun r => BlockageCall.blockageRoutingRect r.xl r.yl r.xh r.yh)
    ++ blockage.polygons.map
        (fun p => BlockageCall.blockageRoutingPolygon (translate p))

/-- The calls of `blockageCallback` for a placement blockage, between
`blockagePlacementBegin` and `blockagePlacementEnd`. -/
def blockagePlacementCalls (blockage : defiBlockage) : List BlockageCall :=
  (blockage.placementComponentName.map
      BlockageCall.blockagePlacementComponent).toList
    ++ (if blockage.hasPushdown then [BlockageCall.blockagePlacementPushdown]
        else [])
    ++ blockage.rectangles.map
        (fun r => BlockageCall.blockagePlacementRect r.xl r.yl r.xh r.yh)

/-- The callback `definReader::blockageCallback(type, blockage, data)`. -/
def blockageCallback (blockage : defiBlockage) (reader : definReader) :
    BuilderResult BlockageCall :=
  match blockageUnsupported blockage with
  | some msg => BuilderResult.reject reader msg []
  | none =>
    match blockage.layerName with
    | some layer =>
      { result := .PARSE_OK
        reader := reader
        calls := BlockageCall.blockageRoutingBegin layer
          :: blockageRoutingCalls blockage
          ++ [BlockageCall.blockageRoutingEnd] }
    | none =>
      { result := .PARSE_OK
        reader := reader
        calls := BlockageCall.blockagePlacementBegin
          :: blockagePlacementCalls blockage
          ++ [BlockageCall.blockagePlacementEnd] }

/-! ### nonDefaultRuleCallback -/

/-- A call on the builder of the non-default rules (`definNonDefaultRule`),
with its arguments. -/
inductive NonDefaultRuleCall where
  | beginRule (name : String)
  | hardSpacing
  | beginLayerRule (layer : String) (width : Int)
  | spacing (spacing : Int)
  | wireExt (ext : Int)
  | endLayerRule
  | via (name : String)
  | viaRule (name : String)
  | minCuts (layer : String) (count : Int)
  | property (call : PropertyCall)
  | endRule
  deriving DecidableEq, Repr

/-- One layer of a non-default rule event: `layerName(i)`,
`hasLayerDiagWidth(i)`, `layerWidthVal(i)`, and `layerSpacingVal(i)` and
`layerWireExtVal(i)` with their `has` predicates. -/
structure defiNonDefaultLayer where
  layerName : String
  hasLayerDiagWidth : Bool
  layerWidthVal : Int
  layerSpacingVal : Option Int
  layerWireExtVal : Option Int
  deriving DecidableEq, Repr

/-- The event of a non-default rule (`defiNonDefault`): the name, the hard
spacing flag, the layers, `viaName(i)`, `viaRuleName(i)`, the pairs
`cutLayerName(i)`, `numCuts(i)`, and the properties. -/
structure defiNonDefault where
  name : String
  hasHardspacing : Bool
  layers : List defiNonDefaultLayer
  vias : List String
  viaRules : List String
  minCuts : List (String × Int)
  props : List defiProp
  deriving DecidableEq, Repr

/-- The loop of `nonDefaultRuleCallback` over the layers of the rule.  The
boolean is false when the loop returns `PARSE_ERROR` at a layer with a
diagonal width. -/
def nonDefaultLayersLoop :
    List defiNonDefaultLayer → Bool × List NonDefaultRuleCall
  | [] => (true, [])
  | l :: rest =>
    if l.hasLayerDiagWidth then (false, [])
    else
      ((nonDefaultLayersLoop rest).1,
       NonDefaultRuleCall.beginLayerRule l.layerName l.layerWidthVal
         :: (l.layerSpacingVal.map NonDefaultRuleCall.spacing).toList
         ++ (l.layerWireExtVal.map NonDefaultRuleCall.wireExt).toList
         ++ NonDefaultRuleCall.endLayerRule
         :: (nonDefaultLayersLoop rest).2)

/-- The calls of `nonDefaultRuleCallback` from `beginRule` to the call for
the hard spacing. -/
def nonDefaultHeaderCalls (rule : defiNonDefault) : List NonDefaultRuleCall :=
  NonDefaultRuleCall.beginRule rule.name
    :: (if rule.hasHardspacing then [NonDefaultRuleCall.hardSpacing] else [])

/-- The callback `definReader::nonDefaultRuleCallback(type, rule, data)`. -/
def nonDefaultRuleCallback (rule : defiNonDefault) (reader : definReader) :
    BuilderResult NonDefaultRuleCall :=
  match nonDefaultLayersLoop rule.layers with
  | (false, calls) =>
    BuilderResult.reject reader "DIAGWIDTH on non-default rule is unsupported"
      (nonDefaultHeaderCalls rule ++ calls)
  | (true, calls) =>
    { result := .PARSE_OK
      reader := reader
      calls := nonDefaultHeaderCalls rule ++ calls
        ++ rule.vias.map NonDefaultRuleCall.via
        ++ rule.viaRules.map NonDefaultRuleCall.viaRule
        ++ rule.minCuts.map (fun c => NonDefaultRuleCall.minCuts c.1 c.2)
        ++ (handle_props rule.props).map NonDefaultRuleCall.property
        ++ [NonDefaultRuleCall.endRule] }

/-! ### pinCallback -/

/-- The placement kinds of a pin (`defPlacement`). -/
inductive defPlacement where
  | DEF_PLACEMENT_UNPLACED
  | DEF_PLACEMENT_PLACED
  | DEF_PLACEMENT_COVER
  | DEF_PLACEMENT_FIXED
  deriving DecidableEq, Repr

/-- A call on the pin builder (`definPin`), with its arguments. -/
inductive PinCall where
  | pinBegin (pin net : String)
  | pinSpecial
  | pinUse (use : String)
  | pinDirection (direction : String)
  | pinSupplyPin (pin : String)
  | pinGroundPin (pin : String)
  | pinRect (layer : String) (xl yl xh yh : Int)
  | pinMinSpacing (spacing : Int)
  | pinEffectiveWidth (width : Int)
  | pinPlacement (type : defPlacement) (x y : Int) (orient : dbOrientType)
  | pinEnd
  deriving DecidableEq, Repr

/-- One layer of a pin event: `layer(i)`, `layerMask(i)`, the bounds that
`bounds(i, ...)` assigns, and `layerSpacing(i)` and
`layerDesignRuleWidth(i)` with their `has` predicates. -/
structure defiPinLayer where
  layer : String
  layerMask : Int
  xl : Int
  yl : Int
  xh : Int
  yh : Int
  layerSpacing : Option Int
  layerDesignRuleWidth : Option Int
  deriving DecidableEq, Repr

/-- The placement of a pin event that has one (`hasPlacement()`):
`isPlaced()`, `isCover()`, `isFixed()`, `placementX()`, `placementY()` and
`orient()`. -/
structure defiPinPlacement where
  isPlaced : Bool
  isCover : Bool
  isFixed : Bool
  placementX : Int
  placementY : Int
  orient : Int
  deriving DecidableEq, Repr

/-- The event of a pin (`defiPin`).  An optional field with its `has`
predicate is an `Option`. -/
structure defiPin where
  pinName : String
  netName : String
  numVias : Int
  hasNetExpr : Bool
  hasAPinPartialMetalArea : Bool
  hasAPinPartialMetalSideArea : Bool
  hasAPinDiffArea : Bool
  hasAPinPartialCutArea : Bool
  numAntennaModel : Int
  numPorts : Int
  numPolygons : Int
  hasSpecial : Bool
  use : Option String
  direction : Option String
  supplySensitivity : Option String
  groundSensitivity : Option String
  layers : List defiPinLayer
  placement : Option defiPinPlacement
  deriving DecidableEq, Repr

/-- The checks at the head of `pinCallback`, in their order: the message of
the first unsupported feature that the pin has, if any.  The messages for
several ports and for polygons are passed to `notice` with the prefix and the
newline that `error` adds to the others, and the error counter of the reader
is increased next to it. -/
def pinUnsupported (pin : defiPin) : Option String :=
  if pin.numVias > 0 then some "VIA in pins is unsupported"
  else if pin.hasNetExpr then some "NETEXPR on pin is unsupported"
  else if pin.hasAPinPartialMetalArea ∨ pin.hasAPinPartialMetalSideArea
      ∨ pin.hasAPinDiffArea ∨ pin.hasAPinPartialCutArea
      ∨ pin.numAntennaModel > 0 then
    some "Antenna data on pin is unsupported"
  else if pin.numPorts > 1 then
    some "pin with multiple ports is not supported"
  else if pin.numPolygons > 0 then
    some "polygons in pins are not supported"
  else none

/-- The calls of `pinCallback` from `pinBegin` to the call for the ground
sensitivity. -/
def pinHeaderCalls (pin : defiPin) : List PinCall :=
  PinCall.pinBegin pin.pinName pin.netName
    :: (if pin.hasSpecial then [PinCall.pinSpecial] else [])
    ++ (pin.use.map PinCall.pinUse).toList
    ++ (pin.direction.map PinCall.pinDirection).toList
    ++ (pin.supplySensitivity.map PinCall.pinSupplyPin).toList
    ++ (pin.groundSensitivity.map PinCall.pinGroundPin).toList

/-- The loop of `pinCallback` over the layers of the pin.  The boolean is
false when the loop returns `PARSE_ERROR` at a layer with a mask. -/
def pinLayersLoop : List defiPinLayer → Bool × List PinCall
  | [] => (true, [])
  | l :: rest =>
    if l.layerMask ≠ 0 then (false, [])
    else
      ((pinLayersLoop rest).1,
       PinCall.pinRect l.layer l.xl l.yl l.xh l.yh
         :: (l.layerSpacing.map PinCall.pinMinSpacing).toList
         ++ (l.layerDesignRuleWidth.map PinCall.pinEffectiveWidth).toList
         ++ (pinLayersLoop rest).2)

/-- The placement kind that `pinCallback` passes to `pinPlacement`; it is
`none` when `assert(0)` fails, for a placement that is neither placed nor
cover nor fixed. -/
def pinPlacementType (p : defiPinPlacement) : Option defPlacement :=
  if p.isPlaced then some .DEF_PLACEMENT_PLACED
  else if p.isCover then some .DEF_PLACEMENT_COVER
  else if p.isFixed then some .DEF_PLACEMENT_FIXED
  else none

/-- The call of `pinCallback` for the placement of the pin, if it has one;
the result is `none` when `assert(0)` fails. -/
def pinPlacementCalls (pin : defiPin) : Option (List PinCall) :=
  match pin.placement with
  | none => some []
  | some p =>
    (pinPlacementType p).map fun type =>
      [PinCall.pinPlacement type p.placementX p.placementY
        (translate_orientation p.orient)]

/-- The callback `definReader::pinCallback(type, pin, data)`.  The result is
`none` when `assert(0)` fails. -/
def pinCallback (pin : defiPin) (reader : definReader) :
    Option (BuilderResult PinCall) :=
  match pinUnsupported pin with
  | some msg => some (BuilderResult.reject reader msg [])
  | none =>
    match pinLayersLoop pin.layers with
    | (false, calls) =>
      some (BuilderResult.reject reader "MASK on pin's layer is unsupported"
        (pinHeaderCalls pin ++ calls))
    | (true, calls) =>
      (pinPlacementCalls pin).map fun placement =>
        { result := .PARSE_OK
          reader := reader
          calls := pinHeaderCalls pin ++ calls ++ placement
            ++ [PinCall.pinEnd] }

/-! ### pinPropCallback -/

/-- A call on the builder of the pin properties (`definPinProps`), with its
arguments. -/
inductive PinPropsCall where
  | begin (inst pin : String)
  | property (call : PropertyCall)
  | end_
  deriving DecidableEq, Repr

/-- The event of the properties of a pin (`defiPinProp`). -/
structure defiPinProp where
  isPin : Bool
  instName : String
  pinName : String
  props : List defiProp
  deriving DecidableEq, Repr

/-- The callback `definReader::pinPropCallback(type, prop, data)`. -/
def pinPropCallback (prop : defiPinProp) (reader : definReader) :
    BuilderResult PinPropsCall :=
  { result := .PARSE_OK
    reader := reader
    calls :=
      PinPropsCall.begin (if prop.isPin then "PIN" else prop.instName)
          prop.pinName
        :: (handle_props prop.props).map PinPropsCall.property
        ++ [PinPropsCall.end_] }

/-! ### regionCallback -/

/-- The kinds of a region (`defRegionType`). -/
inductive defRegionType where
  | DEF_FENCE
  | DEF_GUIDE
  deriving DecidableEq, Repr

/-- A call on the region builder (`definRegion`), with its arguments. -/
inductive RegionCall where
  | begin (name : String) (is_group : Bool)
  | boundary (xl yl xh yh : Int)
  | type (type : defRegionType)
  | property (call : PropertyCall)
  | end_
  deriving DecidableEq, Repr

/-- The event of a region (`defiRegion`); `type` is an `Option` for
`hasType()`. -/
structure defiRegion where
  name : String
  rectangles : List defiRect
  type : Option String
  props : List defiProp
  deriving DecidableEq, Repr

/-- The call of `regionCallback` for the type of the region, if it has one;
the result is `none` when `assert(strcmp(type, "GUIDE") == 0)` fails. -/
def regionTypeCalls (region : defiRegion) : Option (List RegionCall) :=
  match region.type with
  | none => some []
  | some type =>
    if type = "FENCE" then some [RegionCall.type .DEF_FENCE]
    else if type = "GUIDE" then some [RegionCall.type .DEF_GUIDE]
    else none

/-- The callback `definReader::regionCallback(type, region, data)`.  The
result is `none` when the assertion on the type fails. -/
def regionCallback (region : defiRegion) (reader : definReader) :
    Option (BuilderResult RegionCall) :=
  (regionTypeCalls region).map fun typeCalls =>
    { result := .PARSE_OK
      reader := reader
      calls :=
        RegionCall.begin region.name false
          :: region.rectangles.map
              (fun r => RegionCall.boundary r.xl r.yl r.xh r.yh)
          ++ typeCalls
          ++ (handle_props region.props).map RegionCall.property
          ++ [RegionCall.end_] }

/-! ### rowCallback -/

/-- The directions of a row (`defRow`). -/
inductive defRow where
  | DEF_HORIZONTAL
  | DEF_VERTICAL
  deriving DecidableEq, Repr

/-- A call on the row builder (`definRow`), with its arguments. -/
inductive RowCall where
  | begin (name site : String) (x y : Int) (orient : dbOrientType)
      (dir : defRow) (num_sites spacing : Int)
  | property (call : PropertyCall)
  | end_
  deriving DecidableEq, Repr

/-- The event of a row (`defiRow`); `macroName` is the accessor `macro()`. -/
structure defiRow where
  name : String
  macroName : String
  x : Int
  y : Int
  orient : Int
  hasDo : Bool
  xNum : Int
  yNum : Int
  hasDoStep : Bool
  xStep : Int
  yStep : Int
  props : List defiProp
  deriving DecidableEq, Repr

/-- The locals `dir`, `num_sites` and `spacing` of `rowCallback` at its call
of `begin`. -/
def rowLocals (row : defiRow) : defRow × Int × Int :=
  if row.hasDo then
    if row.yNum = 1 then
      (.DEF_HORIZONTAL, row.xNum, if row.hasDoStep then row.xStep else 0)
    else
      (.DEF_VERTICAL, row.yNum, if row.hasDoStep then row.yStep else 0)
  else (.DEF_HORIZONTAL, 1, 0)

/-- The callback `definReader::rowCallback(type, row, data)`. -/
def rowCallback (row : defiRow) (reader : definReader) :
    BuilderResult RowCall :=
  { result := .PARSE_OK
    reader := reader
    calls :=
      RowCall.begin row.name row.macroName row.x row.y
          (translate_orientation row.orient) (rowLocals row).1
          (rowLocals row).2.1 (rowLocals row).2.2
        :: (handle_props row.props).map RowCall.property
        ++ [RowCall.end_] }

/-! ### trackCallback -/

/-- The directions of a track (`defDirection`). -/
inductive defDirection where
  | DEF_X
  | DEF_Y
  deriving DecidableEq, Repr

/-- A call on the builder of the tracks (`definTracks`), with its
arguments. -/
inductive TracksCall where
  | tracksBegin (dir : defDirection) (x xNum xStep : Int)
  | tracksLayer (layer : String)
  | tracksEnd
  deriving DecidableEq, Repr

/-- The event of a track (`defiTrack`); `macroName` is the accessor
`macro()`. -/
structure defiTrack where
  firstTrackMask : Int
  macroName : String
  x : Int
  xNum : Int
  xStep : Int
  layers : List String
  deriving DecidableEq, Repr

/-- The direction that `trackCallback` takes from the first character of
`macro()`, which is the terminating 0 of an empty text. -/
def trackDirection (track : defiTrack) : defDirection :=
  match track.macroName.data with
  | c :: _ => if c = 'X' then .DEF_X else .DEF_Y
  | [] => .DEF_Y

/-- The callback `definReader::trackCallback(type, track, data)`. -/
def trackCallback (track : defiTrack) (reader : definReader) :
    BuilderResult TracksCall :=
  if track.firstTrackMask ≠ 0 then
    BuilderResult.reject reader "MASK on track is unsupported" []
  else
    { result := .PARSE_OK
      reader := reader
      calls :=
        TracksCall.tracksBegin (trackDirection track) track.x track.xNum
            track.xStep
          :: track.layers.map TracksCall.tracksLayer
          ++ [TracksCall.tracksEnd] }

/-! ### viaCallback -/

/-- A call on the via builder (`definVia`), with its arguments. -/
inductive ViaCall where
  | viaBegin (name : String)
  | viaRule (rule : String)
  | viaCutSize (xSize ySize : Int)
  | viaLayers (botLayer cutLayer topLayer : String)
  | viaCutSpacing (xCutSpacing yCutSpacing : Int)
  | viaEnclosure (xBotEnc yBotEnc xTopEnc yTopEnc : Int)
  | viaRowCol (numCutRows numCutCols : Int)
  | viaOrigin (xOffset yOffset : Int)
  | viaOffset (xBotOffset yBotOffset xTopOffset yTopOffset : Int)
  | viaPattern (cutPattern : String)
  | viaRect (layer : String) (xl yl xh yh : Int)
  | viaEnd
  deriving DecidableEq, Repr

/-- The values that `via->viaRule(...)` assigns for a via event with a via
rule. -/
structure defiViaRule where
  viaRuleName : String
  xSize : Int
  ySize : Int
  botLayer : String
  cutLayer : String
  topLayer : String
  xCutSpacing : Int
  yCutSpacing : Int
  xBotEnc : Int
  yBotEnc : Int
  xTopEnc : Int
  yTopEnc : Int
  deriving DecidableEq, Repr

/-- One layer of a via event: `hasRectMask(i)` and the values that
`via->layer(i, ...)` assigns. -/
structure defiViaLayer where
  hasRectMask : Bool
  layer : String
  xl : Int
  yl : Int
  xh : Int
  yh : Int
  deriving DecidableEq, Repr

/-- The event of a via (`defiVia`).  An optional field with its `has`
predicate is an `Option`: `viaRule` with `hasViaRule()`, `rowCol` with
`hasRowCol()`, `origin` with `hasOrigin()`, `offset` with `hasOffset()` and
`cutPattern` with `hasCutPattern()`. -/
structure defiVia where
  name : String
  numPolygons : Int
  viaRule : Option defiViaRule
  rowCol : Option (Int × Int)
  origin : Option (Int × Int)
  offset : Option (Int × Int × Int × Int)
  cutPattern : Option String
  layers : List defiViaLayer
  deriving DecidableEq, Repr

/-- The part of `viaCallback` for the via rule of the event.  `viaLayers` is
the answer of the via builder, which is outside definReader.cpp, to the call
`viaLayers(botLayer, cutLayer, topLayer)`.  The boolean is false when the
callback returns `PARSE_ERROR` after a refused call of `viaLayers`. -/
def viaRuleCalls (viaLayers : String → String → String → Bool)
    (via : defiVia) : Bool × List ViaCall :=
  match via.viaRule with
  | none => (true, [])
  | some r =>
    if !viaLayers r.botLayer r.cutLayer r.topLayer then
      (false,
       [.viaRule r.viaRuleName, .viaCutSize r.xSize r.ySize,
        .viaLayers r.botLayer r.cutLayer r.topLayer])
    else
      (true,
       [.viaRule r.viaRuleName, .viaCutSize r.xSize r.ySize,
        .viaLayers r.botLayer r.cutLayer r.topLayer,
        .viaCutSpacing r.xCutSpacing r.yCutSpacing,
        .viaEnclosure r.xBotEnc r.yBotEnc r.xTopEnc r.yTopEnc]
        ++ (via.rowCol.map fun p => ViaCall.viaRowCol p.1 p.2).toList
        ++ (via.origin.map fun p => ViaCall.viaOrigin p.1 p.2).toList
        ++ (via.offset.map fun p =>
              ViaCall.viaOffset p.1 p.2.1 p.2.2.1 p.2.2.2).toList
        ++ (via.cutPattern.map ViaCall.viaPattern).toList)

/-- The loop of `viaCallback` over the layers of the via.  The boolean is
false when the loop returns `PARSE_ERROR` at a rect with a mask. -/
def viaLayersLoop : List defiViaLayer → Bool × List ViaCall
  | [] => (true, [])
  | l :: rest =>
    if l.hasRectMask then (false, [])
    else
      ((viaLayersLoop rest).1,
       ViaCall.viaRect l.layer l.xl l.yl l.xh l.yh :: (viaLayersLoop rest).2)

/-- The callback `definReader::viaCallback(type, via, data)`; `viaLayers` is
the answer of the via builder to the call of `viaLayers`.  The return after a
refused call of `viaLayers` passes no message to `reader->error`. -/
def viaCallback (viaLayers : String → String → String → Bool)
    (via : defiVia) (reader : definReader) : BuilderResult ViaCall :=
  if via.numPolygons > 0 then
    BuilderResult.reject reader "POLYGON in via is unsupported" []
  else
    match viaRuleCalls viaLayers via with
    | (false, calls) =>
      { result := .PARSE_ERROR
        reader := reader
        calls := ViaCall.viaBegin via.name :: calls }
    | (true, calls) =>
      match viaLayersLoop via.layers with
      | (false, calls2) =>
        BuilderResult.reject reader "MASK on via rect is unsupported"
          (ViaCall.viaBegin via.name :: calls ++ calls2)
      | (true, calls2) =>
        { result := .PARSE_OK
          reader := reader
          calls := ViaCall.viaBegin via.name :: calls ++ calls2
            ++ [ViaCall.viaEnd] }

/-! ## The translation of a path in the words of the specification -/

/-- Follows the spec's words, for the comparison with `netPathLoop`: the
items of a path whose tokens are all supported.  A layer token followed by a
taper token, a layer token followed by a taper-rule token, any other layer
token, a via token followed by a via-rotation token, any other via token, a
point token and a flush-point token. -/
inductive SpecPathItem where
  | layerTaper (layer : String)
  | layerTaperRule (layer rule : String)
  | layer (layer : String)
  | viaRotation (via : String) (rotation : Int)
  | via (via : String)
  | point (x y : Int)
  | flushPoint (x y ext : Int)
  deriving DecidableEq, Repr

/-- Follows the spec's words: the tokens of an item, in source order. -/
def SpecPathItem.tokens : SpecPathItem → defiPath
  | .layerTaper l => [.LAYER l, .TAPER]
  | .layerTaperRule l rule => [.LAYER l, .TAPERRULE rule]
  | .layer l => [.LAYER l]
  | .viaRotation v rotation => [.VIA v, .VIAROTATION rotation]
  | .via v => [.VIA v]
  | .point x y => [.POINT x y]
  | .flushPoint x y ext => [.FLUSHPOINT x y ext]

/-- Follows the spec's words: the one call on the net builder that an item is
turned into. -/
def SpecPathItem.call : SpecPathItem → NetCall
  | .layerTaper l => .pathTaper l
  | .layerTaperRule l rule => .pathTaperRule l rule
  | .layer l => .path (some l)
  | .viaRotation v rotation =>
    .pathViaOrient v (translate_orientation rotation)
  | .via v => .pathVia v
  | .point x y => .pathPoint x y
  | .flushPoint x y ext => .pathPointExt x y ext

/-- Follows the spec's words: the tokens of a path that is made of the items
`items`. -/
def specPathTokens (items : List SpecPathItem) : defiPath :=
  items.flatMap SpecPathItem.tokens

/-- Follows the spec's words: the calls for a path that is made of the items
`items`, one call for each item, in order, followed by one `pathEnd`. -/
def specPathCalls (items : List SpecPathItem) : List NetCall :=
  items.map SpecPathItem.call ++ [NetCall.pathEnd]

/-- Follows the spec's words: the calls for a wire of the type `wireType`
whose paths are made of the items `paths`. -/
def specWireCalls (wire : String × List (List SpecPathItem)) : List NetCall :=
  NetCall.wire wire.1 :: wire.2.flatMap specPathCalls ++ [NetCall.wireEnd]

/-- The wire event with the type and the paths of `wire`. -/
def specWire (wire : String × List (List SpecPathItem)) : defiWire :=
  { wireType := wire.1, paths := wire.2.map specPathTokens }

/-! ## Example events of the other constructs -/

/-- The items of an example path: M1 with a taper, two points, a rotated via,
a plain layer M2, a flush point and a plain via. -/
def exampleTaperItems : List SpecPathItem :=
  [.layerTaper "M1", .point 0 0, .point 100 0, .viaRotation "via1" 1,
   .layer "M2", .flushPoint 100 200 35, .via "via2"]

/-- An example net event: net n1 with two connections and one routed wire
with the path of `exampleTaperItems` and a path on M1 with a taper rule. -/
def exampleTaperNet : defiNet :=
  { exampleRectNet with
    connections :=
      [{ inst := "u1", pin := "A", pinIsSynthesized := false,
         pinIsMustJoin := false },
       { inst := "u2", pin := "Z", pinIsSynthesized := false,
         pinIsMustJoin := true }]
    wires :=
      [specWire ("ROUTED",
        [exampleTaperItems,
         [.layerTaperRule "M1" "wide", .point 0 0, .point 0 50]])] }

/-- An example net event with a synthesized connection after a plain one. -/
def exampleSynthesizedNet : defiNet :=
  { exampleRectNet with
    connections :=
      [{ inst := "u1", pin := "A", pinIsSynthesized := false,
         pinIsMustJoin := false },
       { inst := "u2", pin := "Z", pinIsSynthesized := true,
         pinIsMustJoin := false }] }

/-- An example net event with a shield net and a subnet, two unsupported
features at once. -/
def exampleShieldNet : defiNet :=
  { exampleRectNet with numShieldNets := 1, hasSubnets := true }

/-- An example special net event with a voltage. -/
def exampleVoltageSNet : defiSNet :=
  { exampleSNet with hasVoltage := true }

/-- An example blockage event: a routing blockage on M1 with one
rectangle. -/
def exampleBlockage : defiBlockage :=
  { hasExceptpgnet := false
    hasMask := false
    hasSoft := false
    hasPartial := false
    layerName := some "M1"
    hasSlots := false
    hasFills := false
    hasPushdown := true
    minSpacing := some 100
    designRuleWidth := none
    placementComponentName := none
    rectangles := [{ xl := 0, yl := 0, xh := 100, yh := 200 }]
    polygons := [] }

/-- An example blockage event with the SOFT flag. -/
def exampleSoftBlockage : defiBlockage :=
  { exampleBlockage with hasSoft := true }

/-- An example pin event: the pin clk of the net clk with one rectangle on M1
and a fixed placement. -/
def examplePin : defiPin :=
  { pinName := "clk"
    netName := "clk"
    numVias := 0
    hasNetExpr := false
    hasAPinPartialMetalArea := false
    hasAPinPartialMetalSideArea := false
    hasAPinDiffArea := false
    hasAPinPartialCutArea := false
    numAntennaModel := 0
    numPorts := 1
    numPolygons := 0
    hasSpecial := false
    use := some "CLOCK"
    direction := some "INPUT"
    supplySensitivity := none
    groundSensitivity := none
    layers := [{ layer := "M1", layerMask := 0, xl := -35, yl := 0,
                 xh := 35, yh := 70, layerSpacing := none,
                 layerDesignRuleWidth := none }]
    placement := some { isPlaced := false, isCover := false, isFixed := true
                        placementX := 0, placementY := 500, orient := 0 } }

/-- An example pin event with two ports. -/
def exampleTwoPortPin : defiPin :=
  { examplePin with numPorts := 2 }

/-- An example pin event whose second layer has a mask. -/
def exampleMaskPin : defiPin :=
  { examplePin with
    layers := examplePin.layers ++
      [{ layer := "M2", layerMask := 1, xl := 0, yl := 0, xh := 10, yh := 10,
         layerSpacing := none, layerDesignRuleWidth := none }] }

/-- An example via event: a generated via with the via rule VIAGEN12 and no
fixed rect. -/
def exampleVia : defiVia :=
  { name := "via1_gen"
    numPolygons := 0
    viaRule := some { viaRuleName := "VIAGEN12", xSize := 70, ySize := 70
                      botLayer := "M1", cutLayer := "V1", topLayer := "M9"
                      xCutSpacing := 80, yCutSpacing := 80
                      xBotEnc := 10, yBotEnc := 10
                      xTopEnc := 20, yTopEnc := 20 }
    rowCol := some (2, 2)
    origin := none
    offset := none
    cutPattern := none
    layers := [] }

/-- An example via event with a polygon. -/
def examplePolygonVia : defiVia :=
  { exampleVia with numPolygons := 1 }

/-- An example answer of the via builder: it accepts a layer triple whose
top layer is M2, and refuses every other. -/
def exampleViaLayers (_botLayer _cutLayer topLayer : String) : Bool :=
  topLayer = "M2"

/-- An example non-default rule event: the rule wide with one layer. -/
def exampleRule : defiNonDefault :=
  { name := "wide"
    hasHardspacing := true
    layers := [{ layerName := "M1", hasLayerDiagWidth := false
                 layerWidthVal := 280, layerSpacingVal := some 140
                 layerWireExtVal := none }]
    vias := ["via1"]
    viaRules := []
    minCuts := [("V1", 2)]
    props := [] }

/-- An example non-default rule event whose second layer has a diagonal
width. -/
def exampleDiagWidthRule : defiNonDefault :=
  { exampleRule with
    layers := exampleRule.layers ++
      [{ layerName := "M2", hasLayerDiagWidth := true, layerWidthVal := 280
         layerSpacingVal := none, layerWireExtVal := none }] }

/-- An example row event: a horizontal row of 100 sites. -/
def exampleRow : defiRow :=
  { name := "row0"
    macroName := "core"
    x := 0
    y := 0
    orient := 0
    hasDo := true
    xNum := 100
    yNum := 1
    hasDoStep := true
    xStep := 380
    yStep := 0
    props := [] }

/-- An example region event: a fence with one rectangle. -/
def exampleRegion : defiRegion :=
  { name := "r1"
    rectangles := [{ xl := 0, yl := 0, xh := 1000, yh := 1000 }]
    type := some "FENCE"
    props := [] }

/-- An example track event: tracks in X on M1. -/
def exampleTrack : defiTrack :=
  { firstTrackMask := 0
    macroName := "X"
    x := 0
    xNum := 50
    xStep := 140
    layers := ["M1"] }

/-- An example pin-property event: one string property of the pin A of the
instance u1. -/
def examplePinProp : defiPinProp :=
  { isPin := false
    instName := "u1"
    pinName := "A"
    props := [{ propName := "kind", propType := 'S', propNumber := 0
                propValue := "data" }] }

/-! ## Kinds of path tokens -/

/-- The token is a layer token (`DEFIPATH_LAYER`). -/
def defiPathTok.isLayer : defiPathTok → Bool
  | .LAYER _ => true
  | _ => false

/-- The token is a point token (`DEFIPATH_POINT`). -/
def defiPathTok.isPoint : defiPathTok → Bool
  | .POINT _ _ => true
  | _ => false

/-- The token is a rect token (`DEFIPATH_RECT`). -/
def defiPathTok.isRect : defiPathTok → Bool
  | .RECT _ _ _ _ => true
  | _ => false

/-! ## Example paths for handleRectPath -/

/-- An example path with two layer tokens: LAYER M2, LAYER M1,
POINT (500,500), RECT (-70,-100,70,100). -/
def exampleTwoLayerPath : defiPath :=
  [.LAYER "M2", .LAYER "M1", .POINT 500 500, .RECT (-70) (-100) 70 100]

/-- An example path without a rect token: LAYER M1, POINT (500,500). -/
def examplePointOnlyPath : defiPath :=
  [.LAYER "M1", .POINT 500 500]

/-- An example path without a point token: LAYER M1,
RECT (-70,-100,70,100). -/
def exampleRectOnlyPath : defiPath :=
  [.LAYER "M1", .RECT (-70) (-100) 70 100]

/-- An example path without a layer token: POINT (500,500),
RECT (-70,-100,70,100). -/
def exampleNoLayerPath : defiPath :=
  [.POINT 500 500, .RECT (-70) (-100) 70 100]

/-- An example net event: net n1 with one routed wire whose single path is
LAYER M1, POINT (500,500). -/
def examplePointOnlyNet : defiNet :=
  { exampleRectNet with
    wires := [{ wireType := "ROUTED", paths := [examplePointOnlyPath] }] }

/-- An example path that the loop of handleRectPath accepts and that is
rejected after the call of path: LAYER M1, POINT (0,0), RECT (0,0,10,10), a
rect that is not of the width 140 of M1. -/
def exampleOffWidthPath : defiPath :=
  [.LAYER "M1", .POINT 0 0, .RECT 0 0 10 10]

/-! ## Properties of handleRectPath -/

/-- A list with the same elements as a list of three is one of its six
orderings. -/
theorem perm_three {α : Type} {a b c : α} {l : List α}
    (h : l.Perm [a, b, c]) :
    l = [a, b, c] ∨ l = [a, c, b] ∨ l = [b, a, c] ∨
    l = [b, c, a] ∨ l = [c, a, b] ∨ l = [c, b, a] := by
  have h2 := List.mem_permutations.2 h
  simp [List.permutations, List.permutationsAux_cons,
    List.permutationsAux2] at h2
  tauto

/-- The integer division of C++ halves a doubled value exactly. -/
theorem tdiv_double (a : Int) : Int.tdiv (a + a) 2 = a := by
  have h : a + a = a * 2 := by omega
  rw [h]
  exact Int.mul_tdiv_cancel a (by decide)

/-- An arithmetic operation whose exact value is an int has that value. -/
theorem intResult_of_range {v : Int} (h : IsInt32 v) :
    intResult v = some v := by
  unfold intResult
  exact if_pos h

/-- An arithmetic operation that has a result has its exact value, and this
value is an int. -/
theorem intResult_eq_some {v w : Int} (h : intResult v = some w) :
    IsInt32 v ∧ w = v := by
  unfold intResult at h
  by_cases hr : INT_MIN ≤ v ∧ v ≤ INT_MAX
  · rw [if_pos hr] at h
    injection h with h
    exact ⟨hr, h.symm⟩
  · rw [if_neg hr] at h
    exact absurd h (by simp)

/-- On a path made of one layer token, one point token and one rect token, in
any order, the loop of handleRectPath ends with the layer, the point and the
rect of these tokens. -/
theorem handleRectPathLoop_three (layer : String)
    (x y dx1 dy1 dx2 dy2 : Int) (path : defiPath)
    (hpath : path.Perm [.LAYER layer, .POINT x y, .RECT dx1 dy1 dx2 dy2]) :
    handleRectPathLoop path RectPathLocals.init =
      some { layerName := some layer, point := some (x, y),
             rect := some (dx1, dy1, dx2, dy2) } := by
  rcases perm_three hpath with h | h | h | h | h | h <;>
    subst h <;> simp [handleRectPathLoop, RectPathLocals.init]

/-- On a path made of one layer token, one point token and one rect token, in
any order, handleRectPath is its part after the loop, run on the values of
these tokens. -/
theorem handleRectPath_three (tech : dbTech) (layer : String)
    (x y dx1 dy1 dx2 dy2 : Int) (path : defiPath)
    (hpath : path.Perm [.LAYER layer, .POINT x y, .RECT dx1 dy1 dx2 dy2]) :
    handleRectPath tech path =
      handleRectPathEmit tech
        { layerName := some layer, point := some (x, y),
          rect := some (dx1, dy1, dx2, dy2) } := by
  simp [handleRectPath, handleRectPathLoop_three layer x y dx1 dy1 dx2 dy2
    path hpath]

/-- Claim C1 (vertical case).  For every path made of one layer token, one
point token (x,y) and one rect token (dx1,dy1,dx2,dy2), in any order, with W
the width of the layer, all of them values of type int on which no operation
of the function overflows: if dx2 - dx1 = W and dx1 = -dx2 then
handleRectPath returns true and the net builder receives exactly path(layer),
pathPoint(x, y+dy1+W/2), pathPoint(x, y+dy2-W/2), pathEnd, in that order,
where W/2 is the integer division of C++. -/
theorem handleRectPath_vertical (tech : dbTech) (layer : String)
    (W x y dx1 dy1 dx2 dy2 : Int) (path : defiPath)
    (hpath : path.Perm [.LAYER layer, .POINT x y, .RECT dx1 dy1 dx2 dy2])
    (hW : tech.findLayer layer = some { getWidth := W })
    (hspan : dx2 - dx1 = W) (hcentered : dx1 = -dx2)
    (hvalues : IsInt32 W ∧ IsInt32 x ∧ IsInt32 y ∧ IsInt32 dx1 ∧
      IsInt32 dy1 ∧ IsInt32 dx2 ∧ IsInt32 dy2)
    (hrange : IsInt32 (dx2 - dx1) ∧ IsInt32 (-dx1) ∧
      IsInt32 (y + dy1) ∧ IsInt32 (y + dy1 + Int.tdiv W 2) ∧
      IsInt32 (y + dy2) ∧ IsInt32 (y + dy2 - Int.tdiv W 2)) :
    handleRectPath tech path =
      some (true, [.path (some layer),
                   .pathPoint x (y + dy1 + Int.tdiv W 2),
                   .pathPoint x (y + dy2 - Int.tdiv W 2),
                   .pathEnd]) := by
  rw [handleRectPath_three tech layer x y dx1 dy1 dx2 dy2 path hpath]
  obtain ⟨r1, r2, r3, r4, r5, r6⟩ := hrange
  obtain ⟨_, _, _, _, _, _, _⟩ := hvalues
  have hneg : -dx1 = dx2 := by omega
  rw [hspan] at r1
  rw [hneg] at r2
  simp [handleRectPathEmit, hW, intResult_of_range r1, intResult_of_range r2,
    intResult_of_range r3, intResult_of_range r4, intResult_of_range r5,
    intResult_of_range r6, hspan, hneg]

/-- Claim C1, witness: the path LAYER M1, POINT (500,500),
RECT (-70,-100,70,100) with M1 of width 140. -/
theorem handleRectPath_vertical_witness :
    techM1.findLayer "M1" = some { getWidth := 140 } ∧
    (70 : Int) - (-70) = 140 ∧ (-70 : Int) = -70 ∧
    handleRectPath techM1
        [.LAYER "M1", .POINT 500 500, .RECT (-70) (-100) 70 100] =
      some (true, [.path (some "M1"),
                   .pathPoint 500 (500 + (-100) + Int.tdiv 140 2),
                   .pathPoint 500 (500 + 100 - Int.tdiv 140 2),
                   .pathEnd]) :=
  ⟨by rfl, by decide, by decide,
   handleRectPath_vertical techM1 "M1" 140 500 500 (-70) (-100) 70 100
    [.LAYER "M1", .POINT 500 500, .RECT (-70) (-100) 70 100]
    (List.Perm.refl _) (by rfl) (by decide) (by decide) (by decide)
    (by decide)⟩

/-- Claim C2 as stated fails: with M1 of width 140, the rect (0,-70,140,70)
at (500,500) has dy2 - dy1 = W and dy1 = -dy2, and handleRectPath returns
false after the path call: the test of the horizontal span comes first, and
the rect is not centered horizontally. -/
theorem handleRectPath_horizontal_counterexample :
    techM1.findLayer "M1" = some { getWidth := 140 } ∧
    ((70 : Int) - (-70) = 140 ∧ (-70 : Int) = -70) ∧
    handleRectPath techM1
        [.LAYER "M1", .POINT 500 500, .RECT 0 (-70) 140 70] =
      some (false, [.path (some "M1")]) ∧
    handleRectPath techM1
        [.LAYER "M1", .POINT 500 500, .RECT 0 (-70) 140 70] ≠
      some (true, [.path (some "M1"),
                   .pathPoint (500 + 0 + Int.tdiv 140 2) 500,
                   .pathPoint (500 + 140 - Int.tdiv 140 2) 500,
                   .pathEnd]) := by
  have h : handleRectPath techM1
      [.LAYER "M1", .POINT 500 500, .RECT 0 (-70) 140 70] =
      some (false, [.path (some "M1")]) := by rfl
  refine ⟨by rfl, by decide, h, ?_⟩
  rw [h]
  decide

/-- Claim C2 (horizontal case), amended.  For every path made of one layer
token, one point token (x,y) and one rect token (dx1,dy1,dx2,dy2), in any
order, with W the width of the layer, all of them values of type int on which
no operation of the function overflows: if dy2 - dy1 = W and dy1 = -dy2, then
handleRectPath returns true with the two points (x+dx1+W/2, y) and
(x+dx2-W/2, y) between path(layer) and pathEnd, unless dx2 - dx1 = W and
dx1 is not -dx2; in that case it returns false after the path call. -/
theorem handleRectPath_horizontal (tech : dbTech) (layer : String)
    (W x y dx1 dy1 dx2 dy2 : Int) (path : defiPath)
    (hpath : path.Perm [.LAYER layer, .POINT x y, .RECT dx1 dy1 dx2 dy2])
    (hW : tech.findLayer layer = some { getWidth := W })
    (hspan : dy2 - dy1 = W) (hcentered : dy1 = -dy2)
    (hvalues : IsInt32 W ∧ IsInt32 x ∧ IsInt32 y ∧ IsInt32 dx1 ∧
      IsInt32 dy1 ∧ IsInt32 dx2 ∧ IsInt32 dy2)
    (hrange : IsInt32 (dx2 - dx1) ∧ IsInt32 (-dx1) ∧
      IsInt32 (dy2 - dy1) ∧ IsInt32 (-dy1) ∧
      IsInt32 (x + dx1) ∧ IsInt32 (x + dx1 + Int.tdiv W 2) ∧
      IsInt32 (x + dx2) ∧ IsInt32 (x + dx2 - Int.tdiv W 2) ∧
      IsInt32 (y + dy1) ∧ IsInt32 (y + dy1 + Int.tdiv W 2) ∧
      IsInt32 (y + dy2) ∧ IsInt32 (y + dy2 - Int.tdiv W 2)) :
    handleRectPath tech path =
      if dx2 - dx1 = W ∧ dx1 ≠ -dx2 then
        some (false, [.path (some layer)])
      else
        some (true, [.path (some layer),
                     .pathPoint (x + dx1 + Int.tdiv W 2) y,
                     .pathPoint (x + dx2 - Int.tdiv W 2) y,
                     .pathEnd]) := by
  rw [handleRectPath_three tech layer x y dx1 dy1 dx2 dy2 path hpath]
  obtain ⟨r1, r2, r3, r4, r5, r6, r7, r8, r9, r10, r11, r12⟩ := hrange
  obtain ⟨_, _, _, _, _, _, _⟩ := hvalues
  have hneg : -dy1 = dy2 := by omega
  by_cases hx : dx2 - dx1 = W
  · by_cases hc : dx1 = -dx2
    · have hnegx : -dx1 = dx2 := by omega
      have hdx : dx2 + dx2 = W := by omega
      have hdy : dy2 + dy2 = W := by omega
      have hext : Int.tdiv W 2 = dx2 := by
        rw [← hdx, tdiv_double]
      have hext2 : Int.tdiv W 2 = dy2 := by
        rw [← hdy, tdiv_double]
      have e1 : y + dy1 + dy2 = y := by omega
      have e2 : y + dy2 - dy2 = y := by omega
      have e3 : x + dx1 + dx2 = x := by omega
      have e4 : x + dx2 - dx2 = x := by omega
      have hnot : ¬ (dx2 - dx1 = W ∧ dx1 ≠ -dx2) := fun h => h.2 hc
      have p1 : y + dy1 + Int.tdiv W 2 = y := by rw [hext2]; exact e1
      have p2 : y + dy2 - Int.tdiv W 2 = y := by rw [hext2]; exact e2
      have p3 : x + dx1 + Int.tdiv W 2 = x := by rw [hext]; exact e3
      have p4 : x + dx2 - Int.tdiv W 2 = x := by rw [hext]; exact e4
      rw [if_neg hnot, p3, p4]
      rw [hx] at r1
      rw [hnegx] at r2
      rw [p1] at r10
      rw [p2] at r12
      simp [handleRectPathEmit, hW, intResult_of_range r1,
        intResult_of_range r2, intResult_of_range r9,
        intResult_of_range r10, intResult_of_range r11,
        intResult_of_range r12, hx, hnegx, p1, p2]
    · have hnegx : ¬ (-dx1 = dx2) := by omega
      rw [hx] at r1
      simp [handleRectPathEmit, hW, intResult_of_range r1,
        intResult_of_range r2, hx, hc, hnegx]
  · rw [hspan] at r3
    rw [hneg] at r4
    simp [handleRectPathEmit, hW, intResult_of_range r1,
      intResult_of_range r3, intResult_of_range r4, intResult_of_range r5,
      intResult_of_range r6, intResult_of_range r7, intResult_of_range r8,
      hx, hspan, hneg]

/-- Claim C2, witness: the path POINT (500,500), LAYER M1,
RECT (-100,-70,100,70) with M1 of width 140. -/
theorem handleRectPath_horizontal_witness :
    techM1.findLayer "M1" = some { getWidth := 140 } ∧
    (70 : Int) - (-70) = 140 ∧ (-70 : Int) = -70 ∧
    handleRectPath techM1
        [.POINT 500 500, .LAYER "M1", .RECT (-100) (-70) 100 70] =
      if (100 : Int) - (-100) = 140 ∧ (-100 : Int) ≠ -100 then
        some (false, [.path (some "M1")])
      else
        some (true, [.path (some "M1"),
                     .pathPoint (500 + (-100) + Int.tdiv 140 2) 500,
                     .pathPoint (500 + 100 - Int.tdiv 140 2) 500,
                     .pathEnd]) :=
  ⟨by rfl, by decide, by decide,
   handleRectPath_horizontal techM1 "M1" 140 500 500 (-100) (-70) 100 70
    [.POINT 500 500, .LAYER "M1", .RECT (-100) (-70) 100 70]
    (List.Perm.swap _ _ _) (by rfl) (by decide) (by decide) (by decide)
    (by decide)⟩

/-- Claim C3 (rejection).  For every path made of one layer token, one point
token and one rect token, in any order, with W the width of the layer, all of
them values of type int on which neither subtraction nor negation overflows:
if neither (dx2 - dx1 = W and dx1 = -dx2) nor (dy2 - dy1 = W and dy1 = -dy2)
holds, handleRectPath returns false, and the only call it has made on the net
builder is path(layer): no pathPoint and no pathEnd. -/
theorem handleRectPath_rejects (tech : dbTech) (layer : String)
    (W x y dx1 dy1 dx2 dy2 : Int) (path : defiPath)
    (hpath : path.Perm [.LAYER layer, .POINT x y, .RECT dx1 dy1 dx2 dy2])
    (hW : tech.findLayer layer = some { getWidth := W })
    (hvertical : ¬ (dx2 - dx1 = W ∧ dx1 = -dx2))
    (hhorizontal : ¬ (dy2 - dy1 = W ∧ dy1 = -dy2))
    (hvalues : IsInt32 W ∧ IsInt32 x ∧ IsInt32 y ∧ IsInt32 dx1 ∧
      IsInt32 dy1 ∧ IsInt32 dx2 ∧ IsInt32 dy2)
    (hrange : IsInt32 (dx2 - dx1) ∧ IsInt32 (-dx1) ∧
      IsInt32 (dy2 - dy1) ∧ IsInt32 (-dy1)) :
    handleRectPath tech path = some (false, [.path (some layer)]) := by
  rw [handleRectPath_three tech layer x y dx1 dy1 dx2 dy2 path hpath]
  obtain ⟨r1, r2, r3, r4⟩ := hrange
  obtain ⟨_, _, _, _, _, _, _⟩ := hvalues
  by_cases hx : dx2 - dx1 = W
  · have hnegx : ¬ (-dx1 = dx2) := by
      intro h; exact hvertical ⟨hx, by omega⟩
    rw [hx] at r1
    simp [handleRectPathEmit, hW, intResult_of_range r1,
      intResult_of_range r2, hx, hnegx]
  · by_cases hy : dy2 - dy1 = W
    · have hnegy : ¬ (-dy1 = dy2) := by
        intro h; exact hhorizontal ⟨hy, by omega⟩
      rw [hy] at r3
      simp [handleRectPathEmit, hW, intResult_of_range r1,
        intResult_of_range r3, intResult_of_range r4, hx, hy, hnegy]
    · simp [handleRectPathEmit, hW, intResult_of_range r1,
        intResult_of_range r3, hx, hy]

/-- Claim C3, witness: the rect (-70,-100,80,100) is 150 wide and 200 high,
neither of which is the width 140 of M1. -/
theorem handleRectPath_rejects_witness :
    techM1.findLayer "M1" = some { getWidth := 140 } ∧
    ¬ ((80 : Int) - (-70) = 140 ∧ (-70 : Int) = -80) ∧
    ¬ ((100 : Int) - (-100) = 140 ∧ (-100 : Int) = -100) ∧
    handleRectPath techM1
        [.LAYER "M1", .POINT 500 500, .RECT (-70) (-100) 80 100] =
      some (false, [.path (some "M1")]) :=
  ⟨by rfl, by decide, by decide,
   handleRectPath_rejects techM1 "M1" 140 500 500 (-70) (-100) 80 100
    [.LAYER "M1", .POINT 500 500, .RECT (-70) (-100) 80 100]
    (List.Perm.refl _) (by rfl) (by decide) (by decide) (by decide)
    (by decide)⟩

/-! ## Properties of netCallback -/

/-- Without a synthesized connection the loop over the connections runs to
its end and makes one call per connection, in order. -/
theorem netConnectionsLoop_complete (cs : List defiConnection)
    (h : ∀ c ∈ cs, c.pinIsSynthesized = false) :
    netConnectionsLoop cs = (true, cs.map netConnectionCall) := by
  induction cs with
  | nil => rfl
  | cons c rest ih =>
    have hc : c.pinIsSynthesized = false := h c (List.mem_cons_self c rest)
    have hrest : ∀ c2 ∈ rest, c2.pinIsSynthesized = false :=
      fun c2 hc2 => h c2 (List.mem_cons_of_mem c hc2)
    simp [netConnectionsLoop, hc, ih hrest]

/-- Claim C4 as stated fails: for the net n1 whose single wire has the single
path LAYER M1, POINT (500,500), RECT (-70,-100,70,100), with M1 of width 140,
netCallback returns PARSE_OK and the two points of the path are (500,470) and
(500,530); the net builder receives neither (500,400) nor (500,600). -/
theorem netCallback_rect_scenario_counterexample :
    (netCallback exampleRectNet exampleReader).map
        (fun r => (r.result, r.netCalls)) =
      some (.PARSE_OK,
        [.begin "n1", .wire "ROUTED", .path (some "M1"),
         .pathPoint 500 470, .pathPoint 500 530, .pathEnd, .wireEnd,
         .end_]) ∧
    ¬ ∃ r, netCallback exampleRectNet exampleReader = some r ∧
        (NetCall.pathPoint 500 400 ∈ r.netCalls ∨
         NetCall.pathPoint 500 600 ∈ r.netCalls) := by
  have h : netCallback exampleRectNet exampleReader =
      some { result := .PARSE_OK
             reader := exampleReader
             netCalls := [.begin "n1", .wire "ROUTED", .path (some "M1"),
               .pathPoint 500 470, .pathPoint 500 530, .pathEnd, .wireEnd,
               .end_] } := by
    rfl
  refine ⟨by rw [h]; rfl, ?_⟩
  rintro ⟨r, hr, hmem⟩
  rw [h] at hr
  injection hr with hr
  subst hr
  revert hmem
  decide

/-- Claim C4 (end-to-end rect path), amended.  For every net event without
unsupported feature and without synthesized connection whose single wire has
the single path LAYER M1, POINT (500,500), RECT (-70,-100,70,100), with M1 of
width 140, netCallback returns PARSE_OK, leaves the reader as it is, and the
net builder receives, between the calls for the head of the net and for its
properties, the wire with a two-point path on M1 whose points are (500,470)
and (500,530). -/
theorem netCallback_rect_scenario (net : defiNet) (reader : definReader)
    (wireType : String)
    (hsupported : netUnsupported net = none)
    (hconnections : ∀ c ∈ net.connections, c.pinIsSynthesized = false)
    (hwires : net.wires =
      [{ wireType := wireType
         paths := [[.LAYER "M1", .POINT 500 500,
                    .RECT (-70) (-100) 70 100]] }])
    (hM1 : reader._tech.findLayer "M1" = some { getWidth := 140 }) :
    netCallback net reader =
      some { result := .PARSE_OK
             reader := reader
             netCalls := netHeaderCalls net
               ++ net.connections.map netConnectionCall
               ++ [.wire wireType, .path (some "M1"),
                   .pathPoint 500 470, .pathPoint 500 530, .pathEnd,
                   .wireEnd]
               ++ (handle_props net.props).map NetCall.property
               ++ [NetCall.end_] } := by
  have hrect : handleRectPath reader._tech
      [.LAYER "M1", .POINT 500 500, .RECT (-70) (-100) 70 100] =
      some (true, [.path (some "M1"), .pathPoint 500 470,
                   .pathPoint 500 530, .pathEnd]) := by
    rw [handleRectPath_three reader._tech "M1" 500 500 (-70) (-100) 70 100 _
      (List.Perm.refl _)]
    simp [handleRectPathEmit, hM1]
    decide
  simp [netCallback, hsupported, netConnectionsLoop_complete _ hconnections,
    hwires, netWiresLoop, netPathsLoop, hrect]

/-- Claim C4, witness: the net n1 with a routed wire. -/
theorem netCallback_rect_scenario_witness :
    netUnsupported exampleRectNet = none ∧
    exampleReader._tech.findLayer "M1" = some { getWidth := 140 } ∧
    netCallback exampleRectNet exampleReader =
      some { result := .PARSE_OK
             reader := exampleReader
             netCalls := netHeaderCalls exampleRectNet
               ++ exampleRectNet.connections.map netConnectionCall
               ++ [.wire "ROUTED", .path (some "M1"),
                   .pathPoint 500 470, .pathPoint 500 530, .pathEnd,
                   .wireEnd]
               ++ (handle_props exampleRectNet.props).map NetCall.property
               ++ [NetCall.end_] } :=
  ⟨by rfl, by rfl,
   netCallback_rect_scenario exampleRectNet exampleReader "ROUTED" (by rfl)
    (by intro c hc; cases hc) (by rfl) (by rfl)⟩

/-! ## Properties of dieAreaCallback -/

/-- Claim C5 (die area with two points).  In full-build mode, for every
die-area event with exactly the two points (x0,y0), (x1,y1), dieAreaCallback
returns PARSE_OK, leaves the error count (and the whole reader) unchanged,
emits no message, and sets the die area of the block to the rectangle with
corners (min(x0,x1), min(y0,y1)) and (max(x0,x1), max(y0,y1)). -/
theorem dieAreaCallback_two_points (reader : definReader)
    (x0 y0 x1 y1 : Int) (hfull : reader._update = false) :
    (dieAreaCallback { getPoint := [⟨x0, y0⟩, ⟨x1, y1⟩] } reader).result
      = .PARSE_OK ∧
    (dieAreaCallback { getPoint := [⟨x0, y0⟩, ⟨x1, y1⟩] } reader).reader._errors
      = reader._errors ∧
    (dieAreaCallback { getPoint := [⟨x0, y0⟩, ⟨x1, y1⟩] } reader).blockCalls
      = [.setDieArea { xlo := min x0 x1, ylo := min y0 y1,
                       xhi := max x0 x1, yhi := max y0 y1 }] ∧
    dieAreaCallback { getPoint := [⟨x0, y0⟩, ⟨x1, y1⟩] } reader =
      { result := .PARSE_OK
        reader := reader
        blockCalls := [.setDieArea (Rect.new x0 y0 x1 y1)] } := by
  simp [dieAreaCallback, hfull, translate, Rect.new]

/-- Claim C5, witness: the corners (3,9) and (1,10) in full-build mode. -/
theorem dieAreaCallback_two_points_witness :
    exampleReader._update = false ∧
    (dieAreaCallback { getPoint := [⟨3, 9⟩, ⟨1, 10⟩] } exampleReader).blockCalls
      = [.setDieArea { xlo := 1, ylo := 9, xhi := 3, yhi := 10 }] :=
  ⟨by rfl,
   (dieAreaCallback_two_points exampleReader 3 9 1 10 (by rfl)).2.2.1⟩

/-- The components of the loop of dieAreaCallback are four separate
reductions. -/
theorem foldl_dieAreaStep (P : List Point) (a b c d : Int) :
    P.foldl dieAreaStep (a, b, c, d) =
      (P.foldl (fun m p => if p.getX < m then p.getX else m) a,
       P.foldl (fun m p => if p.getY < m then p.getY else m) b,
       P.foldl (fun m p => if p.getX > m then p.getX else m) c,
       P.foldl (fun m p => if p.getY > m then p.getY else m) d) := by
  induction P generalizing a b c d with
  | nil => rfl
  | cons p rest ih => simp only [List.foldl_cons, dieAreaStep, ih]

/-- The reduction with the test `v < m`: the result is a lower bound of the
start value and of every element, and it is the start value or the value of
an element. -/
theorem foldl_lower (f : Point → Int) (P : List Point) (a : Int) :
    P.foldl (fun m p => if f p < m then f p else m) a ≤ a ∧
    (∀ p ∈ P, P.foldl (fun m p => if f p < m then f p else m) a ≤ f p) ∧
    (P.foldl (fun m p => if f p < m then f p else m) a = a ∨
     ∃ p ∈ P, f p = P.foldl (fun m p => if f p < m then f p else m) a) := by
  induction P generalizing a with
  | nil => simp
  | cons q rest ih =>
    by_cases hlt : f q < a
    · simp only [List.foldl_cons, if_pos hlt]
      obtain ⟨h1, h2, h3⟩ := ih (f q)
      refine ⟨by omega, ?_, ?_⟩
      · intro p hp
        rcases List.mem_cons.1 hp with hq | hr
        · rw [hq]; exact h1
        · exact h2 p hr
      · right
        rcases h3 with h3 | ⟨p, hp, hpe⟩
        · exact ⟨q, List.mem_cons_self q rest, h3.symm⟩
        · exact ⟨p, List.mem_cons_of_mem q hp, hpe⟩
    · simp only [List.foldl_cons, if_neg hlt]
      obtain ⟨h1, h2, h3⟩ := ih a
      refine ⟨h1, ?_, ?_⟩
      · intro p hp
        rcases List.mem_cons.1 hp with hq | hr
        · rw [hq]; omega
        · exact h2 p hr
      · rcases h3 with h3 | ⟨p, hp, hpe⟩
        · exact Or.inl h3
        · exact Or.inr ⟨p, List.mem_cons_of_mem q hp, hpe⟩

/-- The reduction with the test `v > m`: the result is an upper bound of the
start value and of every element, and it is the start value or the value of
an element. -/
theorem foldl_upper (f : Point → Int) (P : List Point) (a : Int) :
    a ≤ P.foldl (fun m p => if f p > m then f p else m) a ∧
    (∀ p ∈ P, f p ≤ P.foldl (fun m p => if f p > m then f p else m) a) ∧
    (P.foldl (fun m p => if f p > m then f p else m) a = a ∨
     ∃ p ∈ P, f p = P.foldl (fun m p => if f p > m then f p else m) a) := by
  induction P generalizing a with
  | nil => simp
  | cons q rest ih =>
    by_cases hlt : f q > a
    · simp only [List.foldl_cons, if_pos hlt]
      obtain ⟨h1, h2, h3⟩ := ih (f q)
      refine ⟨by omega, ?_, ?_⟩
      · intro p hp
        rcases List.mem_cons.1 hp with hq | hr
        · rw [hq]; exact h1
        · exact h2 p hr
      · right
        rcases h3 with h3 | ⟨p, hp, hpe⟩
        · exact ⟨q, List.mem_cons_self q rest, h3.symm⟩
        · exact ⟨p, List.mem_cons_of_mem q hp, hpe⟩
    · simp only [List.foldl_cons, if_neg hlt]
      obtain ⟨h1, h2, h3⟩ := ih a
      refine ⟨h1, ?_, ?_⟩
      · intro p hp
        rcases List.mem_cons.1 hp with hq | hr
        · rw [hq]; omega
        · exact h2 p hr
      · rcases h3 with h3 | ⟨p, hp, hpe⟩
        · exact Or.inl h3
        · exact Or.inr ⟨p, List.mem_cons_of_mem q hp, hpe⟩

/-- On a non-empty list of values of type int the reduction from INT_MAX
with the test `v < m` is the minimum: a lower bound that is attained. -/
theorem foldl_lower_min (f : Point → Int) (P : List Point) (hne : P ≠ [])
    (hrange : ∀ p ∈ P, f p ≤ INT_MAX) :
    (∀ p ∈ P, P.foldl (fun m p => if f p < m then f p else m) INT_MAX ≤ f p) ∧
    ∃ p ∈ P, f p = P.foldl (fun m p => if f p < m then f p else m) INT_MAX := by
  obtain ⟨_, h2, h3⟩ := foldl_lower f P INT_MAX
  refine ⟨h2, ?_⟩
  rcases h3 with h3 | h3
  · obtain ⟨q, hq⟩ := List.exists_mem_of_ne_nil P hne
    refine ⟨q, hq, ?_⟩
    have hle := h2 q hq
    have hup := hrange q hq
    rw [h3] at hle ⊢
    omega
  · exact h3

/-- On a non-empty list of values of type int the reduction from INT_MIN
with the test `v > m` is the maximum: an upper bound that is attained. -/
theorem foldl_upper_max (f : Point → Int) (P : List Point) (hne : P ≠ [])
    (hrange : ∀ p ∈ P, INT_MIN ≤ f p) :
    (∀ p ∈ P, f p ≤ P.foldl (fun m p => if f p > m then f p else m) INT_MIN) ∧
    ∃ p ∈ P, f p = P.foldl (fun m p => if f p > m then f p else m) INT_MIN := by
  obtain ⟨_, h2, h3⟩ := foldl_upper f P INT_MIN
  refine ⟨h2, ?_⟩
  rcases h3 with h3 | h3
  · obtain ⟨q, hq⟩ := List.exists_mem_of_ne_nil P hne
    refine ⟨q, hq, ?_⟩
    have hle := h2 q hq
    have hup := hrange q hq
    rw [h3] at hle ⊢
    omega
  · exact h3

/-- In full-build mode, on more than two points, dieAreaCallback warns and
sets the die area to the rectangle built from the four values of its loop. -/
theorem dieAreaCallback_bounds (reader : definReader) (points : defiPoints)
    (hfull : reader._update = false) (hn : 2 < points.length) :
    dieAreaCallback { getPoint := points } reader =
      { result := .PARSE_OK
        reader := reader
        notices := [dieAreaPolygonWarning]
        blockCalls := [.setDieArea (Rect.new
          (dieAreaBounds (translate points)).1
          (dieAreaBounds (translate points)).2.1
          (dieAreaBounds (translate points)).2.2.1
          (dieAreaBounds (translate points)).2.2.2)] } := by
  match points, hn with
  | a :: b :: c :: rest, _ =>
    simp [dieAreaCallback, hfull, translate]

/-- Claim C6 (die area with more than two points).  In full-build mode, for
every die-area event with n > 2 points whose coordinates are values of type
int, dieAreaCallback returns PARSE_OK, leaves the reader (so its error
count) unchanged, records the polygon warning, and sets the die area to the
rectangle r = (min x_i, min y_i)-(max x_i, max y_i): every input point lies
in r, and each of the four sides of r is the coordinate of an input point. -/
theorem dieAreaCallback_polygon (reader : definReader) (points : defiPoints)
    (hfull : reader._update = false) (hn : 2 < points.length)
    (hrange : ∀ p ∈ points, IsInt32 p.x ∧ IsInt32 p.y) :
    ∃ r : Rect,
      dieAreaCallback { getPoint := points } reader =
        { result := .PARSE_OK
          reader := reader
          notices := [dieAreaPolygonWarning]
          blockCalls := [.setDieArea r] } ∧
      (∀ p ∈ points, r.xlo ≤ p.x ∧ p.x ≤ r.xhi ∧ r.ylo ≤ p.y ∧ p.y ≤ r.yhi) ∧
      (∃ p ∈ points, p.x = r.xlo) ∧ (∃ p ∈ points, p.y = r.ylo) ∧
      (∃ p ∈ points, p.x = r.xhi) ∧ (∃ p ∈ points, p.y = r.yhi) := by
  refine ⟨_, dieAreaCallback_bounds reader points hfull hn, ?_⟩
  have hne : translate points ≠ [] := by
    intro h
    have hlen : (translate points).length = points.length := by
      simp [translate]
    rw [h] at hlen
    simp at hlen
    omega
  have hmem : ∀ q ∈ translate points, ∃ p ∈ points, q.getX = p.x ∧ q.getY = p.y := by
    intro q hq
    obtain ⟨p, hp, hpq⟩ := List.mem_map.1 hq
    exact ⟨p, hp, by rw [← hpq], by rw [← hpq]⟩
  have hmem2 : ∀ p ∈ points, ∃ q ∈ translate points, q.getX = p.x ∧ q.getY = p.y :=
    fun p hp => ⟨_, List.mem_map.2 ⟨p, hp, rfl⟩, rfl, rfl⟩
  have hxr : ∀ q ∈ translate points, q.getX ≤ INT_MAX ∧ INT_MIN ≤ q.getX := by
    intro q hq
    obtain ⟨p, hp, hx, _⟩ := hmem q hq
    rw [hx]
    exact ⟨(hrange p hp).1.2, (hrange p hp).1.1⟩
  have hyr : ∀ q ∈ translate points, q.getY ≤ INT_MAX ∧ INT_MIN ≤ q.getY := by
    intro q hq
    obtain ⟨p, hp, _, hy⟩ := hmem q hq
    rw [hy]
    exact ⟨(hrange p hp).2.2, (hrange p hp).2.1⟩
  obtain ⟨xl1, q1, hq1, xl2⟩ := foldl_lower_min Point.getX (translate points) hne
    (fun q hq => (hxr q hq).1)
  obtain ⟨yl1, q2, hq2, yl2⟩ := foldl_lower_min Point.getY (translate points) hne
    (fun q hq => (hyr q hq).1)
  obtain ⟨xh1, q3, hq3, xh2⟩ := foldl_upper_max Point.getX (translate points) hne
    (fun q hq => (hxr q hq).2)
  obtain ⟨yh1, q4, hq4, yh2⟩ := foldl_upper_max Point.getY (translate points) hne
    (fun q hq => (hyr q hq).2)
  have hx : List.foldl (fun m p => if p.getX < m then p.getX else m) INT_MAX
      (translate points) ≤
      List.foldl (fun m p => if p.getX > m then p.getX else m) INT_MIN
      (translate points) := le_trans (xl1 q1 hq1) (xh1 q1 hq1)
  have hy : List.foldl (fun m p => if p.getY < m then p.getY else m) INT_MAX
      (translate points) ≤
      List.foldl (fun m p => if p.getY > m then p.getY else m) INT_MIN
      (translate points) := le_trans (yl1 q1 hq1) (yh1 q1 hq1)
  simp only [dieAreaBounds, foldl_dieAreaStep, Rect.new, min_eq_left hx,
    min_eq_left hy, max_eq_right hx, max_eq_right hy]
  refine ⟨?_, ?_, ?_, ?_, ?_⟩
  · intro p hp
    obtain ⟨q, hq, hqx, hqy⟩ := hmem2 p hp
    rw [← hqx, ← hqy]
    exact ⟨xl1 q hq, xh1 q hq, yl1 q hq, yh1 q hq⟩
  · obtain ⟨p, hp, hpx, _⟩ := hmem q1 hq1
    exact ⟨p, hp, by rw [← hpx]; exact xl2⟩
  · obtain ⟨p, hp, _, hpy⟩ := hmem q2 hq2
    exact ⟨p, hp, by rw [← hpy]; exact yl2⟩
  · obtain ⟨p, hp, hpx, _⟩ := hmem q3 hq3
    exact ⟨p, hp, by rw [← hpx]; exact xh2⟩
  · obtain ⟨p, hp, _, hpy⟩ := hmem q4 hq4
    exact ⟨p, hp, by rw [← hpy]; exact yh2⟩

/-- Claim C6, witness: the three points (3,9), (1,10), (-5,2) in full-build
mode. -/
theorem dieAreaCallback_polygon_witness :
    exampleReader._update = false ∧
    ∃ r : Rect,
      dieAreaCallback { getPoint := [⟨3, 9⟩, ⟨1, 10⟩, ⟨-5, 2⟩] } exampleReader =
        { result := .PARSE_OK
          reader := exampleReader
          notices := [dieAreaPolygonWarning]
          blockCalls := [.setDieArea r] } ∧
      (∀ p ∈ ([⟨3, 9⟩, ⟨1, 10⟩, ⟨-5, 2⟩] : defiPoints),
        r.xlo ≤ p.x ∧ p.x ≤ r.xhi ∧ r.ylo ≤ p.y ∧ p.y ≤ r.yhi) ∧
      (∃ p ∈ ([⟨3, 9⟩, ⟨1, 10⟩, ⟨-5, 2⟩] : defiPoints), p.x = r.xlo) ∧
      (∃ p ∈ ([⟨3, 9⟩, ⟨1, 10⟩, ⟨-5, 2⟩] : defiPoints), p.y = r.ylo) ∧
      (∃ p ∈ ([⟨3, 9⟩, ⟨1, 10⟩, ⟨-5, 2⟩] : defiPoints), p.x = r.xhi) ∧
      (∃ p ∈ ([⟨3, 9⟩, ⟨1, 10⟩, ⟨-5, 2⟩] : defiPoints), p.y = r.yhi) :=
  ⟨by rfl,
   dieAreaCallback_polygon exampleReader [⟨3, 9⟩, ⟨1, 10⟩, ⟨-5, 2⟩] (by rfl)
    (by decide) (by decide)⟩

/-- Claim C7 (die area with fewer than two points).  In full-build mode, for
every die-area event with 0 or 1 points, dieAreaCallback returns PARSE_ERROR,
increases the error count of the reader by exactly 1, and makes no call on
the block: the die area is not set. -/
theorem dieAreaCallback_missing_points (reader : definReader)
    (points : defiPoints) (hfull : reader._update = false)
    (hn : points.length < 2) :
    (dieAreaCallback { getPoint := points } reader).result = .PARSE_ERROR ∧
    (dieAreaCallback { getPoint := points } reader).reader._errors
      = reader._errors + 1 ∧
    (dieAreaCallback { getPoint := points } reader).blockCalls = [] ∧
    dieAreaCallback { getPoint := points } reader =
      { result := .PARSE_ERROR
        reader := { reader with _errors := reader._errors + 1 }
        notices := [dieAreaMissingPoints] } := by
  simp [dieAreaCallback, hfull, translate, hn]

/-- Claim C7, witness: a die-area event with the single point (3,9). -/
theorem dieAreaCallback_missing_points_witness :
    exampleReader._update = false ∧
    (dieAreaCallback { getPoint := [⟨3, 9⟩] } exampleReader).result
      = .PARSE_ERROR ∧
    (dieAreaCallback { getPoint := [⟨3, 9⟩] } exampleReader).reader._errors
      = exampleReader._errors + 1 ∧
    (dieAreaCallback { getPoint := [⟨3, 9⟩] } exampleReader).blockCalls = [] :=
  ⟨by rfl,
   (dieAreaCallback_missing_points exampleReader [⟨3, 9⟩] (by rfl)
      (by decide)).1,
   (dieAreaCallback_missing_points exampleReader [⟨3, 9⟩] (by rfl)
      (by decide)).2.1,
   (dieAreaCallback_missing_points exampleReader [⟨3, 9⟩] (by rfl)
      (by decide)).2.2.1⟩

/-! ## Properties of unitsCallback -/

/-- Claim C8 (unit scale rejection).  For every units value d greater than
the database units per micron of the technology, unitsCallback returns
PARSE_ERROR, increases the error count of the reader by exactly 1, and
changes nothing else: the unit scale of the reader, the builders (so the unit
scale and the error count of each) and the mode are as before, and no call
is made on the block, so its DEF units are not set. -/
theorem unitsCallback_rejects (reader : definReader) (d : ℚ)
    (hd : d > (reader._tech.getDbUnitsPerMicron : ℚ)) :
    (unitsCallback d reader).result = .PARSE_ERROR ∧
    (unitsCallback d reader).reader._errors = reader._errors + 1 ∧
    (unitsCallback d reader).reader.unitScale = reader.unitScale ∧
    (unitsCallback d reader).reader._interfaces = reader._interfaces ∧
    (unitsCallback d reader).blockCalls = [] ∧
    (unitsCallback d reader).reader =
      { reader with _errors := reader._errors + 1 } := by
  simp [unitsCallback, hd]

/-- Claim C8, witness: 2001 units against 2000 database units per micron. -/
theorem unitsCallback_rejects_witness :
    (2001 : ℚ) > (exampleReader._tech.getDbUnitsPerMicron : ℚ) ∧
    (unitsCallback 2001 exampleReader).result = .PARSE_ERROR ∧
    (unitsCallback 2001 exampleReader).reader._errors
      = exampleReader._errors + 1 ∧
    (unitsCallback 2001 exampleReader).reader.unitScale
      = exampleReader.unitScale ∧
    (unitsCallback 2001 exampleReader).reader._interfaces
      = exampleReader._interfaces ∧
    (unitsCallback 2001 exampleReader).blockCalls = [] :=
  have hd : (2001 : ℚ) > (exampleReader._tech.getDbUnitsPerMicron : ℚ) := by
    norm_num [exampleReader, techM1]
  ⟨hd, (unitsCallback_rejects exampleReader 2001 hd).1,
   (unitsCallback_rejects exampleReader 2001 hd).2.1,
   (unitsCallback_rejects exampleReader 2001 hd).2.2.1,
   (unitsCallback_rejects exampleReader 2001 hd).2.2.2.1,
   (unitsCallback_rejects exampleReader 2001 hd).2.2.2.2.1⟩

/-- Claim C9 (unit scale broadcast).  For every units value d that is not
greater than the database units per micron of the technology, d equal to it
included, unitsCallback returns PARSE_OK, emits no message, leaves the error
count of the reader and of every builder unchanged, and has called units(d)
on the reader and on every registered builder, so that afterwards the reader
and every registered builder hold the unit scale d; the DEF units of the
block are set to d exactly when the reader is not in update mode. -/
theorem unitsCallback_broadcast (reader : definReader) (d : ℚ)
    (hd : d ≤ (reader._tech.getDbUnitsPerMicron : ℚ)) :
    (unitsCallback d reader).result = .PARSE_OK ∧
    (unitsCallback d reader).notices = [] ∧
    (unitsCallback d reader).reader._errors = reader._errors ∧
    (unitsCallback d reader).reader.todefinBase
      = reader.todefinBase.units d ∧
    (unitsCallback d reader).reader._interfaces
      = reader._interfaces.map (fun itr => itr.units d) ∧
    (unitsCallback d reader).reader.unitScale = d ∧
    (unitsCallback d reader).reader._interfaces.length
      = reader._interfaces.length ∧
    (∀ itr ∈ (unitsCallback d reader).reader._interfaces, itr.unitScale = d) ∧
    (unitsCallback d reader).reader._interfaces.map (fun itr => itr._errors)
      = reader._interfaces.map (fun itr => itr._errors) ∧
    (unitsCallback d reader).blockCalls
      = (if reader._update then [] else [.setDefUnits d]) := by
  have hnot : ¬ d > (reader._tech.getDbUnitsPerMicron : ℚ) := not_lt.2 hd
  have hres : unitsCallback d reader =
      { result := .PARSE_OK
        reader :=
          { todefinBase := reader.todefinBase.units d
            _tech := reader._tech
            _update := reader._update
            _interfaces := reader._interfaces.map fun itr => itr.units d }
        blockCalls := if !reader._update then [.setDefUnits d] else [] } := by
    simp only [unitsCallback, if_neg hnot]
  rw [hres]
  refine ⟨rfl, rfl, rfl, rfl, rfl, rfl, ?_, ?_, ?_, ?_⟩
  · simp
  · intro itr hitr
    obtain ⟨b, _, hb⟩ := List.mem_map.1 hitr
    rw [← hb]
    rfl
  · simp [definBase.units]
  · cases reader._update <;> rfl

/-- Claim C9, witness: 2000 units against 2000 database units per micron. -/
theorem unitsCallback_broadcast_witness :
    (2000 : ℚ) ≤ (exampleReader._tech.getDbUnitsPerMicron : ℚ) ∧
    (unitsCallback 2000 exampleReader).result = .PARSE_OK ∧
    (unitsCallback 2000 exampleReader).reader.unitScale = 2000 ∧
    (∀ itr ∈ (unitsCallback 2000 exampleReader).reader._interfaces,
      itr.unitScale = 2000) ∧
    (unitsCallback 2000 exampleReader).blockCalls
      = (if exampleReader._update then [] else [.setDefUnits 2000]) :=
  have hd : (2000 : ℚ) ≤ (exampleReader._tech.getDbUnitsPerMicron : ℚ) := by
    norm_num [exampleReader, techM1]
  ⟨hd, (unitsCallback_broadcast exampleReader 2000 hd).1,
   (unitsCallback_broadcast exampleReader 2000 hd).2.2.2.2.2.1,
   (unitsCallback_broadcast exampleReader 2000 hd).2.2.2.2.2.2.2.1,
   (unitsCallback_broadcast exampleReader 2000 hd).2.2.2.2.2.2.2.2.2⟩

/-! ## Properties of errors -/

/-- The loop of errors adds the error counters of the builders to its start
value. -/
theorem foldl_errors (bs : List definBase) (e : Int) :
    bs.foldl (fun e itr => e + itr._errors) e
      = e + (bs.map (fun itr => itr._errors)).sum := by
  induction bs generalizing e with
  | nil => simp
  | cons b rest ih =>
    simp only [List.foldl_cons, List.map_cons, List.sum_cons, ih]
    omega

/-- Claim C10 (error aggregation).  For every reader state, errors() equals
the error counter of the reader plus the sum of the error counters of all
registered builders, and the reader after the call is the reader before it:
no counter has changed. -/
theorem errors_aggregate (reader : definReader) :
    reader.errors.1
      = reader._errors + (reader._interfaces.map (fun itr => itr._errors)).sum ∧
    reader.errors.2 = reader := by
  exact ⟨foldl_errors reader._interfaces reader._errors, rfl⟩

/-! ## Properties of componentsCallback -/

/-- Claim C13 (unsupported component features).  For every component event
that has an EEQ master, a non-empty mask shift, a HALO or a route halo,
componentsCallback returns PARSE_ERROR, emits one message, increases the
error count of the reader by exactly 1 (also when several of these features
are present), leaves the builders as they are and makes no call on the
component builder; for every component event with none of them it returns
PARSE_OK with the reader, so its error count, unchanged. -/
theorem componentsCallback_unsupported (comp : defiComponent)
    (reader : definReader) :
    ((comp.hasEEQ = true ∨ comp.maskShiftSize > 0 ∨ comp.hasHalo > 0 ∨
        comp.hasRouteHalo > 0) →
      (componentsCallback comp reader).result = .PARSE_ERROR ∧
      (componentsCallback comp reader).reader._errors = reader._errors + 1 ∧
      (componentsCallback comp reader).reader._interfaces
        = reader._interfaces ∧
      (componentsCallback comp reader).notices.length = 1 ∧
      (componentsCallback comp reader).componentCalls = []) ∧
    (¬ (comp.hasEEQ = true ∨ comp.maskShiftSize > 0 ∨ comp.hasHalo > 0 ∨
        comp.hasRouteHalo > 0) →
      (componentsCallback comp reader).result = .PARSE_OK ∧
      (componentsCallback comp reader).reader = reader ∧
      (componentsCallback comp reader).reader._errors = reader._errors ∧
      (componentsCallback comp reader).notices = []) := by
  constructor
  · intro h
    have hsome : ∃ msg, componentUnsupported comp = some msg := by
      unfold componentUnsupported
      by_cases h1 : comp.hasEEQ = true
      · simp [h1]
      · by_cases h2 : comp.maskShiftSize > 0
        · simp [h1, h2]
        · by_cases h3 : comp.hasHalo > 0
          · simp [h1, h2, h3]
          · by_cases h4 : comp.hasRouteHalo > 0
            · simp [h1, h2, h3, h4]
            · exact absurd h (by tauto)
    obtain ⟨msg, hmsg⟩ := hsome
    simp [componentsCallback, hmsg, definReader.error]
  · intro h
    have h1 : comp.hasEEQ = false := by
      cases hE : comp.hasEEQ
      · rfl
      · exact absurd (Or.inl hE) h
    have h2 : ¬ comp.maskShiftSize > 0 := fun h2 => h (Or.inr (Or.inl h2))
    have h3 : ¬ comp.hasHalo > 0 := fun h3 => h (Or.inr (Or.inr (Or.inl h3)))
    have h4 : ¬ comp.hasRouteHalo > 0 :=
      fun h4 => h (Or.inr (Or.inr (Or.inr h4)))
    have hnone : componentUnsupported comp = none := by
      simp [componentUnsupported, h1, h2, h3, h4]
    simp [componentsCallback, hnone]

/-- Claim C13, witness: a component with a HALO and a route halo at once is
rejected and counted once, with no call on the component builder. -/
theorem componentsCallback_unsupported_witness :
    (componentsCallback exampleHaloComponent exampleReader).result
      = .PARSE_ERROR ∧
    (componentsCallback exampleHaloComponent exampleReader).reader._errors
      = exampleReader._errors + 1 ∧
    (componentsCallback exampleHaloComponent exampleReader).componentCalls
      = [] :=
  have h := (componentsCallback_unsupported exampleHaloComponent
    exampleReader).1 (by decide)
  ⟨h.1, h.2.1, h.2.2.2.2⟩

/-! ## Properties of handle_props -/

/-- The division that discards the fractional part rounds down a value that
is not negative. -/
theorem tdiv_num_den_nonneg (d : ℚ) (h : 0 ≤ d) :
    Int.tdiv d.num d.den = ⌊d⌋ := by
  rw [Rat.floor_def]
  exact Int.tdiv_eq_ediv (Rat.num_nonneg.2 h) (by exact_mod_cast Nat.zero_le _)

/-- The division that discards the fractional part rounds up a value that is
not positive. -/
theorem tdiv_num_den_nonpos (d : ℚ) (h : d ≤ 0) :
    Int.tdiv d.num d.den = ⌈d⌉ := by
  have h2 := tdiv_num_den_nonneg (-d) (by linarith)
  rw [Rat.neg_num, Rat.neg_den, Int.neg_tdiv, Int.floor_neg] at h2
  omega

/-- The conversion of a double to int rounds toward zero a value whose
rounding toward zero is an int. -/
theorem doubleToInt_trunc (d : ℚ)
    (hrange : IsInt32 (if 0 ≤ d then ⌊d⌋ else ⌈d⌉)) :
    doubleToInt d = (if 0 ≤ d then ⌊d⌋ else ⌈d⌉) := by
  have htdiv : Int.tdiv d.num d.den = (if 0 ≤ d then ⌊d⌋ else ⌈d⌉) := by
    by_cases h0 : 0 ≤ d
    · rw [if_pos h0]; exact tdiv_num_den_nonneg d h0
    · rw [if_neg h0]; exact tdiv_num_den_nonpos d (by linarith)
  unfold doubleToInt
  rw [htdiv]
  exact if_pos hrange

/-- Claim C15 (typed property transfer).  For every property list whose
declared kinds are among R, I, S, N, Q, and whose numbers of kind I, rounded
toward zero, are values of type int, handle_props makes exactly one
property(name, value) call per property, in index order: the real overload
with the number for R, the integer overload with the number truncated to int
(rounded toward zero) for I, and the string overload with the text value for
each of S, N and Q. -/
theorem handle_props_typed (props : List defiProp)
    (hkinds : ∀ p ∈ props, p.propType = 'R' ∨ p.propType = 'I' ∨
      p.propType = 'S' ∨ p.propType = 'N' ∨ p.propType = 'Q')
    (hints : ∀ p ∈ props, p.propType = 'I' →
      IsInt32 (if 0 ≤ p.propNumber then ⌊p.propNumber⌋
               else ⌈p.propNumber⌉)) :
    handle_props props =
      props.map (fun p =>
        if p.propType = 'R' then PropertyCall.real p.propName p.propNumber
        else if p.propType = 'I' then
          PropertyCall.int p.propName
            (if 0 ≤ p.propNumber then ⌊p.propNumber⌋ else ⌈p.propNumber⌉)
        else PropertyCall.string p.propName p.propValue) ∧
    (handle_props props).length = props.length := by
  have hmain : handle_props props =
      props.map (fun p =>
        if p.propType = 'R' then PropertyCall.real p.propName p.propNumber
        else if p.propType = 'I' then
          PropertyCall.int p.propName
            (if 0 ≤ p.propNumber then ⌊p.propNumber⌋ else ⌈p.propNumber⌉)
        else PropertyCall.string p.propName p.propValue) := by
    induction props with
    | nil => rfl
    | cons p rest ih =>
      have hrest := ih (fun q hq => hkinds q (List.mem_cons_of_mem p hq))
        (fun q hq => hints q (List.mem_cons_of_mem p hq))
      have hp := hkinds p (List.mem_cons_self p rest)
      have hpi := hints p (List.mem_cons_self p rest)
      unfold handle_props at hrest ⊢
      rw [List.flatMap_cons, hrest, List.map_cons]
      have hone : handle_prop p =
          [if p.propType = 'R' then PropertyCall.real p.propName p.propNumber
           else if p.propType = 'I' then
             PropertyCall.int p.propName
               (if 0 ≤ p.propNumber then ⌊p.propNumber⌋ else ⌈p.propNumber⌉)
           else PropertyCall.string p.propName p.propValue] := by
        unfold handle_prop
        by_cases hR : p.propType = 'R'
        · simp [hR]
        · by_cases hI : p.propType = 'I'
          · rw [doubleToInt_trunc p.propNumber (hpi hI)]
            simp [hI]
          · have hS : p.propType = 'S' ∨ p.propType = 'N' ∨ p.propType = 'Q' := by
              tauto
            simp [hR, hI, hS]
      rw [hone]
      rfl
  exact ⟨hmain, by rw [hmain, List.length_map]⟩

/-- Claim C15, witness: a real, an integer and a string property; the
integer value -2.5 is truncated to -2. -/
theorem handle_props_typed_witness :
    handle_props
        [{ propName := "r", propType := 'R', propNumber := 3 / 2,
           propValue := "1.5" },
         { propName := "i", propType := 'I', propNumber := -5 / 2,
           propValue := "-2.5" },
         { propName := "s", propType := 'S', propNumber := 0,
           propValue := "text" }] =
      [.real "r" (3 / 2), .int "i" (-2), .string "s" "text"] := by
  have hc : ⌈(-(5 / 2) : ℚ)⌉ = -2 := by
    rw [Int.ceil_eq_iff]; norm_num
  have e1 : ('I' : Char) ≠ 'R' := by decide
  have e2 : ('S' : Char) ≠ 'R' := by decide
  have e3 : ('S' : Char) ≠ 'I' := by decide
  have h := (handle_props_typed
    [{ propName := "r", propType := 'R', propNumber := 3 / 2,
       propValue := "1.5" },
     { propName := "i", propType := 'I', propNumber := -5 / 2,
       propValue := "-2.5" },
     { propName := "s", propType := 'S', propNumber := 0,
       propValue := "text" }] (by decide)
    (by
      intro p hp hI
      simp only [List.mem_cons, List.mem_singleton, List.not_mem_nil,
        or_false] at hp
      rcases hp with e | e | e <;> subst e
      · exact absurd hI (by decide)
      · norm_num [hc, IsInt32, INT_MIN, INT_MAX]
      · exact absurd hI (by decide))).1
  rw [h]
  norm_num [hc, e1, e2, e3]

/-! ## Properties of propCallback -/

/-- The function toupper turns a letter a to z into the letter 32 places
ahead of it and keeps every other character. -/
theorem toupper_letter (c : Char) :
    toupper c =
      if 'a' ≤ c ∧ c ≤ 'z' then Char.ofNat (c.toNat - 32) else c := by
  unfold toupper Char.toUpper
  have hiff : (c.toNat ≥ 97 ∧ c.toNat ≤ 122) ↔ ('a' ≤ c ∧ c ≤ 'z') := by
    constructor
    · rintro ⟨h1, h2⟩
      exact ⟨h1, h2⟩
    · rintro ⟨h1, h2⟩
      exact ⟨h1, h2⟩
  by_cases h : 'a' ≤ c ∧ c ≤ 'z'
  · rw [if_pos h]
    simp only [hiff.2 h]
    rfl
  · rw [if_neg h]
    have h2 : ¬ (c.toNat ≥ 97 ∧ c.toNat ≤ 122) := fun h3 => h (hiff.1 h3)
    simp only [h2]
    rfl

/-- The tag that propCallback passes to begin is the owner-type tag with
every character upper-cased. -/
theorem map_toupper_eq (s : String) : s.map toupper = specUpperCased s := by
  have h : s.data.map toupper =
      s.data.map (fun c =>
        if 'a' ≤ c ∧ c ≤ 'z' then Char.ofNat (c.toNat - 32) else c) :=
    List.map_congr_left (fun c _ => toupper_letter c)
  rw [String.map_eq, h]
  rfl

/-- Claim C16 (property-definition transfer).  For every property-definition
event with data type among I, R, S, N, Q, a range only on a numeric type, and,
for the data type I, bounds and a default that are values of type int when
rounded toward zero, propCallback returns PARSE_OK, leaves the reader as it
is, and calls the builder with exactly begin(U, name, kind), then
range(min,max) iff the event has a range (integer overload with the bounds
rounded toward zero for the integer kind, real overload for the real kind),
then value(v) iff the event has a default of the declared kind, then end;
kind is INTEGER for I, REAL for R and STRING for S, N, Q, and U is the
owner-type tag of the event with every letter a to z replaced by the letter
A to Z and every other character kept: it has the same length, and a tag
without a letter a to z is unchanged. -/
theorem propCallback_transfer (prop : defiPropDef) (reader : definReader)
    (htype : prop.dataType = 'I' ∨ prop.dataType = 'R' ∨
      prop.dataType = 'S' ∨ prop.dataType = 'N' ∨ prop.dataType = 'Q')
    (hrange : prop.hasRange = true →
      prop.dataType = 'I' ∨ prop.dataType = 'R')
    (hbounds : prop.dataType = 'I' → prop.hasRange = true →
      IsInt32 (if 0 ≤ prop.left then ⌊prop.left⌋ else ⌈prop.left⌉) ∧
      IsInt32 (if 0 ≤ prop.right then ⌊prop.right⌋ else ⌈prop.right⌉))
    (hdefault : prop.dataType = 'I' → prop.hasNumber = true →
      IsInt32 (if 0 ≤ prop.number then ⌊prop.number⌋ else ⌈prop.number⌉)) :
    ∃ (U : String) (kind : defPropType),
      U.data = prop.propType.data.map
        (fun c =>
          if 'a' ≤ c ∧ c ≤ 'z' then Char.ofNat (c.toNat - 32) else c) ∧
      U.length = prop.propType.length ∧
      ((∀ c ∈ prop.propType.data, ¬ ('a' ≤ c ∧ c ≤ 'z')) →
        U = prop.propType) ∧
      kind = (if prop.dataType = 'I' then defPropType.DEF_INTEGER
              else if prop.dataType = 'R' then defPropType.DEF_REAL
              else defPropType.DEF_STRING) ∧
      propCallback prop reader =
        some { result := .PARSE_OK
               reader := reader
               propDefsCalls :=
                 [.begin U prop.propName kind]
                 ++ (if prop.hasRange then
                       (if prop.dataType = 'I' then
                          [.rangeInt
                             (if 0 ≤ prop.left then ⌊prop.left⌋
                              else ⌈prop.left⌉)
                             (if 0 ≤ prop.right then ⌊prop.right⌋
                              else ⌈prop.right⌉)]
                        else [.rangeReal prop.left prop.right])
                     else [])
                 ++ (if prop.dataType = 'I' then
                       (if prop.hasNumber then
                          [.valueInt
                             (if 0 ≤ prop.number then ⌊prop.number⌋
                              else ⌈prop.number⌉)]
                        else [])
                     else if prop.dataType = 'R' then
                       (if prop.hasNumber then [.valueReal prop.number]
                        else [])
                     else
                       (if prop.hasString then [.valueString prop.string]
                        else []))
                 ++ [.end_] } := by
  refine ⟨specUpperCased prop.propType, _, rfl, ?_, ?_, rfl, ?_⟩
  · show (prop.propType.data.map _).length = prop.propType.data.length
    exact List.length_map _ _
  · intro hall
    have hmap : ∀ l : List Char, (∀ c ∈ l, ¬ ('a' ≤ c ∧ c ≤ 'z')) →
        l.map (fun c =>
          if 'a' ≤ c ∧ c ≤ 'z' then Char.ofNat (c.toNat - 32) else c) = l := by
      intro l
      induction l with
      | nil => intro _; rfl
      | cons c rest ih =>
        intro hl
        rw [List.map_cons, if_neg (hl c (List.mem_cons_self c rest)),
          ih (fun d hd => hl d (List.mem_cons_of_mem c hd))]
    unfold specUpperCased
    rw [hmap _ hall]
  · rw [← map_toupper_eq]
    have eIR : ('I' : Char) ≠ 'R' := by decide
    have eRI : ('R' : Char) ≠ 'I' := by decide
    have eSI : ('S' : Char) ≠ 'I' := by decide
    have eSR : ('S' : Char) ≠ 'R' := by decide
    have eNI : ('N' : Char) ≠ 'I' := by decide
    have eNR : ('N' : Char) ≠ 'R' := by decide
    have eQI : ('Q' : Char) ≠ 'I' := by decide
    have eQR : ('Q' : Char) ≠ 'R' := by decide
    rcases htype with h | h | h | h | h
    · cases hr : prop.hasRange <;> cases hn : prop.hasNumber
      · simp [propCallback, propDataType, propRangeCall, propValueCalls, h,
          hr, hn]
      · rw [← doubleToInt_trunc prop.number (hdefault h hn)]
        simp [propCallback, propDataType, propRangeCall, propValueCalls, h,
          hr, hn]
      · rw [← doubleToInt_trunc prop.left (hbounds h hr).1,
          ← doubleToInt_trunc prop.right (hbounds h hr).2]
        simp [propCallback, propDataType, propRangeCall, propValueCalls, h,
          hr, hn]
      · rw [← doubleToInt_trunc prop.left (hbounds h hr).1,
          ← doubleToInt_trunc prop.right (hbounds h hr).2,
          ← doubleToInt_trunc prop.number (hdefault h hn)]
        simp [propCallback, propDataType, propRangeCall, propValueCalls, h,
          hr, hn]
    · cases hr : prop.hasRange <;> cases hn : prop.hasNumber <;>
        simp [propCallback, propDataType, propRangeCall, propValueCalls, h,
          hr, hn, eRI]
    · have hr : prop.hasRange = false := by
        cases hr : prop.hasRange
        · rfl
        · rcases hrange hr with h2 | h2 <;> rw [h] at h2 <;>
            exact absurd h2 (by decide)
      cases hs : prop.hasString <;>
        simp [propCallback, propDataType, propRangeCall, propValueCalls, h,
          hr, hs, eSI, eSR]
    · have hr : prop.hasRange = false := by
        cases hr : prop.hasRange
        · rfl
        · rcases hrange hr with h2 | h2 <;> rw [h] at h2 <;>
            exact absurd h2 (by decide)
      cases hs : prop.hasString <;>
        simp [propCallback, propDataType, propRangeCall, propValueCalls, h,
          hr, hs, eNI, eNR]
    · have hr : prop.hasRange = false := by
        cases hr : prop.hasRange
        · rfl
        · rcases hrange hr with h2 | h2 <;> rw [h] at h2 <;>
            exact absurd h2 (by decide)
      cases hs : prop.hasString <;>
        simp [propCallback, propDataType, propRangeCall, propValueCalls, h,
          hr, hs, eQI, eQR]

/-- Claim C16, witness: an integer property of components with the range 0
to 10 and the default 3, whose owner-type tag component in lower case reaches
the builder as COMPONENT. -/
theorem propCallback_transfer_witness :
    propCallback examplePropDef exampleReader =
      some { result := .PARSE_OK
             reader := exampleReader
             propDefsCalls :=
               [.begin "COMPONENT" "level" .DEF_INTEGER, .rangeInt 0 10,
                .valueInt 3, .end_] } := by
  have hl : examplePropDef.left = 0 := rfl
  have hr : examplePropDef.right = 10 := rfl
  have hn : examplePropDef.number = 3 := rfl
  obtain ⟨U, kind, hU, _, _, hkind, h⟩ :=
    propCallback_transfer examplePropDef exampleReader (Or.inl rfl)
      (fun _ => Or.inl rfl)
      (fun _ _ => by
        rw [hl, hr]
        norm_num [IsInt32, INT_MIN, INT_MAX])
      (fun _ _ => by
        rw [hn]
        norm_num [IsInt32, INT_MIN, INT_MAX])
  have hU2 : U = "COMPONENT" := by
    apply String.ext
    rw [hU]
    decide
  have hkind2 : kind = .DEF_INTEGER := by
    rw [hkind]
    rfl
  rw [h, hU2, hkind2, hl, hr, hn]
  have hname : examplePropDef.propName = "level" := rfl
  have hrange : examplePropDef.hasRange = true := rfl
  have htype : examplePropDef.dataType = 'I' := rfl
  have hnum : examplePropDef.hasNumber = true := rfl
  rw [hname, hrange, htype, hnum]
  norm_num

/-! ## Properties of renameBlock -/

/-- The character of a decimal digit has the digit as its distance from the
character 0. -/
theorem digitChar_value (m : Nat) (h : m < 10) : (Nat.digitChar m).toNat - 48 = m := by
  interval_cases m <;> rfl

/-- The digits of a number are written in front of the digits that are
there already. -/
theorem toDigitsCore_append (fuel n : Nat) (ds : List Char) :
    Nat.toDigitsCore 10 fuel n ds = Nat.toDigitsCore 10 fuel n [] ++ ds := by
  induction fuel generalizing n ds with
  | zero => simp [Nat.toDigitsCore]
  | succ fuel ih =>
    simp only [Nat.toDigitsCore]
    split
    · simp
    · rw [ih (n / 10) (Nat.digitChar (n % 10) :: ds), ih (n / 10) [Nat.digitChar (n % 10)]]
      simp

/-- Reading the decimal digits of a number gives the number back. -/
theorem toDigitsCore_value (fuel n : Nat) (h : n < fuel) :
    (Nat.toDigitsCore 10 fuel n []).foldl (fun v c => 10 * v + (c.toNat - 48)) 0 = n := by
  induction fuel generalizing n with
  | zero => omega
  | succ fuel ih =>
    simp only [Nat.toDigitsCore]
    split
    · rename_i h0
      simp only [List.foldl_cons, List.foldl_nil]
      rw [digitChar_value _ (Nat.mod_lt _ (by decide))]
      omega
    · rename_i h0
      rw [toDigitsCore_append, List.foldl_append, ih (n / 10) (by omega)]
      simp only [List.foldl_cons, List.foldl_nil]
      rw [digitChar_value _ (Nat.mod_lt _ (by decide))]
      omega

/-- Two natural numbers with the same decimal text are equal. -/
theorem toString_nat_injective (a b : Nat) (h : toString a = toString b) : a = b := by
  have h2 : Nat.toDigits 10 a = Nat.toDigits 10 b := by
    have h3 : (Nat.toDigits 10 a).asString = (Nat.toDigits 10 b).asString := h
    have := congrArg String.data h3
    simpa [List.asString] using this
  have ha := toDigitsCore_value (a + 1) a (by omega)
  have hb := toDigitsCore_value (b + 1) b (by omega)
  unfold Nat.toDigits at h2
  rw [h2] at ha
  omega

/-- The candidate names of renameBlock for two different counters are
different. -/
theorem renameBlock_name_injective (s : String) (a b : Nat)
    (h : s ++ ("_" ++ toString a) = s ++ ("_" ++ toString b)) : a = b := by
  have h2 := congrArg String.data h
  simp only [String.data_append, List.append_cancel_left_eq] at h2
  apply toString_nat_injective
  exact String.ext h2

/-- Among the first candidates, one more than the parent has children, one
is not the name of a child. -/
theorem renameBlock_exists_free (children : List String) (s : String) :
    ∃ k, 1 ≤ k ∧ k ≤ children.length + 1 ∧ s ++ ("_" ++ toString k) ∉ children := by
  by_contra hcon
  push_neg at hcon
  have hsub : (List.range (children.length + 1)).map
      (fun i => s ++ ("_" ++ toString (i + 1))) ⊆ children := by
    intro x hx
    obtain ⟨i, hi, rfl⟩ := List.mem_map.1 hx
    have := List.mem_range.1 hi
    exact hcon (i + 1) (by omega) (by omega)
  have hnodup : ((List.range (children.length + 1)).map
      (fun i => s ++ ("_" ++ toString (i + 1)))).Nodup := by
    apply List.Nodup.map _ (List.nodup_range _)
    intro i j hij
    have := renameBlock_name_injective s (i + 1) (j + 1) hij
    omega
  have hlen := (List.subperm_of_subset hnodup hsub).length_le
  simp at hlen

/-- The loop of renameBlock returns the candidate of the counter k when it
starts at or below k with enough rounds, the candidate of k is free, and the
candidates from the start up to k are all taken. -/
theorem renameBlockLoop_least (children : List String) (s : String)
    (fuel cnt k : Nat) (hle : cnt ≤ k) (hfuel : k < cnt + fuel)
    (hfree : s ++ ("_" ++ toString k) ∉ children)
    (hused : ∀ j, cnt ≤ j → j < k → s ++ ("_" ++ toString j) ∈ children) :
    renameBlockLoop children s fuel cnt = some (s ++ ("_" ++ toString k)) := by
  induction fuel generalizing cnt with
  | zero => omega
  | succ fuel ih =>
    unfold renameBlockLoop
    by_cases hk : cnt = k
    · subst hk
      rw [if_neg hfree]
    · rw [if_pos (hused cnt (le_refl _) (by omega))]
      exact ih (cnt + 1) (by omega) (by omega)
        (fun j hj hjk => hused j (by omega) hjk)

/-- The result of renameBlock is the candidate of the least counter whose
candidate is free, for every sufficient number of rounds. -/
theorem renameBlock_exists_least (children : List String) (s : String) :
    ∃ k : Nat, 1 ≤ k ∧
      renameBlock children s = some (s ++ ("_" ++ toString k)) ∧
      s ++ ("_" ++ toString k) ∉ children ∧
      (∀ j, 1 ≤ j → j < k → s ++ ("_" ++ toString j) ∈ children) ∧
      (∀ fuel, children.length + 1 ≤ fuel →
        renameBlockLoop children s fuel 1 = renameBlock children s) := by
  have hex : ∃ k, 1 ≤ k ∧ s ++ ("_" ++ toString k) ∉ children := by
    obtain ⟨k, h1, _, h3⟩ := renameBlock_exists_free children s
    exact ⟨k, h1, h3⟩
  classical
  let k := Nat.find hex
  have hk : 1 ≤ k ∧ s ++ ("_" ++ toString k) ∉ children := Nat.find_spec hex
  have hmin : ∀ j, 1 ≤ j → j < k → s ++ ("_" ++ toString j) ∈ children := by
    intro j hj hjk
    by_contra hnot
    exact Nat.find_min hex hjk ⟨hj, hnot⟩
  have hbound : k ≤ children.length + 1 := by
    obtain ⟨k2, h1, h2, h3⟩ := renameBlock_exists_free children s
    exact le_trans (Nat.find_min' hex ⟨h1, h3⟩) h2
  have hloop : ∀ fuel, children.length + 1 ≤ fuel →
      renameBlockLoop children s fuel 1 = some (s ++ ("_" ++ toString k)) :=
    fun fuel hf => renameBlockLoop_least children s fuel 1 k hk.1 (by omega)
      hk.2 hmin
  refine ⟨k, hk.1, hloop _ (le_refl _), hk.2, hmin, ?_⟩
  intro fuel hf
  rw [hloop fuel hf]
  exact (hloop _ (le_refl _)).symm

/-- The name under which createBlock(parent, ...) creates the block is not
the name of a child of the parent. -/
theorem createBlockName_fresh (children : List String)
    (_block_name : Option String) (hdr : DefHeader) (name : String)
    (h : createBlockName children _block_name hdr = some name) :
    name ∉ children := by
  unfold createBlockName at h
  split at h
  · exact absurd h (by simp)
  · rename_i block_name _
    by_cases hmem : block_name ∈ children
    · rw [if_pos hmem] at h
      obtain ⟨k, _, hk, hfree, _⟩ := renameBlock_exists_least children block_name
      rw [hk] at h
      injection h with h
      rw [← h]
      exact hfree
    · rw [if_neg hmem] at h
      injection h with h
      rw [← h]
      exact hmem

/-- Claim C17 (block renaming on collision).  For every parent block, given
by the finite list of the names of its children, and every name s,
renameBlock terminates and returns s followed by an underscore and k in
decimal, where k is the least integer >= 1 such that this name is not the
name of a child of the parent: the returned name is not the name of a child,
every smaller counter gives the name of a child, and any larger number of
rounds of the loop gives the same result. -/
theorem renameBlock_least (children : List String) (s : String) :
    ∃ k : Nat, 1 ≤ k ∧
      renameBlock children s = some (s ++ ("_" ++ toString k)) ∧
      s ++ ("_" ++ toString k) ∉ children ∧
      (∀ j, 1 ≤ j → j < k → s ++ ("_" ++ toString j) ∈ children) ∧
      (∀ fuel, children.length + 1 ≤ fuel →
        renameBlockLoop children s fuel 1 = renameBlock children s) :=
  renameBlock_exists_least children s

/-! ## Properties of getDefHeader -/

/-- Claim C19 fails on the code: a readable file without DESIGN statement and
without COMPONENTS section, here the three other header statements or no
line at all, makes getDefHeader return a header, whose design name is the
null pointer, and createChip then creates the block under that absent name
when the reader has no block name of its own. -/
theorem getDefHeader_missing_design :
    exampleNoDesignFile.map (fun line => headerLine line.data) =
      [.version "5.8", .dividerchar '/', .busbitchars '[' ']'] ∧
    getDefHeader (some exampleNoDesignFile) =
      some { _version := some "5.8"
             _hier_delimeter := '/'
             _left_bus_delimeter := '['
             _right_bus_delimeter := ']'
             _design := none } ∧
    getDefHeader (some []) = some DefHeader.init ∧
    (getDefHeader (some exampleNoDesignFile)).map (createChipBlockName none)
      = some none := by
  refine ⟨by decide, by decide, by decide, by decide⟩

/-! ## Properties of createBlock and replaceWires -/

/-- Claim C11 fails on the code: when the file opens, the pass of the parser
returns 0 and the reader has no error of its own, but the net builder has
counted one error, so that errors() is 1, createBlock(file) returns true, and
createChip returns the chip without destroying anything: the test in
createBlock(file) reads the counter of the reader alone. -/
theorem createBlock_ignores_builder_errors :
    (createBlock_file exampleBuilderErrorEnv exampleReader).reader._errors
      = 0 ∧
    (createBlock_file exampleBuilderErrorEnv exampleReader).reader.errors.1
      = 1 ∧
    (createBlock_file exampleBuilderErrorEnv exampleReader).outcome
      = .returned true ∧
    (createChip exampleBuilderErrorEnv none exampleReader).outcome
      = .returned true ∧
    (createChip exampleBuilderErrorEnv none exampleReader).reader.errors.1
      = 1 ∧
    (createChip exampleBuilderErrorEnv none exampleReader).dbCalls
      = [.createChip, .createBlock (some "top") '/',
         .setBusDelimeters '[' ']'] := by
  refine ⟨by rfl, by decide, by rfl, by rfl, by decide, by decide⟩

/-- The pass createBlock(file) ends the process with exit(2) when the parser
reports a read failure or the reader has counted an error of its own. -/
theorem createBlock_file_exits (env : FileEnv) (reader : definReader)
    (lines : List String) (hfile : env.file = some lines)
    (h : (env.defrRead createBlockCallbacks reader).res ≠ 0 ∨
      (env.defrRead createBlockCallbacks reader).reader._errors ≠ 0) :
    (createBlock_file env reader).outcome = .exited 2 := by
  simp only [createBlock_file, hfile]
  rw [if_pos h]

/-- The method replaceWires(block, file) makes no call on the database: it
destroys nothing, however it ends. -/
theorem replaceWires_block_keeps_block (env : FileEnv)
    (reader : definReader) :
    (replaceWires_block env reader).dbCalls = [] := by
  unfold replaceWires_block
  simp only
  split <;> rfl

/-- Claim C12 (wire-replacement result).  For every run of
replaceWires(block, file) in which the file opens and the parser reports no
read failure, the method returns, and its result is true if and only if the
aggregated error count errors() of the reader after the pass is zero;
whatever the result, no call is made on the database, so the block is left in
place. -/
theorem replaceWires_block_result (env : FileEnv) (reader : definReader)
    (lines : List String) (hfile : env.file = some lines)
    (hres : (env.defrRead replaceWiresCallbacks
      { reader.init env with _tech := env.dbTech }).res = 0) :
    (∃ ok : Bool, (replaceWires_block env reader).outcome = .returned ok ∧
      (ok = true ↔
        (env.defrRead replaceWiresCallbacks
          { reader.init env with _tech := env.dbTech }).reader.errors.1 = 0)) ∧
    (replaceWires_block env reader).reader =
      (env.defrRead replaceWiresCallbacks
        { reader.init env with _tech := env.dbTech }).reader ∧
    (replaceWires_block env reader).dbCalls = [] := by
  have hpass : replaceWires_file env
      { reader.init env with _tech := env.dbTech } =
      { outcome := .returned true
        reader := (env.defrRead replaceWiresCallbacks
          { reader.init env with _tech := env.dbTech }).reader } := by
    simp only [replaceWires_file, hfile]
    rw [if_neg (by rw [hres]; exact fun h => h rfl)]
  have hblock : replaceWires_block env reader =
      { outcome := .returned (decide
          ((env.defrRead replaceWiresCallbacks
            { reader.init env with _tech := env.dbTech }).reader.errors.1 = 0))
        reader := (env.defrRead replaceWiresCallbacks
          { reader.init env with _tech := env.dbTech }).reader.errors.2 } := by
    simp only [replaceWires_block, hpass]
  refine ⟨⟨decide
    ((env.defrRead replaceWiresCallbacks
      { reader.init env with _tech := env.dbTech }).reader.errors.1 = 0),
    ?_, ?_⟩, ?_, replaceWires_block_keeps_block env reader⟩
  · rw [hblock]
  · exact decide_eq_true_iff
  · rw [hblock]
    rfl

/-- Claim C12, witness: a pass that returns 0 and leaves one error in the
net builder makes replaceWires(block, file) return false, with the block in
place. -/
theorem replaceWires_block_result_witness :
    (replaceWires_block exampleBuilderErrorEnv exampleReader).outcome
      = .returned false ∧
    (replaceWires_block exampleBuilderErrorEnv exampleReader).dbCalls = [] := by
  have h := replaceWires_block_result exampleBuilderErrorEnv exampleReader
    exampleDefFile rfl rfl
  obtain ⟨⟨ok, hok, hiff⟩, _, hdb⟩ := h
  refine ⟨?_, hdb⟩
  rw [hok]
  cases ok
  · rfl
  · exact absurd (hiff.1 rfl) (by decide)

/-! ## Rejections of netCallback without diagnostic -/

/-- When netCallback returns PARSE_ERROR, it has either emitted one message
and counted one error in the reader, or emitted no message and left the
reader as it is; the second case is the return at a STYLE token, where the
builder call pathStyle is relied on, and the return at a RECT token. -/
theorem netCallback_error_cases (net : defiNet) (reader : definReader)
    (r : CallbackResult) (h : netCallback net reader = some r)
    (herror : r.result = .PARSE_ERROR) :
    (r.notices.length = 1 ∧ r.reader._errors = reader._errors + 1 ∧
      r.reader._interfaces = reader._interfaces) ∨
    (r.notices = [] ∧ r.reader = reader) := by
  unfold netCallback at h
  split at h
  · injection h with h; subst h
    exact Or.inl ⟨rfl, rfl, rfl⟩
  · split at h
    · injection h with h; subst h
      exact Or.inl ⟨rfl, rfl, rfl⟩
    · split at h
      · exact absurd h (by simp)
      · split at h
        · injection h with h; subst h
          exact Or.inl ⟨rfl, rfl, rfl⟩
        · injection h with h; subst h
          exact Or.inr ⟨rfl, rfl⟩
      · injection h with h; subst h
        exact absurd herror (by simp)

/-- Claim C14 fails on the code: for the net n1 whose path is LAYER M1,
POINT (0,0), RECT (0,0,10,10), with M1 of width 140, netCallback returns
PARSE_ERROR at the rect token of the path, after the calls begin, wire, path
(twice) and pathPoint, without any message and with the reader, so every
error counter that errors() adds up, unchanged. -/
theorem netCallback_rect_without_diagnostic :
    netCallback exampleRectErrorNet exampleReader =
      some { result := .PARSE_ERROR
             reader := exampleReader
             notices := []
             netCalls := [.begin "n1", .wire "ROUTED", .path (some "M1"),
                          .path (some "M1"), .pathPoint 0 0] } ∧
    (netCallback exampleRectErrorNet exampleReader).map
        (fun r => (r.result, r.notices, r.reader.errors.1)) =
      some (.PARSE_ERROR, [], exampleReader.errors.1) := by
  have h : netCallback exampleRectErrorNet exampleReader =
      some { result := .PARSE_ERROR
             reader := exampleReader
             notices := []
             netCalls := [.begin "n1", .wire "ROUTED", .path (some "M1"),
                          .path (some "M1"), .pathPoint 0 0] } := by
    rfl
  exact ⟨h, by rw [h]; rfl⟩

/-! ## Properties of the wire-replacement mode -/

/-- The callback netCallback calls no builder but the net builder, and makes
no call on the block. -/
theorem netCallback_only_net (net : defiNet) (reader : definReader)
    (r : CallbackResult) (h : netCallback net reader = some r) :
    r.blockCalls = [] ∧ r.componentCalls = [] ∧ r.propDefsCalls = [] ∧
    r.snetCalls = [] := by
  unfold netCallback at h
  split at h
  · injection h with h; subst h
    exact ⟨rfl, rfl, rfl, rfl⟩
  · split at h
    · injection h with h; subst h
      exact ⟨rfl, rfl, rfl, rfl⟩
    · split at h
      · exact absurd h (by simp)
      · split at h <;> injection h with h <;> subst h <;>
          exact ⟨rfl, rfl, rfl, rfl⟩
      · injection h with h; subst h
        exact ⟨rfl, rfl, rfl, rfl⟩

/-- The callback specialNetCallback calls no builder but the special-net
builder, and makes no call on the block. -/
theorem specialNetCallback_only_snet (net : defiSNet) (reader : definReader)
    (r : CallbackResult) (h : specialNetCallback net reader = some r) :
    r.blockCalls = [] ∧ r.componentCalls = [] ∧ r.propDefsCalls = [] ∧
    r.netCalls = [] := by
  unfold specialNetCallback at h
  split at h
  · injection h with h; subst h
    exact ⟨rfl, rfl, rfl, rfl⟩
  · split at h
    · exact absurd h (by simp)
    · split at h <;> injection h with h <;> subst h <;>
        exact ⟨rfl, rfl, rfl, rfl⟩
    · injection h with h; subst h
      exact ⟨rfl, rfl, rfl, rfl⟩

/-- A step without message and without call, followed by a second step, has
the effects of the second step. -/
theorem andThen_skip (reader : definReader) (second : CallbackResult) :
    CallbackResult.andThen { result := .PARSE_OK, reader := reader } second
      = second := by
  cases second
  simp [CallbackResult.andThen]

/-- In the wire-replacement mode the parser delivers an event that is
neither a net nor a special net to no callback: nothing happens. -/
theorem defrDeliver_replaceWires_other (ev : defrEvent)
    (reader : definReader)
    (hnet : ev.type ≠ .NetCbk) (hsnet : ev.type ≠ .SNetCbk) :
    defrDeliver replaceWiresCallbacks ev reader =
      some { result := .PARSE_OK, reader := reader } := by
  have hnot : ev.type ∉ replaceWiresCallbacks := by
    simp [replaceWiresCallbacks, hnet, hsnet]
  simp only [defrDeliver, if_neg hnot]

/-- In the wire-replacement mode the callback of an event calls no builder
but the net builder and the special-net builder, and makes no call on the
block. -/
theorem defrDeliver_replaceWires_calls (ev : defrEvent)
    (reader : definReader) (r : CallbackResult)
    (h : defrDeliver replaceWiresCallbacks ev reader = some r) :
    r.blockCalls = [] ∧ r.componentCalls = [] ∧ r.propDefsCalls = [] := by
  cases ev with
  | net net =>
    have h2 : netCallback net reader = some r := by
      simpa [defrDeliver, defrEvent.type, replaceWiresCallbacks] using h
    have h3 := netCallback_only_net net reader r h2
    exact ⟨h3.1, h3.2.1, h3.2.2.1⟩
  | snet net =>
    have h2 : specialNetCallback net reader = some r := by
      simpa [defrDeliver, defrEvent.type, replaceWiresCallbacks] using h
    have h3 := specialNetCallback_only_snet net reader r h2
    exact ⟨h3.1, h3.2.1, h3.2.2.1⟩
  | component comp =>
    rw [defrDeliver_replaceWires_other _ _ (by simp [defrEvent.type])
      (by simp [defrEvent.type])] at h
    injection h with h; subst h; exact ⟨rfl, rfl, rfl⟩
  | dieArea box =>
    rw [defrDeliver_replaceWires_other _ _ (by simp [defrEvent.type])
      (by simp [defrEvent.type])] at h
    injection h with h; subst h; exact ⟨rfl, rfl, rfl⟩
  | units d =>
    rw [defrDeliver_replaceWires_other _ _ (by simp [defrEvent.type])
      (by simp [defrEvent.type])] at h
    injection h with h; subst h; exact ⟨rfl, rfl, rfl⟩
  | prop prop =>
    rw [defrDeliver_replaceWires_other _ _ (by simp [defrEvent.type])
      (by simp [defrEvent.type])] at h
    injection h with h; subst h; exact ⟨rfl, rfl, rfl⟩
  | other type =>
    by_cases hreg : type ∈ replaceWiresCallbacks
    · simp [defrDeliver, defrEvent.type, hreg] at h
    · simp only [defrDeliver, defrEvent.type, if_neg hreg] at h
      injection h with h; subst h; exact ⟨rfl, rfl, rfl⟩

/-- Claim C20 (wire-replacement scope).  In wire-replacement mode the
callbacks of the nets and of the special nets are the only ones registered.
For every event sequence and every reader: an event of any other type is
delivered to no callback, so that it causes no message, no call on a builder
or on the block and no change of the reader; the pass over the sequence is
the pass over its net and special-net events alone; and the pass makes no
call on the block, on the component builder or on the builder of the
property definitions: only the net and special-net builders are called. -/
theorem replaceWires_scope (events : List defrEvent) (reader : definReader) :
    (∀ type, type ∈ replaceWiresCallbacks ↔
      type = .NetCbk ∨ type = .SNetCbk) ∧
    (∀ ev ∈ events, ev.type ≠ .NetCbk → ev.type ≠ .SNetCbk →
      ∀ rd : definReader, defrDeliver replaceWiresCallbacks ev rd =
        some { result := .PARSE_OK, reader := rd, notices := [],
               blockCalls := [], netCalls := [], componentCalls := [],
               propDefsCalls := [], snetCalls := [] }) ∧
    defrReadEvents replaceWiresCallbacks events reader =
      defrReadEvents replaceWiresCallbacks
        (events.filter fun ev =>
          decide (ev.type = .NetCbk ∨ ev.type = .SNetCbk)) reader ∧
    (∀ r, defrReadEvents replaceWiresCallbacks events reader = some r →
      r.blockCalls = [] ∧ r.componentCalls = [] ∧ r.propDefsCalls = []) := by
  refine ⟨?_, ?_, ?_, ?_⟩
  · intro type
    simp [replaceWiresCallbacks]
  · intro ev _ hnet hsnet rd
    exact defrDeliver_replaceWires_other ev rd hnet hsnet
  · induction events generalizing reader with
    | nil => rfl
    | cons ev rest ih =>
      by_cases hkeep : ev.type = .NetCbk ∨ ev.type = .SNetCbk
      · rw [List.filter_cons_of_pos (by simpa using hkeep)]
        simp only [defrReadEvents]
        cases hd : defrDeliver replaceWiresCallbacks ev reader with
        | none => rfl
        | some first =>
          simp only
          by_cases hok : first.result = .PARSE_OK
          · rw [if_pos hok, if_pos hok, ih first.reader]
          · rw [if_neg hok, if_neg hok]
      · rw [List.filter_cons_of_neg (by simpa using hkeep)]
        have hnet : ev.type ≠ .NetCbk := fun h => hkeep (Or.inl h)
        have hsnet : ev.type ≠ .SNetCbk := fun h => hkeep (Or.inr h)
        simp only [defrReadEvents,
          defrDeliver_replaceWires_other ev reader hnet hsnet, if_true]
        rw [← ih reader]
        cases hrun : defrReadEvents replaceWiresCallbacks rest reader with
        | none => rfl
        | some second =>
          simp only [Option.map_some']
          rw [andThen_skip]
  · induction events generalizing reader with
    | nil =>
      intro r h
      simp only [defrReadEvents] at h
      injection h with h; subst h
      exact ⟨rfl, rfl, rfl⟩
    | cons ev rest ih =>
      intro r h
      simp only [defrReadEvents] at h
      cases hd : defrDeliver replaceWiresCallbacks ev reader with
      | none => rw [hd] at h; exact absurd h (by simp)
      | some first =>
        rw [hd] at h
        simp only at h
        have hfirst := defrDeliver_replaceWires_calls ev reader first hd
        by_cases hok : first.result = .PARSE_OK
        · rw [if_pos hok] at h
          cases hrun : defrReadEvents replaceWiresCallbacks rest
              first.reader with
          | none => rw [hrun] at h; exact absurd h (by simp)
          | some second =>
            rw [hrun] at h
            simp only [Option.map_some'] at h
            injection h with h; subst h
            have hsecond := ih first.reader second hrun
            simp [CallbackResult.andThen, hfirst.1, hfirst.2.1, hfirst.2.2,
              hsecond.1, hsecond.2.1, hsecond.2.2]
        · rw [if_neg hok] at h
          injection h with h; subst h
          exact hfirst

/-- Claim C20, witness: of the events units, die area, component, net n1,
row and special net VDD, the pass in wire-replacement mode delivers the net
and the special net alone, and it ends with PARSE_OK, the reader unchanged
and no call on the block or on the component builder. -/
theorem replaceWires_scope_witness :
    defrReadEvents replaceWiresCallbacks exampleEvents exampleReader =
      defrReadEvents replaceWiresCallbacks
        [.net exampleRectNet, .snet exampleSNet] exampleReader ∧
    ∃ r, defrReadEvents replaceWiresCallbacks exampleEvents exampleReader
        = some r ∧
      r.result = .PARSE_OK ∧ r.reader.unitScale = exampleReader.unitScale ∧
      r.blockCalls = [] ∧ r.componentCalls = [] ∧ r.propDefsCalls = [] := by
  have h := replaceWires_scope exampleEvents exampleReader
  refine ⟨h.2.2.1, ?_⟩
  have hrun : ∃ r, defrReadEvents replaceWiresCallbacks exampleEvents
      exampleReader = some r ∧ r.result = .PARSE_OK ∧
      r.reader.unitScale = exampleReader.unitScale := by
    rw [h.2.2.1]
    exact ⟨_, rfl, rfl, rfl⟩
  obtain ⟨r, hr, hok, hscale⟩ := hrun
  exact ⟨r, hr, hok, hscale, h.2.2.2 r hr⟩

/-! ## The shape of the paths that handleRectPath accepts -/

/-- What the loop of handleRectPath has seen when it runs to the end of the
path: tokens of the three kinds layer, point and rect only, at most one
point and one rect, none of them when the point or the rect was assigned
before, and each of its locals is as before, without a token of its kind, or
holds the value of a token of the path. -/
theorem handleRectPathLoop_tokens (path : defiPath) (s s2 : RectPathLocals)
    (h : handleRectPathLoop path s = some s2) :
    (∀ t ∈ path, t.isLayer = true ∨ t.isPoint = true ∨ t.isRect = true) ∧
    (path.countP defiPathTok.isPoint ≤ 1) ∧
    (path.countP defiPathTok.isRect ≤ 1) ∧
    (s.point.isSome = true → path.countP defiPathTok.isPoint = 0) ∧
    (s.rect.isSome = true → path.countP defiPathTok.isRect = 0) ∧
    ((s2.layerName = s.layerName ∧ path.countP defiPathTok.isLayer = 0) ∨
      (∃ layer, s2.layerName = some layer ∧ .LAYER layer ∈ path)) ∧
    ((s2.point = s.point ∧ path.countP defiPathTok.isPoint = 0) ∨
      (∃ x y, s2.point = some (x, y) ∧ .POINT x y ∈ path)) ∧
    ((s2.rect = s.rect ∧ path.countP defiPathTok.isRect = 0) ∨
      (∃ dx1 dy1 dx2 dy2, s2.rect = some (dx1, dy1, dx2, dy2) ∧
        .RECT dx1 dy1 dx2 dy2 ∈ path)) := by
  induction path generalizing s with
  | nil =>
    simp only [handleRectPathLoop] at h
    injection h with h; subst h
    simp
  | cons t rest ih =>
    cases t with
    | LAYER layer =>
      simp only [handleRectPathLoop] at h
      obtain ⟨h1, h2, h3, h4, h5, h6, h7, h8⟩ := ih _ h
      refine ⟨?_, ?_, ?_, ?_, ?_, ?_, ?_, ?_⟩
      · intro t ht
        rcases List.mem_cons.1 ht with e | e
        · subst e; exact Or.inl rfl
        · exact h1 t e
      · simpa [defiPathTok.isPoint] using h2
      · simpa [defiPathTok.isRect] using h3
      · simpa [defiPathTok.isPoint] using h4
      · simpa [defiPathTok.isRect] using h5
      · right
        rcases h6 with ⟨e, _⟩ | ⟨l, e, hm⟩
        · exact ⟨layer, by rw [e], List.mem_cons_self _ _⟩
        · exact ⟨l, e, List.mem_cons_of_mem _ hm⟩
      · rcases h7 with ⟨e, c⟩ | ⟨x, y, e, hm⟩
        · left; exact ⟨e, by simpa [defiPathTok.isPoint] using c⟩
        · right; exact ⟨x, y, e, List.mem_cons_of_mem _ hm⟩
      · rcases h8 with ⟨e, c⟩ | ⟨a, b, c, d, e, hm⟩
        · left; exact ⟨e, by simpa [defiPathTok.isRect] using c⟩
        · right; exact ⟨a, b, c, d, e, List.mem_cons_of_mem _ hm⟩
    | POINT x y =>
      simp only [handleRectPathLoop] at h
      by_cases hp : s.point.isSome = true
      · rw [if_pos hp] at h; exact absurd h (by simp)
      · rw [if_neg hp] at h
        obtain ⟨h1, h2, h3, h4, h5, h6, h7, h8⟩ := ih _ h
        have hzero := h4 rfl
        refine ⟨?_, ?_, ?_, ?_, ?_, ?_, ?_, ?_⟩
        · intro t ht
          rcases List.mem_cons.1 ht with e | e
          · subst e; exact Or.inr (Or.inl rfl)
          · exact h1 t e
        · simp [defiPathTok.isPoint, hzero]
        · simpa [defiPathTok.isRect] using h3
        · intro hc; exact absurd hc hp
        · simpa [defiPathTok.isRect] using h5
        · rcases h6 with ⟨e, c⟩ | ⟨l, e, hm⟩
          · left; exact ⟨e, by simpa [defiPathTok.isLayer] using c⟩
          · right; exact ⟨l, e, List.mem_cons_of_mem _ hm⟩
        · right
          rcases h7 with ⟨e, _⟩ | ⟨x2, y2, e, hm⟩
          · exact ⟨x, y, e, List.mem_cons_self _ _⟩
          · exact ⟨x2, y2, e, List.mem_cons_of_mem _ hm⟩
        · rcases h8 with ⟨e, c⟩ | ⟨a, b, c, d, e, hm⟩
          · left; exact ⟨e, by simpa [defiPathTok.isRect] using c⟩
          · right; exact ⟨a, b, c, d, e, List.mem_cons_of_mem _ hm⟩
    | RECT dx1 dy1 dx2 dy2 =>
      simp only [handleRectPathLoop] at h
      by_cases hp : s.rect.isSome = true
      · rw [if_pos hp] at h; exact absurd h (by simp)
      · rw [if_neg hp] at h
        obtain ⟨h1, h2, h3, h4, h5, h6, h7, h8⟩ := ih _ h
        have hzero := h5 rfl
        refine ⟨?_, ?_, ?_, ?_, ?_, ?_, ?_, ?_⟩
        · intro t ht
          rcases List.mem_cons.1 ht with e | e
          · subst e; exact Or.inr (Or.inr rfl)
          · exact h1 t e
        · simpa [defiPathTok.isPoint] using h2
        · simp [defiPathTok.isRect, hzero]
        · simpa [defiPathTok.isPoint] using h4
        · intro hc; exact absurd hc hp
        · rcases h6 with ⟨e, c⟩ | ⟨l, e, hm⟩
          · left; exact ⟨e, by simpa [defiPathTok.isLayer] using c⟩
          · right; exact ⟨l, e, List.mem_cons_of_mem _ hm⟩
        · rcases h7 with ⟨e, c⟩ | ⟨x2, y2, e, hm⟩
          · left; exact ⟨e, by simpa [defiPathTok.isPoint] using c⟩
          · right; exact ⟨x2, y2, e, List.mem_cons_of_mem _ hm⟩
        · right
          rcases h8 with ⟨e, _⟩ | ⟨a, b, c, d, e, hm⟩
          · exact ⟨dx1, dy1, dx2, dy2, e, List.mem_cons_self _ _⟩
          · exact ⟨a, b, c, d, e, List.mem_cons_of_mem _ hm⟩
    | _ => simp [handleRectPathLoop] at h

/-- When handleRectPath returns true, its loop has run to the end of the
path with a layer, a point and a rect, the layer has a width W, and the calls
are those of the vertical or of the horizontal case. -/
theorem handleRectPath_true_inv (tech : dbTech) (path : defiPath)
    (calls : List NetCall)
    (h : handleRectPath tech path = some (true, calls)) :
    ∃ (s : RectPathLocals) (layer : String) (W x y dx1 dy1 dx2 dy2 : Int),
      handleRectPathLoop path RectPathLocals.init = some s ∧
      s.layerName = some layer ∧ s.point = some (x, y) ∧
      s.rect = some (dx1, dy1, dx2, dy2) ∧
      tech.findLayer layer = some { getWidth := W } ∧
      ((dx2 - dx1 = W ∧ -dx1 = dx2 ∧
          calls = [.path (some layer),
                   .pathPoint x (y + dy1 + Int.tdiv W 2),
                   .pathPoint x (y + dy2 - Int.tdiv W 2), .pathEnd]) ∨
       (dx2 - dx1 ≠ W ∧ dy2 - dy1 = W ∧ -dy1 = dy2 ∧
          calls = [.path (some layer),
                   .pathPoint (x + dx1 + Int.tdiv W 2) y,
                   .pathPoint (x + dx2 - Int.tdiv W 2) y, .pathEnd])) := by
  unfold handleRectPath at h
  cases hloop : handleRectPathLoop path RectPathLocals.init with
  | none => rw [hloop] at h; simp at h
  | some s =>
    rw [hloop] at h
    simp only at h
    unfold handleRectPathEmit at h
    cases hl : s.layerName with
    | none => rw [hl] at h; simp at h
    | some layer =>
      rw [hl] at h
      simp only [Option.some_bind] at h
      cases hf : tech.findLayer layer with
      | none => rw [hf] at h; simp at h
      | some lay =>
        rw [hf] at h
        simp only at h
        cases hr : s.rect with
        | none => rw [hr] at h; simp at h
        | some r =>
          obtain ⟨dx1, dy1, dx2, dy2⟩ := r
          rw [hr] at h
          simp only at h
          obtain ⟨spanX, hs, h⟩ := Option.bind_eq_some.1 h
          obtain ⟨_, es⟩ := intResult_eq_some hs
          subst es
          by_cases hx : dx2 - dx1 = lay.getWidth
          · rw [if_pos hx] at h
            obtain ⟨negX1, hn, h⟩ := Option.bind_eq_some.1 h
            obtain ⟨_, en⟩ := intResult_eq_some hn
            subst en
            by_cases hc : -dx1 ≠ dx2
            · rw [if_pos hc] at h; simp at h
            · rw [if_neg hc] at h
              cases hp : s.point with
              | none => rw [hp] at h; simp at h
              | some pt =>
                obtain ⟨x, y⟩ := pt
                rw [hp] at h
                simp only at h
                obtain ⟨sum1, h1, h⟩ := Option.bind_eq_some.1 h
                obtain ⟨_, e1⟩ := intResult_eq_some h1
                subst e1
                obtain ⟨y1, h2, h⟩ := Option.bind_eq_some.1 h
                obtain ⟨_, e2⟩ := intResult_eq_some h2
                subst e2
                obtain ⟨sum2, h3, h⟩ := Option.bind_eq_some.1 h
                obtain ⟨_, e3⟩ := intResult_eq_some h3
                subst e3
                obtain ⟨y2, h4, h⟩ := Option.bind_eq_some.1 h
                obtain ⟨_, e4⟩ := intResult_eq_some h4
                subst e4
                simp only [Option.some.injEq, Prod.mk.injEq, true_and] at h
                exact ⟨s, layer, lay.getWidth, x, y, dx1, dy1, dx2, dy2, rfl,
                  hl, hp, hr, hf, Or.inl ⟨hx, not_not.1 hc, h.symm⟩⟩
          · rw [if_neg hx] at h
            obtain ⟨spanY, hsy, h⟩ := Option.bind_eq_some.1 h
            obtain ⟨_, esy⟩ := intResult_eq_some hsy
            subst esy
            by_cases hy : dy2 - dy1 = lay.getWidth
            · rw [if_pos hy] at h
              obtain ⟨negY1, hn, h⟩ := Option.bind_eq_some.1 h
              obtain ⟨_, en⟩ := intResult_eq_some hn
              subst en
              by_cases hc : -dy1 ≠ dy2
              · rw [if_pos hc] at h; simp at h
              · rw [if_neg hc] at h
                cases hp : s.point with
                | none => rw [hp] at h; simp at h
                | some pt =>
                  obtain ⟨x, y⟩ := pt
                  rw [hp] at h
                  simp only at h
                  obtain ⟨sum1, h1, h⟩ := Option.bind_eq_some.1 h
                  obtain ⟨_, e1⟩ := intResult_eq_some h1
                  subst e1
                  obtain ⟨x1, h2, h⟩ := Option.bind_eq_some.1 h
                  obtain ⟨_, e2⟩ := intResult_eq_some h2
                  subst e2
                  obtain ⟨sum2, h3, h⟩ := Option.bind_eq_some.1 h
                  obtain ⟨_, e3⟩ := intResult_eq_some h3
                  subst e3
                  obtain ⟨x2, h4, h⟩ := Option.bind_eq_some.1 h
                  obtain ⟨_, e4⟩ := intResult_eq_some h4
                  subst e4
                  simp only [Option.some.injEq, Prod.mk.injEq, true_and] at h
                  exact ⟨s, layer, lay.getWidth, x, y, dx1, dy1, dx2, dy2,
                    rfl, hl, hp, hr, hf,
                    Or.inr ⟨hx, hy, not_not.1 hc, h.symm⟩⟩
            · rw [if_neg hy] at h; simp at h

/-- When handleRectPath returns false, it has left from its loop without a
call, or its loop has run to the end of the path with a layer and a rect, and
its only call is path(layer). -/
theorem handleRectPath_false_inv (tech : dbTech) (path : defiPath)
    (calls : List NetCall)
    (h : handleRectPath tech path = some (false, calls)) :
    (handleRectPathLoop path RectPathLocals.init = none ∧ calls = []) ∨
    (∃ (s : RectPathLocals) (layer : String),
      handleRectPathLoop path RectPathLocals.init = some s ∧
      s.layerName = some layer ∧ s.rect.isSome = true ∧
      calls = [.path (some layer)]) := by
  unfold handleRectPath at h
  cases hloop : handleRectPathLoop path RectPathLocals.init with
  | none =>
    rw [hloop] at h
    simp only [Option.some.injEq, Prod.mk.injEq, true_and] at h
    exact Or.inl ⟨rfl, h.symm⟩
  | some s =>
    rw [hloop] at h
    simp only at h
    unfold handleRectPathEmit at h
    cases hl : s.layerName with
    | none => rw [hl] at h; simp at h
    | some layer =>
      rw [hl] at h
      simp only [Option.some_bind] at h
      cases hf : tech.findLayer layer with
      | none => rw [hf] at h; simp at h
      | some lay =>
        rw [hf] at h
        simp only at h
        cases hr : s.rect with
        | none => rw [hr] at h; simp at h
        | some r =>
          obtain ⟨dx1, dy1, dx2, dy2⟩ := r
          rw [hr] at h
          simp only at h
          refine Or.inr ⟨s, layer, rfl, hl, by rw [hr]; rfl, ?_⟩
          obtain ⟨spanX, hs, h⟩ := Option.bind_eq_some.1 h
          by_cases hx : spanX = lay.getWidth
          · rw [if_pos hx] at h
            obtain ⟨negX1, hn, h⟩ := Option.bind_eq_some.1 h
            by_cases hc : negX1 ≠ dx2
            · rw [if_pos hc] at h
              simp only [Option.some.injEq, Prod.mk.injEq, true_and] at h
              exact h.symm
            · rw [if_neg hc] at h
              cases hp : s.point with
              | none => rw [hp] at h; simp at h
              | some pt =>
                obtain ⟨x, y⟩ := pt
                rw [hp] at h
                simp only at h
                obtain ⟨_, _, h⟩ := Option.bind_eq_some.1 h
                obtain ⟨_, _, h⟩ := Option.bind_eq_some.1 h
                obtain ⟨_, _, h⟩ := Option.bind_eq_some.1 h
                obtain ⟨_, _, h⟩ := Option.bind_eq_some.1 h
                simp at h
          · rw [if_neg hx] at h
            obtain ⟨spanY, hsy, h⟩ := Option.bind_eq_some.1 h
            by_cases hy : spanY = lay.getWidth
            · rw [if_pos hy] at h
              obtain ⟨negY1, hn, h⟩ := Option.bind_eq_some.1 h
              by_cases hc : negY1 ≠ dy2
              · rw [if_pos hc] at h
                simp only [Option.some.injEq, Prod.mk.injEq, true_and] at h
                exact h.symm
              · rw [if_neg hc] at h
                cases hp : s.point with
                | none => rw [hp] at h; simp at h
                | some pt =>
                  obtain ⟨x, y⟩ := pt
                  rw [hp] at h
                  simp only at h
                  obtain ⟨_, _, h⟩ := Option.bind_eq_some.1 h
                  obtain ⟨_, _, h⟩ := Option.bind_eq_some.1 h
                  obtain ⟨_, _, h⟩ := Option.bind_eq_some.1 h
                  obtain ⟨_, _, h⟩ := Option.bind_eq_some.1 h
                  simp at h
            · rw [if_neg hy] at h
              simp only [Option.some.injEq, Prod.mk.injEq, true_and] at h
              exact h.symm

/-- On a path of layer, point and rect tokens with a rect token, the
interpretation of the tokens in netCallback returns PARSE_ERROR at the rect
token. -/
theorem netPathLoop_rect (path : defiPath)
    (hkinds : ∀ t ∈ path,
      t.isLayer = true ∨ t.isPoint = true ∨ t.isRect = true)
    (hrect : ∃ t ∈ path, t.isRect = true) :
    (netPathLoop path).1 = some .rect := by
  induction path with
  | nil => obtain ⟨t, ht, _⟩ := hrect; cases ht
  | cons t rest ih =>
    have hrest : ∀ t2 ∈ rest,
        t2.isLayer = true ∨ t2.isPoint = true ∨ t2.isRect = true :=
      fun t2 h2 => hkinds t2 (List.mem_cons_of_mem t h2)
    have hhead := hkinds t (List.mem_cons_self t rest)
    cases t with
    | LAYER layer =>
      have hr2 : ∃ t ∈ rest, t.isRect = true := by
        obtain ⟨t2, ht2, hk⟩ := hrect
        rcases List.mem_cons.1 ht2 with e | e
        · subst e; simp [defiPathTok.isRect] at hk
        · exact ⟨t2, e, hk⟩
      have := ih hrest hr2
      cases rest with
      | nil => obtain ⟨t2, ht2, _⟩ := hr2; cases ht2
      | cons t2 r2 =>
        have hk2 := hrest t2 (List.mem_cons_self t2 r2)
        cases t2 <;>
          simp [defiPathTok.isLayer, defiPathTok.isPoint,
            defiPathTok.isRect] at hk2 <;>
          first
            | (simp [netPathLoop]; done)
            | simpa [netPathLoop] using this
    | POINT x y =>
      have hr2 : ∃ t ∈ rest, t.isRect = true := by
        obtain ⟨t2, ht2, hk⟩ := hrect
        rcases List.mem_cons.1 ht2 with e | e
        · subst e; simp [defiPathTok.isRect] at hk
        · exact ⟨t2, e, hk⟩
      simpa [netPathLoop] using ih hrest hr2
    | RECT a b c d => simp [netPathLoop]
    | _ =>
      simp [defiPathTok.isLayer, defiPathTok.isPoint,
        defiPathTok.isRect] at hhead

/-- Claim C22 fails on the code: the case for a layer token in the loop of
handleRectPath has no guard against a second layer token, unlike the cases
for a point and for a rect token.  The path LAYER M2, LAYER M1,
POINT (500,500), RECT (-70,-100,70,100) has two layer tokens, the loop runs
to its end with the layer of the second one, and handleRectPath returns true
on it, with the calls for the layer M1; M2 is not even a layer of the
technology. -/
theorem handleRectPath_accepts_two_layers :
    exampleTwoLayerPath.countP defiPathTok.isLayer = 2 ∧
    techM1.findLayer "M2" = none ∧
    handleRectPathLoop exampleTwoLayerPath RectPathLocals.init =
      some { layerName := some "M1", point := some (500, 500),
             rect := some (-70, -100, 70, 100) } ∧
    handleRectPath techM1 exampleTwoLayerPath =
      some (true, [.path (some "M1"), .pathPoint 500 470,
                   .pathPoint 500 530, .pathEnd]) := by
  refine ⟨?_, ?_, ?_, ?_⟩ <;> rfl

/-- What the loop of handleRectPath checks of the tokens of a path.  When
handleRectPath returns true, the path has tokens of the three kinds layer,
point and rect only, a layer token, at most one point token and at most one
rect token; a path with a second point token, a second rect token or a token
of any other kind is rejected with no call on the net builder. -/
theorem handleRectPath_checked_shape (tech : dbTech) (path : defiPath) :
    (∀ calls, handleRectPath tech path = some (true, calls) →
      (∀ t ∈ path,
        t.isLayer = true ∨ t.isPoint = true ∨ t.isRect = true) ∧
      1 ≤ path.countP defiPathTok.isLayer ∧
      path.countP defiPathTok.isPoint ≤ 1 ∧
      path.countP defiPathTok.isRect ≤ 1) ∧
    ((2 ≤ path.countP defiPathTok.isPoint ∨
        2 ≤ path.countP defiPathTok.isRect ∨
        ∃ t ∈ path,
          t.isLayer = false ∧ t.isPoint = false ∧ t.isRect = false) →
      handleRectPath tech path = some (false, [])) := by
  constructor
  · intro calls h
    obtain ⟨s, layer, W, x, y, dx1, dy1, dx2, dy2, hloop, hl, _, _, _, _⟩ :=
      handleRectPath_true_inv tech path calls h
    obtain ⟨h1, h2, h3, _, _, h6, _, _⟩ :=
      handleRectPathLoop_tokens path RectPathLocals.init s hloop
    refine ⟨h1, ?_, h2, h3⟩
    rcases h6 with ⟨e, _⟩ | ⟨l, _, hm⟩
    · rw [hl] at e; exact absurd e (by simp [RectPathLocals.init])
    · exact List.countP_pos_iff.2 ⟨_, hm, rfl⟩
  · intro h
    cases hloop : handleRectPathLoop path RectPathLocals.init with
    | none => simp [handleRectPath, hloop]
    | some s =>
      obtain ⟨h1, h2, h3, _⟩ :=
        handleRectPathLoop_tokens path RectPathLocals.init s hloop
      rcases h with h | h | ⟨t, ht, hl, hp, hr⟩
      · omega
      · omega
      · rcases h1 t ht with e | e | e
        · rw [hl] at e; cases e
        · rw [hp] at e; cases e
        · rw [hr] at e; cases e

/-- Claim C23 fails on the code: on the path LAYER M1, POINT (0,0),
RECT (0,0,10,10), with M1 of width 140, handleRectPath returns false after it
has called path(M1) on the net builder, and the interpretation of the path
that follows in netCallback calls path(M1) a second time. -/
theorem handleRectPath_false_call_counterexample :
    handleRectPath techM1 exampleOffWidthPath =
      some (false, [.path (some "M1")]) ∧
    netPathsLoop techM1 [exampleOffWidthPath] =
      some (some .rect,
        [.path (some "M1"), .path (some "M1"), .pathPoint 0 0]) ∧
    (netCallback exampleRectErrorNet exampleReader).map
        (fun r => r.netCalls.count (.path (some "M1"))) = some 2 := by
  refine ⟨?_, ?_, ?_⟩
  · rfl
  · rfl
  · rfl

/-- Claim C23, amended (a rejection behind the loop has made the one call
path).  For every path, whenever handleRectPath returns false it has made no
call of pathPoint or pathEnd and at most one call on the net builder: none
when it has left from its loop, at a second point token, a second rect token
or a token of another kind, and the one call path(layer), for a layer token
of the path, when its loop has run to the end of the path.  The calls of the
full interpretation of the path in netCallback follow these calls, so that
the interpretation starts from the same builder state in the first case
only. -/
theorem handleRectPath_false_calls (tech : dbTech) (path : defiPath)
    (calls : List NetCall)
    (h : handleRectPath tech path = some (false, calls)) :
    ((handleRectPathLoop path RectPathLocals.init = none ∧ calls = []) ∨
      (∃ s layer, handleRectPathLoop path RectPathLocals.init = some s ∧
        .LAYER layer ∈ path ∧ calls = [.path (some layer)])) ∧
    (∀ c ∈ calls, (∀ x y, c ≠ .pathPoint x y) ∧ c ≠ .pathEnd) ∧
    (∀ rest, netPathsLoop tech (path :: rest) =
      match netPathLoop path with
      | (some abort, calls2) => some (some abort, calls ++ calls2)
      | (none, calls2) =>
        (netPathsLoop tech rest).map fun r =>
          (r.1, calls ++ calls2 ++ NetCall.pathEnd :: r.2)) := by
  have hcases : (handleRectPathLoop path RectPathLocals.init = none ∧
        calls = []) ∨
      (∃ s layer, handleRectPathLoop path RectPathLocals.init = some s ∧
        .LAYER layer ∈ path ∧ calls = [.path (some layer)]) := by
    rcases handleRectPath_false_inv tech path calls h with h1 | h2
    · exact Or.inl h1
    · obtain ⟨s, layer, hloop, hl, _, hcalls⟩ := h2
      obtain ⟨_, _, _, _, _, h6, _, _⟩ :=
        handleRectPathLoop_tokens path RectPathLocals.init s hloop
      refine Or.inr ⟨s, layer, hloop, ?_, hcalls⟩
      rcases h6 with ⟨e, _⟩ | ⟨l, e, hm⟩
      · rw [hl] at e; exact absurd e (by simp [RectPathLocals.init])
      · rw [hl] at e; injection e with e; rw [e]; exact hm
  refine ⟨hcases, ?_, ?_⟩
  · intro c hc
    rcases hcases with ⟨_, e⟩ | ⟨_, layer, _, _, e⟩
    · rw [e] at hc; cases hc
    · rw [e] at hc
      rw [List.mem_singleton.1 hc]
      simp
  · intro rest
    simp only [netPathsLoop, h]

/-- Claim C23, amended, witness: the path LAYER M1, POINT (0,0),
RECT (0,0,10,10), on which handleRectPath returns false after the call
path(M1). -/
theorem handleRectPath_false_calls_witness :
    handleRectPath techM1 exampleOffWidthPath =
      some (false, [.path (some "M1")]) ∧
    ((handleRectPathLoop exampleOffWidthPath RectPathLocals.init = none ∧
        [NetCall.path (some "M1")] = []) ∨
      (∃ s layer,
        handleRectPathLoop exampleOffWidthPath RectPathLocals.init = some s ∧
        .LAYER layer ∈ exampleOffWidthPath ∧
        [NetCall.path (some "M1")] = [.path (some layer)])) :=
  ⟨by rfl,
   (handleRectPath_false_calls techM1 exampleOffWidthPath _ (by rfl)).1⟩

/-- Claim C28 fails on the code: handleRectPath has no check that a point, a
rect and a layer token were seen before it uses their values.  On the path
LAYER M1, POINT (500,500) it reads the four deltas while they are unassigned,
on the path LAYER M1, RECT (-70,-100,70,100) it reads x and y while they are
unassigned, and on the path POINT (500,500), RECT (-70,-100,70,100) it passes
the null pointer as the layer name and takes the width of no layer; the model
has no result for any of them, and none for netCallback on a net with the
first path. -/
theorem handleRectPath_reads_unassigned :
    handleRectPathLoop examplePointOnlyPath RectPathLocals.init =
      some { layerName := some "M1", point := some (500, 500), rect := none } ∧
    handleRectPath techM1 examplePointOnlyPath = none ∧
    handleRectPathLoop exampleRectOnlyPath RectPathLocals.init =
      some { layerName := some "M1", point := none,
             rect := some (-70, -100, 70, 100) } ∧
    handleRectPath techM1 exampleRectOnlyPath = none ∧
    handleRectPathLoop exampleNoLayerPath RectPathLocals.init =
      some { layerName := none, point := some (500, 500),
             rect := some (-70, -100, 70, 100) } ∧
    handleRectPath techM1 exampleNoLayerPath = none ∧
    netCallback examplePointOnlyNet exampleReader = none := by
  refine ⟨?_, ?_, ?_, ?_, ?_, ?_, ?_⟩ <;> rfl

/-! ## Properties of viaCallback -/

/-- Claim C25 (via construction is not transactional).  For every via event
without polygons that has a via rule whose layer triple is refused by
viaLayers, viaCallback returns PARSE_ERROR after exactly the calls viaBegin,
viaRule, viaCutSize and viaLayers on the via builder; none of its calls is
viaCutSpacing, viaEnclosure, viaRect or viaEnd. -/
theorem viaCallback_not_transactional
    (viaLayers : String → String → String → Bool) (via : defiVia)
    (reader : definReader) (r : defiViaRule)
    (hpolygons : ¬ via.numPolygons > 0) (hrule : via.viaRule = some r)
    (hrefused : viaLayers r.botLayer r.cutLayer r.topLayer = false) :
    (viaCallback viaLayers via reader).result = .PARSE_ERROR ∧
    (viaCallback viaLayers via reader).calls =
      [.viaBegin via.name, .viaRule r.viaRuleName,
       .viaCutSize r.xSize r.ySize,
       .viaLayers r.botLayer r.cutLayer r.topLayer] ∧
    (∀ c ∈ (viaCallback viaLayers via reader).calls,
      (∀ x y, c ≠ .viaCutSpacing x y) ∧
      (∀ xb yb xt yt, c ≠ .viaEnclosure xb yb xt yt) ∧
      (∀ layer xl yl xh yh, c ≠ .viaRect layer xl yl xh yh) ∧
      c ≠ .viaEnd) := by
  have hcalls : viaRuleCalls viaLayers via =
      (false, [.viaRule r.viaRuleName, .viaCutSize r.xSize r.ySize,
               .viaLayers r.botLayer r.cutLayer r.topLayer]) := by
    simp [viaRuleCalls, hrule, hrefused]
  have hres : viaCallback viaLayers via reader =
      { result := .PARSE_ERROR
        reader := reader
        calls := [.viaBegin via.name, .viaRule r.viaRuleName,
                  .viaCutSize r.xSize r.ySize,
                  .viaLayers r.botLayer r.cutLayer r.topLayer] } := by
    unfold viaCallback
    rw [if_neg hpolygons, hcalls]
  rw [hres]
  refine ⟨rfl, rfl, ?_⟩
  intro c hc
  simp only [List.mem_cons, List.mem_singleton, List.not_mem_nil,
    or_false] at hc
  rcases hc with e | e | e | e <;> subst e <;> simp

/-- Claim C25, witness: the generated via of the example, whose top layer M9
the via builder refuses. -/
theorem viaCallback_not_transactional_witness :
    (viaCallback exampleViaLayers exampleVia exampleReader).result
      = .PARSE_ERROR ∧
    (viaCallback exampleViaLayers exampleVia exampleReader).calls =
      [.viaBegin "via1_gen", .viaRule "VIAGEN12", .viaCutSize 70 70,
       .viaLayers "M1" "V1" "M9"] :=
  have h := viaCallback_not_transactional exampleViaLayers exampleVia
    exampleReader
    { viaRuleName := "VIAGEN12", xSize := 70, ySize := 70
      botLayer := "M1", cutLayer := "V1", topLayer := "M9"
      xCutSpacing := 80, yCutSpacing := 80
      xBotEnc := 10, yBotEnc := 10
      xTopEnc := 20, yTopEnc := 20 }
    (by decide) rfl (by decide)
  ⟨h.1, h.2.1⟩

/-! ## Rejection of the unsupported features of a whole event -/

/-- A blockage event with one of the four flags has a message from the
checks at the head of blockageCallback. -/
theorem blockageUnsupported_some (blockage : defiBlockage)
    (h : blockage.hasExceptpgnet = true ∨ blockage.hasMask = true ∨
      blockage.hasSoft = true ∨ blockage.hasPartial = true) :
    ∃ msg, blockageUnsupported blockage = some msg := by
  unfold blockageUnsupported
  split_ifs <;> simp_all

/-- A net event with one of the eight unsupported features has a message
from the checks at the head of netCallback. -/
theorem netUnsupported_some (net : defiNet)
    (h : net.numShieldNets > 0 ∨ net.numVpins > 0 ∨ net.hasSubnets = true ∨
      net.hasXTalk = true ∨ net.hasFrequency = true ∨
      net.hasOriginal = true ∨ net.hasPattern = true ∨ net.hasCap = true) :
    ∃ msg, netUnsupported net = some msg := by
  unfold netUnsupported
  split_ifs <;> simp_all

/-- A pin event with one of the unsupported features has a message from the
checks at the head of pinCallback. -/
theorem pinUnsupported_some (pin : defiPin)
    (h : pin.numVias > 0 ∨ pin.hasNetExpr = true ∨
      (pin.hasAPinPartialMetalArea = true ∨
        pin.hasAPinPartialMetalSideArea = true ∨
        pin.hasAPinDiffArea = true ∨ pin.hasAPinPartialCutArea = true ∨
        pin.numAntennaModel > 0) ∨
      pin.numPorts > 1 ∨ pin.numPolygons > 0) :
    ∃ msg, pinUnsupported pin = some msg := by
  unfold pinUnsupported
  split_ifs <;> simp_all

/-- A special net event with one of the seven unsupported features has a
message from the checks at the head of specialNetCallback. -/
theorem snetUnsupported_some (net : defiSNet)
    (h : net.hasCap = true ∨ net.hasPattern = true ∨
      net.hasOriginal = true ∨ net.numShieldNets > 0 ∨
      net.hasVoltage = true ∨ net.numPolygons > 0 ∨ net.numViaSpecs > 0) :
    ∃ msg, snetUnsupported net = some msg := by
  unfold snetUnsupported
  split_ifs <;> simp_all

/-- Claim C27 (whole-event unsupported features are rejected atomically).
For every blockage event with an EXCEPTPGNET, MASK, SOFT or PARTIAL flag,
every net event with a shield net, virtual pin, subnet, crosstalk, frequency,
original, pattern or estimated capacitance, every pin event with a via, net
expression, antenna data, more than one port or a polygon, every via event
with a polygon, and every special-net event with estimated capacitance,
pattern, original, shield net, voltage, polygon or via spec, the callback
returns PARSE_ERROR, increases the error count of the reader by exactly 1 and
makes no builder call. -/
theorem unsupported_event_rejected (reader : definReader)
    (viaLayers : String → String → String → Bool)
    (blockage : defiBlockage) (net : defiNet) (pin : defiPin)
    (via : defiVia) (snet : defiSNet) :
    ((blockage.hasExceptpgnet = true ∨ blockage.hasMask = true ∨
        blockage.hasSoft = true ∨ blockage.hasPartial = true) →
      (blockageCallback blockage reader).result = .PARSE_ERROR ∧
      (blockageCallback blockage reader).reader._errors
        = reader._errors + 1 ∧
      (blockageCallback blockage reader).calls = []) ∧
    ((net.numShieldNets > 0 ∨ net.numVpins > 0 ∨ net.hasSubnets = true ∨
        net.hasXTalk = true ∨ net.hasFrequency = true ∨
        net.hasOriginal = true ∨ net.hasPattern = true ∨
        net.hasCap = true) →
      ∃ r, netCallback net reader = some r ∧ r.result = .PARSE_ERROR ∧
        r.reader._errors = reader._errors + 1 ∧
        r.netCalls = [] ∧ r.blockCalls = [] ∧ r.componentCalls = [] ∧
        r.propDefsCalls = [] ∧ r.snetCalls = []) ∧
    ((pin.numVias > 0 ∨ pin.hasNetExpr = true ∨
        (pin.hasAPinPartialMetalArea = true ∨
          pin.hasAPinPartialMetalSideArea = true ∨
          pin.hasAPinDiffArea = true ∨ pin.hasAPinPartialCutArea = true ∨
          pin.numAntennaModel > 0) ∨
        pin.numPorts > 1 ∨ pin.numPolygons > 0) →
      ∃ r, pinCallback pin reader = some r ∧ r.result = .PARSE_ERROR ∧
        r.reader._errors = reader._errors + 1 ∧ r.calls = []) ∧
    (via.numPolygons > 0 →
      (viaCallback viaLayers via reader).result = .PARSE_ERROR ∧
      (viaCallback viaLayers via reader).reader._errors
        = reader._errors + 1 ∧
      (viaCallback viaLayers via reader).calls = []) ∧
    ((snet.hasCap = true ∨ snet.hasPattern = true ∨
        snet.hasOriginal = true ∨ snet.numShieldNets > 0 ∨
        snet.hasVoltage = true ∨ snet.numPolygons > 0 ∨
        snet.numViaSpecs > 0) →
      ∃ r, specialNetCallback snet reader = some r ∧
        r.result = .PARSE_ERROR ∧
        r.reader._errors = reader._errors + 1 ∧
        r.snetCalls = [] ∧ r.blockCalls = [] ∧ r.componentCalls = [] ∧
        r.propDefsCalls = [] ∧ r.netCalls = []) := by
  refine ⟨?_, ?_, ?_, ?_, ?_⟩
  · intro h
    obtain ⟨msg, hmsg⟩ := blockageUnsupported_some blockage h
    simp [blockageCallback, hmsg, BuilderResult.reject, definReader.error]
  · intro h
    obtain ⟨msg, hmsg⟩ := netUnsupported_some net h
    exact ⟨reader.reject msg [], by simp [netCallback, hmsg],
      rfl, rfl, rfl, rfl, rfl, rfl, rfl⟩
  · intro h
    obtain ⟨msg, hmsg⟩ := pinUnsupported_some pin h
    exact ⟨BuilderResult.reject reader msg [], by simp [pinCallback, hmsg],
      rfl, rfl, rfl⟩
  · intro h
    simp [viaCallback, h, BuilderResult.reject, definReader.error]
  · intro h
    obtain ⟨msg, hmsg⟩ := snetUnsupported_some snet h
    exact ⟨{ result := .PARSE_ERROR
             reader := (reader.error msg).1
             notices := (reader.error msg).2 },
      by simp [specialNetCallback, hmsg], rfl, rfl, rfl, rfl, rfl, rfl, rfl⟩

/-- Claim C27, witness: a blockage with the SOFT flag, a net with a shield
net and a subnet, a pin with two ports, a via with a polygon and a special
net with a voltage are each rejected with one error and no builder call. -/
theorem unsupported_event_rejected_witness :
    ((blockageCallback exampleSoftBlockage exampleReader).result
        = .PARSE_ERROR ∧
      (blockageCallback exampleSoftBlockage exampleReader).reader._errors
        = exampleReader._errors + 1 ∧
      (blockageCallback exampleSoftBlockage exampleReader).calls = []) ∧
    (∃ r, netCallback exampleShieldNet exampleReader = some r ∧
      r.result = .PARSE_ERROR ∧
      r.reader._errors = exampleReader._errors + 1 ∧
      r.netCalls = [] ∧ r.blockCalls = [] ∧ r.componentCalls = [] ∧
      r.propDefsCalls = [] ∧ r.snetCalls = []) ∧
    (∃ r, pinCallback exampleTwoPortPin exampleReader = some r ∧
      r.result = .PARSE_ERROR ∧
      r.reader._errors = exampleReader._errors + 1 ∧ r.calls = []) ∧
    ((viaCallback exampleViaLayers examplePolygonVia exampleReader).result
        = .PARSE_ERROR ∧
      (viaCallback exampleViaLayers examplePolygonVia
          exampleReader).reader._errors = exampleReader._errors + 1 ∧
      (viaCallback exampleViaLayers examplePolygonVia exampleReader).calls
        = []) ∧
    (∃ r, specialNetCallback exampleVoltageSNet exampleReader = some r ∧
      r.result = .PARSE_ERROR ∧
      r.reader._errors = exampleReader._errors + 1 ∧
      r.snetCalls = [] ∧ r.blockCalls = [] ∧ r.componentCalls = [] ∧
      r.propDefsCalls = [] ∧ r.netCalls = []) :=
  have h := unsupported_event_rejected exampleReader exampleViaLayers
    exampleSoftBlockage exampleShieldNet exampleTwoPortPin examplePolygonVia
    exampleVoltageSNet
  ⟨h.1 (by decide), h.2.1 (by decide), h.2.2.1 (by decide),
   h.2.2.2.1 (by decide), h.2.2.2.2 (by decide)⟩

/-! ## The begin and end calls of the construct callbacks -/

/-- The calls of netCallback are none, or they start with begin; when
netCallback returns PARSE_OK they start with begin and finish with end. -/
theorem netCallback_begin_end (net : defiNet) (reader : definReader)
    (r : CallbackResult) (h : netCallback net reader = some r) :
    (r.netCalls = [] ∨ ∃ mid, r.netCalls = .begin net.name :: mid) ∧
    (r.result = .PARSE_OK →
      ∃ mid, r.netCalls = .begin net.name :: mid ++ [.end_]) := by
  unfold netCallback at h
  split at h
  · injection h with h; subst h
    exact ⟨Or.inl rfl, fun hr => absurd hr (by simp [definReader.reject])⟩
  · split at h
    · injection h with h; subst h
      refine ⟨Or.inr ?_,
        fun hr => absurd hr (by simp [definReader.reject])⟩
      exact ⟨_, rfl⟩
    · split at h
      · exact absurd h (by simp)
      · split at h <;> injection h with h <;> subst h
        · refine ⟨Or.inr ?_,
            fun hr => absurd hr (by simp [definReader.reject])⟩
          exact ⟨_, rfl⟩
        · refine ⟨Or.inr ?_, fun hr => absurd hr (by simp)⟩
          exact ⟨_, rfl⟩
      · injection h with h; subst h
        refine ⟨Or.inr ?_, fun _ => ?_⟩
        · exact ⟨_, rfl⟩
        · exact ⟨_, rfl⟩

/-- The calls of specialNetCallback are none, or they start with begin; when
specialNetCallback returns PARSE_OK they start with begin and finish with
end. -/
theorem specialNetCallback_begin_end (net : defiSNet) (reader : definReader)
    (r : CallbackResult) (h : specialNetCallback net reader = some r) :
    (r.snetCalls = [] ∨ ∃ mid, r.snetCalls = .begin net.name :: mid) ∧
    (r.result = .PARSE_OK →
      ∃ mid, r.snetCalls = .begin net.name :: mid ++ [.end_]) := by
  unfold specialNetCallback at h
  split at h
  · injection h with h; subst h
    exact ⟨Or.inl rfl, fun hr => absurd hr (by simp)⟩
  · split at h
    · exact absurd h (by simp)
    · split at h <;> injection h with h <;> subst h
      · refine ⟨Or.inr ?_, fun hr => absurd hr (by simp)⟩
        exact ⟨_, rfl⟩
      · refine ⟨Or.inr ?_, fun hr => absurd hr (by simp)⟩
        exact ⟨_, rfl⟩
    · injection h with h; subst h
      refine ⟨Or.inr ?_, fun _ => ?_⟩
      · exact ⟨_, rfl⟩
      · exact ⟨_, rfl⟩

/-- The calls of pinCallback are none, or they start with pinBegin; when
pinCallback returns PARSE_OK they start with pinBegin and finish with
pinEnd. -/
theorem pinCallback_begin_end (pin : defiPin) (reader : definReader)
    (r : BuilderResult PinCall) (h : pinCallback pin reader = some r) :
    (r.calls = [] ∨
      ∃ mid, r.calls = .pinBegin pin.pinName pin.netName :: mid) ∧
    (r.result = .PARSE_OK →
      ∃ mid, r.calls =
        .pinBegin pin.pinName pin.netName :: mid ++ [.pinEnd]) := by
  unfold pinCallback at h
  split at h
  · injection h with h; subst h
    exact ⟨Or.inl rfl, fun hr => absurd hr (by simp [BuilderResult.reject])⟩
  · split at h
    · injection h with h; subst h
      refine ⟨Or.inr ?_,
        fun hr => absurd hr (by simp [BuilderResult.reject])⟩
      exact ⟨_, rfl⟩
    · cases hp : pinPlacementCalls pin with
      | none => rw [hp] at h; simp at h
      | some placement =>
        rw [hp] at h
        simp only [Option.map_some', Option.some.injEq] at h
        subst h
        refine ⟨Or.inr ?_, fun _ => ?_⟩
        · exact ⟨_, rfl⟩
        · exact ⟨_, rfl⟩

/-- The calls of viaCallback are none, or they start with viaBegin; when
viaCallback returns PARSE_OK they start with viaBegin and finish with
viaEnd. -/
theorem viaCallback_begin_end (viaLayers : String → String → String → Bool)
    (via : defiVia) (reader : definReader) :
    ((viaCallback viaLayers via reader).calls = [] ∨
      ∃ mid, (viaCallback viaLayers via reader).calls
        = .viaBegin via.name :: mid) ∧
    ((viaCallback viaLayers via reader).result = .PARSE_OK →
      ∃ mid, (viaCallback viaLayers via reader).calls
        = .viaBegin via.name :: mid ++ [.viaEnd]) := by
  unfold viaCallback
  split
  · exact ⟨Or.inl rfl, fun hr => absurd hr (by simp [BuilderResult.reject])⟩
  · split
    · exact ⟨Or.inr ⟨_, rfl⟩, fun hr => absurd hr (by simp)⟩
    · split
      · exact ⟨Or.inr ⟨_, rfl⟩,
          fun hr => absurd hr (by simp [BuilderResult.reject])⟩
      · exact ⟨Or.inr ⟨_, rfl⟩, fun _ => ⟨_, rfl⟩⟩

/-- The calls of nonDefaultRuleCallback start with beginRule; when
nonDefaultRuleCallback returns PARSE_OK they finish with endRule. -/
theorem nonDefaultRuleCallback_begin_end (rule : defiNonDefault)
    (reader : definReader) :
    ((nonDefaultRuleCallback rule reader).calls = [] ∨
      ∃ mid, (nonDefaultRuleCallback rule reader).calls
        = .beginRule rule.name :: mid) ∧
    ((nonDefaultRuleCallback rule reader).result = .PARSE_OK →
      ∃ mid, (nonDefaultRuleCallback rule reader).calls
        = .beginRule rule.name :: mid ++ [.endRule]) := by
  unfold nonDefaultRuleCallback
  split
  · exact ⟨Or.inr ⟨_, rfl⟩,
      fun hr => absurd hr (by simp [BuilderResult.reject])⟩
  · refine ⟨Or.inr ?_, fun _ => ?_⟩
    · exact ⟨_, rfl⟩
    · exact ⟨_, rfl⟩

/-- The calls of componentsCallback are none, or they start with begin and
finish with end. -/
theorem componentsCallback_begin_end (comp : defiComponent)
    (reader : definReader) :
    (componentsCallback comp reader).componentCalls = [] ∨
    ∃ mid, (componentsCallback comp reader).componentCalls
      = .begin comp.id comp.name :: mid ++ [.end_] := by
  unfold componentsCallback
  split
  · exact Or.inl rfl
  · right
    exact ⟨_, rfl⟩

/-- The calls of blockageCallback are none, or they start with
blockageRoutingBegin and finish with blockageRoutingEnd, or they start with
blockagePlacementBegin and finish with blockagePlacementEnd. -/
theorem blockageCallback_begin_end (blockage : defiBlockage)
    (reader : definReader) :
    (blockageCallback blockage reader).calls = [] ∨
    (∃ layer mid, (blockageCallback blockage reader).calls
      = .blockageRoutingBegin layer :: mid ++ [.blockageRoutingEnd]) ∨
    (∃ mid, (blockageCallback blockage reader).calls
      = .blockagePlacementBegin :: mid ++ [.blockagePlacementEnd]) := by
  unfold blockageCallback
  split
  · exact Or.inl rfl
  · split
    · exact Or.inr (Or.inl ⟨_, _, rfl⟩)
    · exact Or.inr (Or.inr ⟨_, rfl⟩)

/-- The calls of trackCallback are none, or they start with tracksBegin and
finish with tracksEnd. -/
theorem trackCallback_begin_end (track : defiTrack) (reader : definReader) :
    (trackCallback track reader).calls = [] ∨
    ∃ mid, (trackCallback track reader).calls
      = .tracksBegin (trackDirection track) track.x track.xNum track.xStep
          :: mid ++ [.tracksEnd] := by
  unfold trackCallback
  split
  · exact Or.inl rfl
  · exact Or.inr ⟨_, rfl⟩

/-- The calls of regionCallback start with begin and finish with end. -/
theorem regionCallback_begin_end (region : defiRegion)
    (reader : definReader) (r : BuilderResult RegionCall)
    (h : regionCallback region reader = some r) :
    ∃ mid, r.calls = .begin region.name false :: mid ++ [.end_] := by
  unfold regionCallback at h
  cases ht : regionTypeCalls region with
  | none => rw [ht] at h; simp at h
  | some typeCalls =>
    rw [ht] at h
    simp only [Option.map_some', Option.some.injEq] at h
    subst h
    exact ⟨_, rfl⟩

/-- The calls of propCallback start with begin and finish with end. -/
theorem propCallback_begin_end (prop : defiPropDef) (reader : definReader)
    (r : CallbackResult) (h : propCallback prop reader = some r) :
    ∃ data_type mid, r.propDefsCalls =
      .begin (prop.propType.map toupper) prop.propName data_type
        :: mid ++ [.end_] := by
  unfold propCallback at h
  split at h
  · exact absurd h (by simp)
  · rename_i data_type _
    simp only at h
    split at h
    · split at h
      · exact absurd h (by simp)
      · rename_i rangeCall _
        injection h with h; subst h
        exact ⟨data_type, rangeCall :: propValueCalls prop data_type, rfl⟩
    · injection h with h; subst h
      exact ⟨data_type, propValueCalls prop data_type, rfl⟩

/-- Claim C24 fails on the code: netCallback returns PARSE_ERROR at the
synthesized connection of the example net after the calls begin and
connection, nonDefaultRuleCallback returns PARSE_ERROR at the diagonal width
of the second layer of the example rule after beginRule and the calls for the
first layer, and pinCallback returns PARSE_ERROR at the mask of the second
layer of the example pin after pinBegin; none of the three sequences of
calls finishes with the end call of its builder. -/
theorem open_entity_counterexample :
    (netCallback exampleSynthesizedNet exampleReader).map
        (fun r => (r.result, r.netCalls)) =
      some (.PARSE_ERROR, [.begin "n1", .connection "u1" "A"]) ∧
    (nonDefaultRuleCallback exampleDiagWidthRule exampleReader).result
      = .PARSE_ERROR ∧
    (nonDefaultRuleCallback exampleDiagWidthRule exampleReader).calls =
      [.beginRule "wide", .hardSpacing, .beginLayerRule "M1" 280,
       .spacing 140, .endLayerRule] ∧
    (pinCallback exampleMaskPin exampleReader).map
        (fun r => (r.result, r.calls)) =
      some (.PARSE_ERROR,
        [.pinBegin "clk" "clk", .pinUse "CLOCK", .pinDirection "INPUT",
         .pinRect "M1" (-35) 0 35 70]) := by
  refine ⟨?_, ?_, ?_, ?_⟩ <;> rfl

/-- Claim C24, amended (the end call is stated for PARSE_OK, and for the
callbacks that return PARSE_ERROR before their begin call only).  For every
event, the calls that netCallback, specialNetCallback, pinCallback,
viaCallback and nonDefaultRuleCallback make on their builder are none or
start with the begin call of the builder, and they finish with the matching
end call when the callback returns PARSE_OK; the calls that
componentsCallback, blockageCallback, rowCallback, regionCallback,
trackCallback, propCallback and pinPropCallback make on their builder are
none or start with the begin call and finish with the matching end call. -/
theorem builder_calls_begin_end (reader : definReader)
    (viaLayers : String → String → String → Bool)
    (comp : defiComponent) (net : defiNet) (snet : defiSNet) (pin : defiPin)
    (via : defiVia) (rule : defiNonDefault) (blockage : defiBlockage)
    (row : defiRow) (region : defiRegion) (track : defiTrack)
    (prop : defiPropDef) (pinProp : defiPinProp) :
    ((componentsCallback comp reader).componentCalls = [] ∨
      ∃ mid, (componentsCallback comp reader).componentCalls
        = .begin comp.id comp.name :: mid ++ [.end_]) ∧
    (∀ r, netCallback net reader = some r →
      (r.netCalls = [] ∨ ∃ mid, r.netCalls = .begin net.name :: mid) ∧
      (r.result = .PARSE_OK →
        ∃ mid, r.netCalls = .begin net.name :: mid ++ [.end_])) ∧
    (∀ r, specialNetCallback snet reader = some r →
      (r.snetCalls = [] ∨ ∃ mid, r.snetCalls = .begin snet.name :: mid) ∧
      (r.result = .PARSE_OK →
        ∃ mid, r.snetCalls = .begin snet.name :: mid ++ [.end_])) ∧
    (∀ r, pinCallback pin reader = some r →
      (r.calls = [] ∨
        ∃ mid, r.calls = .pinBegin pin.pinName pin.netName :: mid) ∧
      (r.result = .PARSE_OK →
        ∃ mid, r.calls =
          .pinBegin pin.pinName pin.netName :: mid ++ [.pinEnd])) ∧
    (((viaCallback viaLayers via reader).calls = [] ∨
        ∃ mid, (viaCallback viaLayers via reader).calls
          = .viaBegin via.name :: mid) ∧
      ((viaCallback viaLayers via reader).result = .PARSE_OK →
        ∃ mid, (viaCallback viaLayers via reader).calls
          = .viaBegin via.name :: mid ++ [.viaEnd])) ∧
    (((nonDefaultRuleCallback rule reader).calls = [] ∨
        ∃ mid, (nonDefaultRuleCallback rule reader).calls
          = .beginRule rule.name :: mid) ∧
      ((nonDefaultRuleCallback rule reader).result = .PARSE_OK →
        ∃ mid, (nonDefaultRuleCallback rule reader).calls
          = .beginRule rule.name :: mid ++ [.endRule])) ∧
    ((blockageCallback blockage reader).calls = [] ∨
      (∃ layer mid, (blockageCallback blockage reader).calls
        = .blockageRoutingBegin layer :: mid ++ [.blockageRoutingEnd]) ∨
      (∃ mid, (blockageCallback blockage reader).calls
        = .blockagePlacementBegin :: mid ++ [.blockagePlacementEnd])) ∧
    (∃ mid, (rowCallback row reader).calls =
      .begin row.name row.macroName row.x row.y
          (translate_orientation row.orient) (rowLocals row).1
          (rowLocals row).2.1 (rowLocals row).2.2
        :: mid ++ [.end_]) ∧
    (∀ r, regionCallback region reader = some r →
      ∃ mid, r.calls = .begin region.name false :: mid ++ [.end_]) ∧
    ((trackCallback track reader).calls = [] ∨
      ∃ mid, (trackCallback track reader).calls
        = .tracksBegin (trackDirection track) track.x track.xNum
            track.xStep :: mid ++ [.tracksEnd]) ∧
    (∀ r, propCallback prop reader = some r →
      ∃ data_type mid, r.propDefsCalls =
        .begin (prop.propType.map toupper) prop.propName data_type
          :: mid ++ [.end_]) ∧
    (∃ mid, (pinPropCallback pinProp reader).calls =
      .begin (if pinProp.isPin then "PIN" else pinProp.instName)
          pinProp.pinName
        :: mid ++ [.end_]) :=
  ⟨componentsCallback_begin_end comp reader,
   fun r h => netCallback_begin_end net reader r h,
   fun r h => specialNetCallback_begin_end snet reader r h,
   fun r h => pinCallback_begin_end pin reader r h,
   viaCallback_begin_end viaLayers via reader,
   nonDefaultRuleCallback_begin_end rule reader,
   blockageCallback_begin_end blockage reader,
   ⟨_, rfl⟩,
   fun r h => regionCallback_begin_end region reader r h,
   trackCallback_begin_end track reader,
   fun r h => propCallback_begin_end prop reader r h,
   ⟨_, rfl⟩⟩

/-- Claim C24, amended, witness: the example events of the twelve
constructs.  The net n1 with its rect path is built from begin to end with
PARSE_OK, and the pin clk from pinBegin to pinEnd. -/
theorem builder_calls_begin_end_witness :
    (∃ r, netCallback exampleRectNet exampleReader = some r ∧
      r.result = .PARSE_OK ∧
      ∃ mid, r.netCalls = .begin "n1" :: mid ++ [.end_]) ∧
    (∃ r, pinCallback examplePin exampleReader = some r ∧
      r.result = .PARSE_OK ∧
      ∃ mid, r.calls = .pinBegin "clk" "clk" :: mid ++ [.pinEnd]) :=
  have h := builder_calls_begin_end exampleReader exampleViaLayers
    exampleHaloComponent exampleRectNet exampleSNet examplePin exampleVia
    exampleRule exampleBlockage exampleRow exampleRegion exampleTrack
    examplePropDef examplePinProp
  ⟨⟨_, rfl, rfl, (h.2.1 _ rfl).2 rfl⟩,
   ⟨_, rfl, rfl, (h.2.2.2.1 _ rfl).2 rfl⟩⟩

/-! ## The interpretation of the tokens of a path in netCallback -/

/-- The interpretation of the tokens of a path that is made of supported
items runs to the end of the path and makes the one call of each item, in
order. -/
theorem netPathLoop_items (items : List SpecPathItem) :
    netPathLoop (specPathTokens items) =
      (none, items.map SpecPathItem.call) := by
  induction items with
  | nil => rfl
  | cons item rest ih =>
    have hcons : specPathTokens (item :: rest) =
        item.tokens ++ specPathTokens rest := by
      simp [specPathTokens]
    rw [hcons]
    cases item with
    | layerTaper l =>
      simp [SpecPathItem.tokens, SpecPathItem.call, netPathLoop, ih]
    | layerTaperRule l rule =>
      simp [SpecPathItem.tokens, SpecPathItem.call, netPathLoop, ih]
    | layer l =>
      cases rest with
      | nil => simp [SpecPathItem.tokens, SpecPathItem.call, specPathTokens,
          netPathLoop]
      | cons item2 rest2 =>
        have hcons2 : specPathTokens (item2 :: rest2) =
            item2.tokens ++ specPathTokens rest2 := by
          simp [specPathTokens]
        rw [hcons2] at ih ⊢
        cases item2 <;>
          simp [SpecPathItem.tokens, SpecPathItem.call, netPathLoop] at ih ⊢ <;>
          simp [ih]
    | viaRotation v rotation =>
      simp [SpecPathItem.tokens, SpecPathItem.call, netPathLoop, ih]
    | via v =>
      cases rest with
      | nil => simp [SpecPathItem.tokens, SpecPathItem.call, specPathTokens,
          netPathLoop]
      | cons item2 rest2 =>
        have hcons2 : specPathTokens (item2 :: rest2) =
            item2.tokens ++ specPathTokens rest2 := by
          simp [specPathTokens]
        rw [hcons2] at ih ⊢
        cases item2 <;>
          simp [SpecPathItem.tokens, SpecPathItem.call, netPathLoop] at ih ⊢ <;>
          simp [ih]
    | point x y =>
      simp [SpecPathItem.tokens, SpecPathItem.call, netPathLoop, ih]
    | flushPoint x y ext =>
      simp [SpecPathItem.tokens, SpecPathItem.call, netPathLoop, ih]

/-- A path that is made of supported items has no rect token. -/
theorem specPathTokens_no_rect (items : List SpecPathItem) :
    ∀ t ∈ specPathTokens items, t.isRect = false := by
  intro t ht
  simp only [specPathTokens, List.mem_flatMap] at ht
  obtain ⟨item, _, hmem⟩ := ht
  cases item <;>
    simp only [SpecPathItem.tokens, List.mem_cons, List.mem_singleton,
      List.not_mem_nil, or_false] at hmem <;>
    first
      | (subst hmem; rfl)
      | (rcases hmem with e | e <;> subst e <;> rfl)

/-- When handleRectPath returns false on a path that is made of supported
items, it has left from its loop and made no call. -/
theorem handleRectPath_items_false (tech : dbTech)
    (items : List SpecPathItem) (calls : List NetCall)
    (h : handleRectPath tech (specPathTokens items) = some (false, calls)) :
    calls = [] := by
  rcases handleRectPath_false_inv tech _ calls h with h1 | h2
  · exact h1.2
  · obtain ⟨s, layer, hloop, _, hr, _⟩ := h2
    obtain ⟨_, _, _, _, _, _, _, h8⟩ :=
      handleRectPathLoop_tokens _ RectPathLocals.init s hloop
    rcases h8 with ⟨e, _⟩ | ⟨a, b, c, d, _, hm⟩
    · rw [e] at hr; simp [RectPathLocals.init] at hr
    · have := specPathTokens_no_rect items _ hm
      simp [defiPathTok.isRect] at this

/-- The loop of netCallback over the paths of a wire, all of them made of
supported items and none of them taken by handleRectPath, runs to the end and
makes the calls of each path, followed by pathEnd, in order. -/
theorem netPathsLoop_items (tech : dbTech)
    (paths : List (List SpecPathItem))
    (h : ∀ items ∈ paths, ∃ calls,
      handleRectPath tech (specPathTokens items) = some (false, calls)) :
    netPathsLoop tech (paths.map specPathTokens) =
      some (none, paths.flatMap specPathCalls) := by
  induction paths with
  | nil => rfl
  | cons items rest ih =>
    obtain ⟨calls, hcalls⟩ := h items (List.mem_cons_self _ _)
    have hnil := handleRectPath_items_false tech items calls hcalls
    subst hnil
    have hrest := ih (fun i hi => h i (List.mem_cons_of_mem _ hi))
    simp only [List.map_cons, netPathsLoop, hcalls, netPathLoop_items, hrest,
      Option.map_some', List.flatMap_cons, specPathCalls, List.nil_append,
      List.append_assoc, List.singleton_append]

/-- The loop of netCallback over wires whose paths are all made of supported
items and not taken by handleRectPath runs to the end and makes the calls of
each wire, in order. -/
theorem netWiresLoop_items (tech : dbTech)
    (wires : List (String × List (List SpecPathItem)))
    (h : ∀ wire ∈ wires, ∀ items ∈ wire.2, ∃ calls,
      handleRectPath tech (specPathTokens items) = some (false, calls)) :
    netWiresLoop tech (wires.map specWire) =
      some (none, wires.flatMap specWireCalls) := by
  induction wires with
  | nil => rfl
  | cons wire rest ih =>
    have hpaths := netPathsLoop_items tech wire.2
      (h wire (List.mem_cons_self _ _))
    have hrest := ih (fun w hw => h w (List.mem_cons_of_mem _ hw))
    simp only [List.map_cons, netWiresLoop, specWire, hpaths] at hrest ⊢
    simp only [hrest, Option.map_some', List.flatMap_cons, specWireCalls,
      List.cons_append, List.append_assoc, List.singleton_append,
      List.nil_append]

/-- Claim C26 (taper and via-rotation lookahead with push-back).  For every
net event without unsupported feature and without synthesized connection
whose paths are made of supported items, none of them taken by the rect-path
heuristic, netCallback returns PARSE_OK, and its calls for a path are one
call for each item, in source order, followed by one pathEnd: pathTaper for a
layer token followed by a taper token, pathTaperRule for a layer token
followed by a taper-rule token, path for any other layer token, pathVia with
the orientation for a via token followed by a via-rotation token, pathVia for
any other via token, and pathPoint for every point and flush-point token. -/
theorem netCallback_lookahead (net : defiNet) (reader : definReader)
    (wires : List (String × List (List SpecPathItem)))
    (hsupported : netUnsupported net = none)
    (hconnections : ∀ c ∈ net.connections, c.pinIsSynthesized = false)
    (hwires : net.wires = wires.map specWire)
    (hrect : ∀ wire ∈ wires, ∀ items ∈ wire.2, ∃ calls,
      handleRectPath reader._tech (specPathTokens items)
        = some (false, calls)) :
    netCallback net reader =
      some { result := .PARSE_OK
             reader := reader
             netCalls := netHeaderCalls net
               ++ net.connections.map netConnectionCall
               ++ wires.flatMap specWireCalls
               ++ (handle_props net.props).map NetCall.property
               ++ [NetCall.end_] } := by
  have hconn := netConnectionsLoop_complete net.connections hconnections
  have hw := netWiresLoop_items reader._tech wires hrect
  rw [← hwires] at hw
  unfold netCallback
  rw [hsupported]
  simp only [hconn, hw]

/-- Claim C26, witness: the example net with a taper, a rotated via, a
plain layer, a flush point, a plain via and a taper rule. -/
theorem netCallback_lookahead_witness :
    netCallback exampleTaperNet exampleReader =
      some { result := .PARSE_OK
             reader := exampleReader
             netCalls :=
               [.begin "n1", .connection "u1" "A", .beginMustjoin "u2" "Z",
                .wire "ROUTED", .pathTaper "M1", .pathPoint 0 0,
                .pathPoint 100 0, .pathViaOrient "via1" .R90,
                .path (some "M2"), .pathPointExt 100 200 35, .pathVia "via2",
                .pathEnd, .pathTaperRule "M1" "wide", .pathPoint 0 0,
                .pathPoint 0 50, .pathEnd, .wireEnd, .end_] } :=
  netCallback_lookahead exampleTaperNet exampleReader
    [("ROUTED",
      [exampleTaperItems,
       [.layerTaperRule "M1" "wide", .point 0 0, .point 0 50]])]
    rfl (by decide) rfl
    (by
      intro wire hw items hi
      simp only [List.mem_singleton] at hw
      subst hw
      simp only [List.mem_cons, List.mem_singleton, List.not_mem_nil,
        or_false] at hi
      rcases hi with e | e <;> subst e <;> exact ⟨[], rfl⟩)

end odb
